import Mathlib

/-!
# Graph generation (src/backend/utils/graph_generation.c)

A shallow embedding of the three topology generators of `graph_generation.c`:
`create_complete_graph`, `age_create_barbell_graph` and `create_cycle_graph`.

Modelling decisions.

* The database is a value of type `World`: the graph and label catalogs, the
  state of every label sequence, and the log of the rows handed to
  `insert_vertex_simple` / `insert_edge_simple`, oldest first.
* Every function that can `ereport(ERROR, ...)` returns the pair of an
  `Except Abort _` and the world at the point where it stopped, so that
  "nothing was created before the failure" is the statement that this world is
  the initial one.
* `make_graphid`, `get_graph_oid` and `get_label_id` are declared in headers
  that are not part of the translated file; they are the fields of `Backend`
  and every theorem holds for all of them.
* A label sequence is an arbitrary stream of values together with the number of
  values already handed out; `nextval_internal` returns the next value of the
  stream.  Consecutive, fresh or merely duplicate-free allocators are
  hypotheses on that stream.
* `int64` arithmetic is arithmetic in `Int` (every such value is a loop
  counter or a sequence value).  The narrowing conversions to 32 bits
  (`PG_GETARG_INT32`, the `int` field `graph_size`, the `int` locals of
  `create_vertex` and `connect_vertexes_by_graphid`) are explicit (`int32_of`).
-/

namespace GraphGeneration

/-! ## Data model -/

abbrev graphid := Int

abbrev Oid := Nat

/-- Property payload of a vertex or an edge (an agtype map). -/
abbrev agtype := List (String × String)

def create_empty_agtype : agtype := []

/-- Name of the default vertex label (line 352: "gets default label, which is
"_ag_label_vertex""). -/
def AG_DEFAULT_LABEL_VERTEX : String := "_ag_label_vertex"

inductive ErrCode where
  | ERRCODE_INVALID_PARAMETER_VALUE
  deriving DecidableEq, Repr

/-- Ways in which a call stops without returning. -/
inductive Abort where
  /-- The call ran `ereport(ERROR, (errcode(code), errmsg(msg)))`. -/
  | ereport (code : ErrCode) (msg : String)
  /-- The call read the characters of a `Name` that is the NULL pointer. -/
  | null_name
  deriving DecidableEq, Repr

/-- Wrap an integer to the range of a signed 32-bit `int`. -/
def int32_of (x : Int) : Int := (x + 2147483648) % 4294967296 - 2147483648

/-- An integer argument of a call: the datum and its null flag
(`fcinfo->arg[i]`, `fcinfo->argnull[i]`). -/
structure IntArg where
  value : Int
  isnull : Bool
  deriving DecidableEq, Repr

def PG_GETARG_INT32 (a : IntArg) : Int := int32_of a.value

def PG_GETARG_INT64 (a : IntArg) : Int := a.value

/-- One row handed to the insertion layer. -/
inductive Insertion where
  /-- A call `insert_vertex_simple(graph_oid, label_name, vertex_id, props)`. -/
  | vertex (graph_oid : Oid) (label_name : String) (vertex_id : graphid) (props : agtype)
  /-- A call `insert_edge_simple(graph_oid, label_name, edge_id, start_id, end_id, props)`. -/
  | edge (graph_oid : Oid) (label_name : String) (edge_id start_id end_id : graphid)
      (props : agtype)
  deriving DecidableEq, Repr

/-- State of one sequence: the values it hands out, in order, and how many of
them have been handed out already. -/
structure Sequence where
  vals : Nat → Int
  pos : Nat

inductive LabelKind where
  | vertex_kind
  | edge_kind
  deriving DecidableEq, Repr

/-- The database: catalog of graphs, catalog of labels (graph oid, label name,
kind), the sequence of every label (keyed by graph oid and label name), and the
log of inserted rows. -/
structure World where
  graphs : List String
  labels : List (Oid × String × LabelKind)
  seqs : Oid → String → Sequence
  log : List Insertion

/-- The functions of other translation units that only compute: the GraphID
composer and the two name resolutions. -/
structure Backend where
  make_graphid : Int → Int → graphid
  get_graph_oid : String → Oid
  get_label_id : String → Oid → Int

/-! ## External collaborators -/

/-- Modelled from the spec: `graph_exists` (catalog/ag_graph.h) is not part of
the translated file.  It tells whether the catalog holds a graph of that name. -/
def graph_exists (w : World) (graph_name : String) : Bool :=
  decide (graph_name ∈ w.graphs)

/-- Modelled from the spec: `label_exists` (catalog/ag_label.h) is not part of
the translated file.  It tells whether the graph has a label of that name. -/
def label_exists (w : World) (label_name : String) (graph_oid : Oid) : Bool :=
  w.labels.any (fun l => decide (l.1 = graph_oid ∧ l.2.1 = label_name))

/-- Modelled from the spec: `create_graph` (commands/graph_commands.c) is not
part of the translated file.  It adds the graph to the catalog together with
its default vertex label, the label `create_complete_graph` works with, and
never creates, when no vertex label is supplied. -/
def create_graph (B : Backend) (graph_name : String) (w : World) : World :=
  { w with
    graphs := w.graphs ++ [graph_name]
    labels := w.labels ++
      [(B.get_graph_oid graph_name, AG_DEFAULT_LABEL_VERTEX, LabelKind.vertex_kind)] }

/-- Modelled from the spec: `create_vlabel` (commands/label_commands.c) is not
part of the translated file.  It adds a vertex label to the graph. -/
def create_vlabel (B : Backend) (graph_name label_name : String) (w : World) : World :=
  { w with
    labels := w.labels ++ [(B.get_graph_oid graph_name, label_name, LabelKind.vertex_kind)] }

/-- Modelled from the spec: `create_elabel` (commands/label_commands.c) is not
part of the translated file.  It adds an edge label to the graph. -/
def create_elabel (B : Backend) (graph_name label_name : String) (w : World) : World :=
  { w with
    labels := w.labels ++ [(B.get_graph_oid graph_name, label_name, LabelKind.edge_kind)] }

/-- Modelled from the spec: `nextval_internal(seq_id, true)` of the database
server, the sequence allocator, for the sequence of the label `label_name` of
the graph `graph_oid`.  It hands out the next value of the sequence. -/
def nextval_internal (graph_oid : Oid) (label_name : String) (w : World) : Int × World :=
  let s := w.seqs graph_oid label_name
  (s.vals s.pos,
   { w with
     seqs := fun g l =>
       if g = graph_oid ∧ l = label_name then { s with pos := s.pos + 1 } else w.seqs g l })

/-- Modelled from the spec: `insert_vertex_simple` (utils/load/age_load.c) is
not part of the translated file.  It records the vertex. -/
def insert_vertex_simple (graph_oid : Oid) (label_name : String) (vertex_id : graphid)
    (props : agtype) (w : World) : World :=
  { w with log := w.log ++ [Insertion.vertex graph_oid label_name vertex_id props] }

/-- Modelled from the spec: `insert_edge_simple` (utils/load/age_load.c) is
not part of the translated file.  It records the edge. -/
def insert_edge_simple (graph_oid : Oid) (label_name : String)
    (edge_id start_id end_id : graphid) (props : agtype) (w : World) : World :=
  { w with log := w.log ++ [Insertion.edge graph_oid label_name edge_id start_id end_id props] }

/-- The function `get_nextval_internal` (lines 99-110): the sequence of the
label is looked up by name in the namespace of the graph, and its next value is
returned. -/
def get_nextval_internal (graph_oid : Oid) (label_name : String) (w : World) : Int × World :=
  nextval_internal graph_oid label_name w

/-! ## Loops -/

/-- Run `body` for `k` consecutive values of the loop variable, starting at `i`. -/
def iterate_body {σ : Type} (body : Int → σ → σ) : Nat → Int → σ → σ
  | 0, _, s => s
  | k + 1, i, s => iterate_body body k (i + 1) (body i s)

/-- The loop `for (i = lo; i <= hi; i++) body`. -/
def for_le {σ : Type} (lo hi : Int) (body : Int → σ → σ) (s : σ) : σ :=
  iterate_body body (hi + 1 - lo).toNat lo s

/-- The loop `for (i = lo; i < hi; i++) body`. -/
def for_lt {σ : Type} (lo hi : Int) (body : Int → σ → σ) (s : σ) : σ :=
  iterate_body body (hi - lo).toNat lo s

/-! ## create_complete_graph (lines 119-269) -/

/-- Arguments of `create_complete_graph(graph_name, no_of_nodes, edge_label,
node_label = NULL)`; `none` is the SQL NULL. -/
structure complete_graph_args where
  graph_name : Option String
  no_vertices : IntArg
  edge_label_name : Option String
  vtx_label_name : Option String
  deriving DecidableEq, Repr

def invalid_parameter {α : Type} (msg : String) (w : World) : Except Abort α × World :=
  (Except.error (Abort.ereport ErrCode.ERRCODE_INVALID_PARAMETER_VALUE msg), w)

/-- Lines 243-245: body of the vertex loop.  The state is the local `vid` and
the world. -/
def create_complete_vertex_step (B : Backend) (graph_id : Oid) (vtx_name_str : String)
    (vtx_label_id : Int) (props : agtype) (s : Int × World) : Int × World :=
  let r := nextval_internal graph_id vtx_name_str s.2
  let vid := r.1
  let object_graph_id := B.make_graphid vtx_label_id vid
  (vid, insert_vertex_simple graph_id vtx_name_str object_graph_id props r.2)

/-- Lines 240-246: the vertex loop. -/
def create_complete_vertices (B : Backend) (graph_id : Oid) (vtx_name_str : String)
    (vtx_label_id : Int) (props : agtype) (no_vertices : Int) (vid : Int) (w : World) :
    Int × World :=
  for_le 1 no_vertices
    (fun _ s => create_complete_vertex_step B graph_id vtx_name_str vtx_label_id props s)
    (vid, w)

/-- Lines 256-265: body of the inner edge loop. -/
def create_complete_edge_step (B : Backend) (graph_id : Oid) (edge_name_str : String)
    (vtx_label_id edge_label_id : Int) (props : agtype) (no_vertices lid start_vid j : Int)
    (w : World) : World :=
  let end_vid := lid - no_vertices + j
  let r := nextval_internal graph_id edge_name_str w
  let eid := r.1
  let object_graph_id := B.make_graphid edge_label_id eid
  let start_vertex_graph_id := B.make_graphid vtx_label_id start_vid
  let end_vertex_graph_id := B.make_graphid vtx_label_id end_vid
  insert_edge_simple graph_id edge_name_str object_graph_id start_vertex_graph_id
    end_vertex_graph_id props r.2

/-- Lines 253-266: one iteration of the outer edge loop. -/
def create_complete_edges_from (B : Backend) (graph_id : Oid) (edge_name_str : String)
    (vtx_label_id edge_label_id : Int) (props : agtype) (no_vertices lid i : Int) (w : World) :
    World :=
  let start_vid := lid - no_vertices + i
  for_le (i + 1) no_vertices
    (fun j s =>
      create_complete_edge_step B graph_id edge_name_str vtx_label_id edge_label_id props
        no_vertices lid start_vid j s)
    w

/-- Lines 250-267: the edge loops. -/
def create_complete_edges (B : Backend) (graph_id : Oid) (edge_name_str : String)
    (vtx_label_id edge_label_id : Int) (props : agtype) (no_vertices lid : Int) (w : World) :
    World :=
  for_le 1 (no_vertices - 1)
    (fun i s =>
      create_complete_edges_from B graph_id edge_name_str vtx_label_id edge_label_id props
        no_vertices lid i s)
    w

/-- Lines 198-219: the graph, the vertex label (only when argument 3 is
supplied) and the edge label are created when absent. -/
def create_complete_graph_catalog (B : Backend) (graph_name_str vtx_name_str
    edge_name_str : String) (arg3_supplied : Bool) (w : World) : World :=
  let w1 := if graph_exists w graph_name_str then w else create_graph B graph_name_str w
  let graph_id := B.get_graph_oid graph_name_str
  let w2 :=
    if arg3_supplied && !label_exists w1 vtx_name_str graph_id then
      create_vlabel B graph_name_str vtx_name_str w1
    else w1
  if label_exists w2 edge_name_str graph_id then w2
  else create_elabel B graph_name_str edge_name_str w2

/-- Lines 203 and 221-267: the identifiers are resolved, then the vertices and
the edges are created.  `vid` is initialised to 1 at line 125. -/
def create_complete_graph_topology (B : Backend) (graph_name_str vtx_name_str
    edge_name_str : String) (no_vertices : Int) (w : World) : World :=
  let graph_id := B.get_graph_oid graph_name_str
  let vtx_label_id := B.get_label_id vtx_name_str graph_id
  let edge_label_id := B.get_label_id edge_name_str graph_id
  let props := create_empty_agtype
  let r := create_complete_vertices B graph_id vtx_name_str vtx_label_id props no_vertices 1 w
  let lid := r.1
  create_complete_edges B graph_id edge_name_str vtx_label_id edge_label_id props
    no_vertices lid r.2

/-- The function `create_complete_graph`.  Line 179 copies the default label
name into `vtx_label_name`, which is NULL at that point; `namestrcpy` of the
PostgreSQL release whose `fcinfo->arg[]` interface this file uses returns
without writing when the destination is NULL, so the line has no effect. -/
def create_complete_graph (B : Backend) (a : complete_graph_args) (w : World) :
    Except Abort Unit × World :=
  match a.graph_name with
  | none => invalid_parameter "graph name can not be NULL" w
  | some graph_name_str =>
    if a.no_vertices.isnull then invalid_parameter "number of nodes can not be NULL" w
    else
      match a.edge_label_name with
      | none => invalid_parameter "edge label can not be NULL" w
      | some edge_name_str =>
        let no_vertices := PG_GETARG_INT64 a.no_vertices
        let vtx_name_str :=
          match a.vtx_label_name with
          | some v => v
          | none => AG_DEFAULT_LABEL_VERTEX
        if a.vtx_label_name.isSome && decide (vtx_name_str = edge_name_str) then
          invalid_parameter "vertex and edge label can not be same" w
        else
          let w3 := create_complete_graph_catalog B graph_name_str vtx_name_str edge_name_str
            a.vtx_label_name.isSome w
          (Except.ok (),
           create_complete_graph_topology B graph_name_str vtx_name_str edge_name_str
             no_vertices w3)

/-! ## age_create_barbell_graph (lines 297-415) -/

/-- Arguments of `age_create_barbell_graph(graph_name, m, n, vertex_label_name,
vertex_properties, edge_label_name, edge_properties)`, arguments 0 to 6. -/
structure barbell_graph_args where
  graph_name : Option String
  graph_size : IntArg
  bridge_size : IntArg
  node_label_name : Option String
  vertex_properties : Option agtype
  edge_label_name : Option String
  edge_properties : Option agtype
  deriving DecidableEq, Repr

/-- Lines 396-412: the bridging edge. -/
def create_barbell_bridge (B : Backend) (graph_name_str node_label_str edge_label_str : String)
    (arg1 : Int) (w : World) : World :=
  let graph_oid := B.get_graph_oid graph_name_str
  let node_label_id := B.get_label_id node_label_str graph_oid
  let edge_label_id := B.get_label_id edge_label_str graph_oid
  let start_node_index : Int := 1
  let end_node_index : Int := arg1 * 2
  let r := get_nextval_internal graph_oid edge_label_str w
  let nextval := r.1
  let object_graph_id := B.make_graphid edge_label_id nextval
  let start_node_graph_id := B.make_graphid node_label_id start_node_index
  let end_node_graph_id := B.make_graphid node_label_id end_node_index
  let properties := create_empty_agtype
  insert_edge_simple graph_oid edge_label_str object_graph_id start_node_graph_id
    end_node_graph_id properties r.2

/-- The function `age_create_barbell_graph`.  `DirectFunctionCall4` hands its
four data to `create_complete_graph` as non-null arguments.  When argument 3 is
NULL, `node_label_name` stays the NULL pointer of line 306 and the nested call
receives a NULL `Name` flagged as present, whose characters it reads in the
`strcmp` of line 191: the call stops there (`Abort.null_name`). -/
def age_create_barbell_graph (B : Backend) (a : barbell_graph_args) (w : World) :
    Except Abort Unit × World :=
  match a.graph_name with
  | none => invalid_parameter "Graph name cannot be NULL" w
  | some graph_name_str =>
    if a.graph_size.isnull && decide (PG_GETARG_INT32 a.graph_size < 3) then
      invalid_parameter "Graph size cannot be NULL or lower than 3" w
    else if a.bridge_size.isnull || decide (PG_GETARG_INT32 a.bridge_size < 0) then
      invalid_parameter "Bridge size cannot be NULL or lower than 0" w
    else
      match a.edge_label_name with
      | none => invalid_parameter "edge label can not be NULL" w
      | some edge_label_str =>
        match a.node_label_name with
        | none => (Except.error Abort.null_name, w)
        | some node_label_str =>
          let nested : complete_graph_args :=
            { graph_name := some graph_name_str
              no_vertices := { value := a.graph_size.value, isnull := false }
              edge_label_name := some edge_label_str
              vtx_label_name := some node_label_str }
          match create_complete_graph B nested w with
          | (Except.error e, w1) => (Except.error e, w1)
          | (Except.ok _, w1) =>
            match create_complete_graph B nested w1 with
            | (Except.error e, w2) => (Except.error e, w2)
            | (Except.ok _, w2) =>
              (Except.ok (),
               create_barbell_bridge B graph_name_str node_label_str edge_label_str
                 a.graph_size.value w2)

/-! ## create_cycle_graph (lines 437-630) -/

/-- Arguments of `create_cycle_graph`: argument 0 is the graph name, argument 1
the size, argument 2 the edge label and argument 4 the vertex label.  The two
property payloads are never read by the function. -/
structure cycle_graph_args where
  graph_name : Option String
  graph_size : IntArg
  edge_label : Option String
  vertex_properties : Option agtype
  vertex_label : Option String
  edge_properties : Option agtype
  deriving DecidableEq, Repr

structure graph_components where
  graph_oid : Oid
  graph_name : String
  graph_size : Int
  vertex_label : String
  vertex_label_id : Int
  vertex_properties : agtype
  vtx_seq_id : Oid × String
  edge_label : String
  edge_label_id : Int
  edge_properties : agtype
  edge_seq_id : Oid × String
  deriving DecidableEq, Repr

/-- Characters of the `Name` argument; reading them from a NULL argument stops
the call. -/
def NameStr (name : Option String) : Except Abort String :=
  match name with
  | some s => Except.ok s
  | none => Except.error Abort.null_name

def assert_cycle_graph_args (a : cycle_graph_args) : Except Abort Unit :=
  if a.graph_name.isNone then
    Except.error (Abort.ereport ErrCode.ERRCODE_INVALID_PARAMETER_VALUE
      "graph name cannot be NULL")
  else if a.graph_size.isnull || decide (PG_GETARG_INT32 a.graph_size < 3) then
    Except.error (Abort.ereport ErrCode.ERRCODE_INVALID_PARAMETER_VALUE
      "cycle graph size cannot be NULL or lower than 3")
  else if a.edge_label.isNone then
    Except.error (Abort.ereport ErrCode.ERRCODE_INVALID_PARAMETER_VALUE
      "edge label cannot be NULL")
  else Except.ok ()

def process_vertex_label (a : cycle_graph_args) : Except Abort String :=
  if a.vertex_label.isSome then NameStr a.vertex_label
  else Except.ok AG_DEFAULT_LABEL_VERTEX

def check_same_vertex_and_edge_label (vertex_label edge_label : String) : Except Abort Unit :=
  if vertex_label = edge_label then
    Except.error (Abort.ereport ErrCode.ERRCODE_INVALID_PARAMETER_VALUE
      "Vertex and edge label cannot be the same")
  else Except.ok ()

/-- The function `process_cycle_graph_arguments`; the fields set later by
`fetch_label_ids` and `fetch_seq_ids` start at arbitrary values (here zero). -/
def process_cycle_graph_arguments (a : cycle_graph_args) : Except Abort graph_components := do
  let graph_name ← NameStr a.graph_name
  let graph_size := int32_of (PG_GETARG_INT64 a.graph_size)
  let edge_label ← NameStr a.edge_label
  let vertex_label ← process_vertex_label a
  check_same_vertex_and_edge_label vertex_label edge_label
  pure
    { graph_oid := 0
      graph_name := graph_name
      graph_size := graph_size
      vertex_label := vertex_label
      vertex_label_id := 0
      vertex_properties := create_empty_agtype
      vtx_seq_id := (0, vertex_label)
      edge_label := edge_label
      edge_label_id := 0
      edge_properties := create_empty_agtype
      edge_seq_id := (0, edge_label) }

def create_graph_if_not_exists (B : Backend) (graphNameStr : String) (w : World) : World :=
  if graph_exists w graphNameStr then w else create_graph B graphNameStr w

def create_vertex_label_if_not_exists (B : Backend) (graph_name vertex_Name : String)
    (w : World) : World :=
  let graphId := B.get_graph_oid graph_name
  if label_exists w vertex_Name graphId then w else create_vlabel B graph_name vertex_Name w

def create_edge_label_if_not_exists (B : Backend) (graph_name edge_name : String)
    (w : World) : World :=
  let graphId := B.get_graph_oid graph_name
  if label_exists w edge_name graphId then w else create_elabel B graph_name edge_name w

def process_labels (B : Backend) (graph_name vertex_label edge_label : String) (w : World) :
    World :=
  create_edge_label_if_not_exists B graph_name edge_label
    (create_vertex_label_if_not_exists B graph_name vertex_label w)

def fetch_label_ids (B : Backend) (graph : graph_components) : graph_components :=
  let graph_oid := B.get_graph_oid graph.graph_name
  { graph with
    graph_oid := graph_oid
    vertex_label_id := B.get_label_id graph.vertex_label graph_oid
    edge_label_id := B.get_label_id graph.edge_label graph_oid }

def fetch_seq_ids (graph : graph_components) : graph_components :=
  { graph with
    vtx_seq_id := (graph.graph_oid, graph.vertex_label)
    edge_seq_id := (graph.graph_oid, graph.edge_label) }

/-- The function `create_vertex`; `next_index` is an `int`. -/
def create_vertex (B : Backend) (graph : graph_components) (w : World) : graphid × World :=
  let r := nextval_internal graph.vtx_seq_id.1 graph.vtx_seq_id.2 w
  let next_index := int32_of r.1
  let new_graph_id := B.make_graphid graph.vertex_label_id next_index
  (new_graph_id,
   insert_vertex_simple graph.graph_oid graph.vertex_label new_graph_id create_empty_agtype r.2)

/-- The function `connect_vertexes_by_graphid`; `nextval` is an `int`. -/
def connect_vertexes_by_graphid (B : Backend) (graph : graph_components)
    (out_vtx in_vtx : graphid) (w : World) : graphid × World :=
  let r := nextval_internal graph.edge_seq_id.1 graph.edge_seq_id.2 w
  let nextval := int32_of r.1
  let new_graphid := B.make_graphid graph.edge_label_id nextval
  (new_graphid,
   insert_edge_simple graph.graph_oid graph.edge_label new_graphid out_vtx in_vtx
     create_empty_agtype r.2)

/-- Lines 457-459: body of the loop.  The state is `curr_vertex` and the world. -/
def create_cycle_step (B : Backend) (graph : graph_components) (s : graphid × World) :
    graphid × World :=
  let next := create_vertex B graph s.2
  let next_vertex := next.1
  let c := connect_vertexes_by_graphid B graph s.1 next_vertex next.2
  (next_vertex, c.2)

/-- Lines 453-461: the generation proper; the result is `first_vertex` and the
final world. -/
def create_cycle_topology (B : Backend) (graph : graph_components) (w : World) :
    graphid × World :=
  let first := create_vertex B graph w
  let first_vertex := first.1
  let s := for_lt 1 graph.graph_size (fun _ s => create_cycle_step B graph s)
    (first_vertex, first.2)
  let c := connect_vertexes_by_graphid B graph s.1 first_vertex s.2
  (first_vertex, c.2)

/-- The function `create_cycle_graph`; it returns `first_vertex`. -/
def create_cycle_graph (B : Backend) (a : cycle_graph_args) (w : World) :
    Except Abort graphid × World :=
  match assert_cycle_graph_args a with
  | Except.error e => (Except.error e, w)
  | Except.ok _ =>
    match process_cycle_graph_arguments a with
    | Except.error e => (Except.error e, w)
    | Except.ok graph0 =>
      let w1 := create_graph_if_not_exists B graph0.graph_name w
      let w2 := process_labels B graph0.graph_name graph0.vertex_label graph0.edge_label w1
      let graph := fetch_seq_ids (fetch_label_ids B graph0)
      let r := create_cycle_topology B graph w2
      (Except.ok r.1, r.2)

/-! ## Vocabulary of the properties -/

/-- GraphIDs of the vertex rows of a log, in insertion order. -/
def vertex_ids (l : List Insertion) : List graphid :=
  l.filterMap (fun r =>
    match r with
    | Insertion.vertex _ _ vertex_id _ => some vertex_id
    | Insertion.edge _ _ _ _ _ _ => none)

/-- The (start, end) pairs of the edge rows of a log, in insertion order. -/
def edge_ends (l : List Insertion) : List (graphid × graphid) :=
  l.filterMap (fun r =>
    match r with
    | Insertion.vertex _ _ _ _ => none
    | Insertion.edge _ _ _ start_id end_id _ => some (start_id, end_id))

/-- The rows a run added to the log: those after the rows of the initial world. -/
def new_insertions (w w1 : World) : List Insertion := w1.log.drop w.log.length

/-- The value the sequence of a label hands out at its `t`-th next call. -/
def upcoming (w : World) (graph_oid : Oid) (label_name : String) (t : Nat) : Int :=
  (w.seqs graph_oid label_name).vals ((w.seqs graph_oid label_name).pos + t)

/-- Number of edges of a log whose endpoints are `u` and `v`, in either direction. -/
def edges_between {β : Type} [DecidableEq β] (E : List (β × β)) (u v : β) : Nat :=
  E.countP (fun e => decide (e = (u, v)) || decide (e = (v, u)))

/-- The pairs `(f a, f b)` for `a < b < N`, ordered by `a`, then by `b`. -/
def ordered_pairs {β : Type} (f : Nat → β) (N : Nat) : List (β × β) :=
  (List.range (N - 1)).flatMap (fun (a : Nat) =>
    (List.range (N - 1 - a)).map (fun (b : Nat) => (f a, f (a + 1 + b))))

/-- The world `w1` is reached from `w` by steps that leave the catalog alone,
add rows at the end of the log and draw only from the sequence of the label
`label_name` of the graph `graph_oid`. -/
structure Reaches (graph_oid : Oid) (label_name : String) (w w1 : World) : Prop where
  graphs_eq : w1.graphs = w.graphs
  labels_eq : w1.labels = w.labels
  log_extends : w.log <+: w1.log
  others : ∀ g1 l1, ¬ (g1 = graph_oid ∧ l1 = label_name) →
    ∀ t, upcoming w1 g1 l1 t = upcoming w g1 l1 t

/-- The vertex label a call works with: the supplied one, or the default vertex
label when the argument is NULL. -/
def effective_vertex_label (vtx_label_name : Option String) : String :=
  match vtx_label_name with
  | some v => v
  | none => AG_DEFAULT_LABEL_VERTEX

/-- The value of the local `lid` after the vertex loop has drawn `n` values. -/
def complete_lid (w : World) (g : Oid) (vname : String) (n : Int) : Int :=
  if n.toNat = 0 then 1 else upcoming w g vname (n.toNat - 1)

/-- A call of `create_complete_graph` with a graph name, a vertex count and an
edge label, and with or without a vertex label. -/
def complete_call (gname : String) (n : Int) (ename : String) (vopt : Option String) :
    complete_graph_args :=
  { graph_name := some gname, no_vertices := { value := n, isnull := false },
    edge_label_name := some ename, vtx_label_name := vopt }

/-- GraphID `create_vertex` gives to the vertex made from the `t`-th next value
of the vertex sequence. -/
def cycle_vertex_id (B : Backend) (graph : graph_components) (w : World) (t : Nat) : graphid :=
  B.make_graphid graph.vertex_label_id
    (int32_of (upcoming w graph.vtx_seq_id.1 graph.vtx_seq_id.2 t))

/-- GraphID `connect_vertexes_by_graphid` gives to the edge made from the `t`-th
next value of the edge sequence. -/
def cycle_edge_id (B : Backend) (graph : graph_components) (w : World) (t : Nat) : graphid :=
  B.make_graphid graph.edge_label_id
    (int32_of (upcoming w graph.edge_seq_id.1 graph.edge_seq_id.2 t))

/-- The rows of a closed chain over `K + 1` vertices, in the order of lines
453-461: the first vertex; then, `K` times, a vertex followed by the edge from
the vertex before it; then the edge from the last vertex to the first. -/
def cycle_rows (B : Backend) (graph : graph_components) (w : World) (K : Nat) :
    List Insertion :=
  [Insertion.vertex graph.graph_oid graph.vertex_label (cycle_vertex_id B graph w 0)
      create_empty_agtype]
  ++ (List.range K).flatMap (fun (t : Nat) =>
      [Insertion.vertex graph.graph_oid graph.vertex_label (cycle_vertex_id B graph w (t + 1))
         create_empty_agtype,
       Insertion.edge graph.graph_oid graph.edge_label (cycle_edge_id B graph w t)
         (cycle_vertex_id B graph w t) (cycle_vertex_id B graph w (t + 1)) create_empty_agtype])
  ++ [Insertion.edge graph.graph_oid graph.edge_label (cycle_edge_id B graph w K)
        (cycle_vertex_id B graph w K) (cycle_vertex_id B graph w 0) create_empty_agtype]

/-- A call of `create_cycle_graph` with a graph name, a size and an edge label. -/
def cycle_call (gname : String) (n : Int) (ename : String) (vprops : Option agtype)
    (vopt : Option String) (eprops : Option agtype) : cycle_graph_args :=
  { graph_name := some gname, graph_size := { value := n, isnull := false },
    edge_label := some ename, vertex_properties := vprops, vertex_label := vopt,
    edge_properties := eprops }

/-- The `graph_components` of such a call once `fetch_label_ids` and
`fetch_seq_ids` have run. -/
def cycle_context (B : Backend) (gname : String) (n : Int) (ename : String)
    (vopt : Option String) : graph_components :=
  { graph_oid := B.get_graph_oid gname
    graph_name := gname
    graph_size := int32_of n
    vertex_label := effective_vertex_label vopt
    vertex_label_id := B.get_label_id (effective_vertex_label vopt) (B.get_graph_oid gname)
    vertex_properties := create_empty_agtype
    vtx_seq_id := (B.get_graph_oid gname, effective_vertex_label vopt)
    edge_label := ename
    edge_label_id := B.get_label_id ename (B.get_graph_oid gname)
    edge_properties := create_empty_agtype
    edge_seq_id := (B.get_graph_oid gname, ename) }

/-- A call of `age_create_barbell_graph` with a graph name, a bell size, a
bridge size, a vertex label and an edge label. -/
def barbell_call (gname : String) (m b : Int) (vname : String) (vprops : Option agtype)
    (ename : String) (eprops : Option agtype) : barbell_graph_args :=
  { graph_name := some gname, graph_size := { value := m, isnull := false },
    bridge_size := { value := b, isnull := false }, node_label_name := some vname,
    vertex_properties := vprops, edge_label_name := some ename, edge_properties := eprops }

/-- World after one accepted call of `create_complete_graph` with a vertex label. -/
def complete_world (B : Backend) (gname vname ename : String) (n : Int) (w : World) : World :=
  create_complete_graph_topology B gname vname ename n
    (create_complete_graph_catalog B gname vname ename true w)

/-- A backend for concrete runs: the GraphID holds the label id above 48 bits
of local id; the default vertex label has id 1, the label "vertices" id 3 and
every other label id 4. -/
def sample_backend : Backend :=
  { make_graphid := fun label_id entry_id => label_id * 281474976710656 + entry_id
    get_graph_oid := fun _ => 16384
    get_label_id := fun label_name _ =>
      if label_name = AG_DEFAULT_LABEL_VERTEX then 1
      else if label_name = "vertices" then 3
      else 4 }

/-- An empty database: no graph, no label, no row, and every label sequence
about to hand out 1, 2, 3, ... -/
def sample_world : World :=
  { graphs := []
    labels := []
    seqs := fun _ _ => { vals := fun k => (k : Int) + 1, pos := 0 }
    log := [] }

/-- The database after one call of `age_create_barbell_graph` with bell size 3
on the empty database: the vertex label holds the local ids 1 to 6. -/
def sample_world_after_barbell : World :=
  (age_create_barbell_graph sample_backend
    (barbell_call "g" 3 0 "vertices" none "edges" none) sample_world).2

/-! ## Vocabulary of the later properties -/

/-- Whether a row is a vertex row. -/
def is_vertex_row (r : Insertion) : Bool :=
  match r with
  | Insertion.vertex _ _ _ _ => true
  | Insertion.edge _ _ _ _ _ _ => false

/-- Whether a row is an edge row. -/
def is_edge_row (r : Insertion) : Bool :=
  match r with
  | Insertion.vertex _ _ _ _ => false
  | Insertion.edge _ _ _ _ _ _ => true

/-- Property payload a row carries. -/
def row_props (r : Insertion) : agtype :=
  match r with
  | Insertion.vertex _ _ _ props => props
  | Insertion.edge _ _ _ _ _ props => props

/-- GraphIDs of the edge rows of a log, in insertion order. -/
def edge_ids (l : List Insertion) : List graphid :=
  l.filterMap (fun r =>
    match r with
    | Insertion.vertex _ _ _ _ => none
    | Insertion.edge _ _ edge_id _ _ _ => some edge_id)

/-- The world `w1` is reached from `w` by drawing `c` values from the sequence of
the label `label_name` and giving them, composed with `label_id`, to the edges
added on the way, in order; no vertex is added. -/
def DrawsEdges (B : Backend) (graph_oid : Oid) (label_name : String) (label_id : Int)
    (w w1 : World) (c : Nat) : Prop :=
  edge_ids w1.log
      = edge_ids w.log ++ (List.range c).map (fun (t : Nat) =>
          B.make_graphid label_id (upcoming w graph_oid label_name t))
  ∧ ∀ t, upcoming w1 graph_oid label_name t = upcoming w graph_oid label_name (t + c)

/-- Bounds of the encoding: the local id takes `entry_bits` bits of the 64-bit
identifier and the label id the remaining ones. -/
def graphid_in_bounds (entry_bits : Nat) (label_id local_id : Int) : Prop :=
  0 ≤ label_id ∧ label_id < 2 ^ (64 - entry_bits) ∧ 0 ≤ local_id ∧ local_id < 2 ^ entry_bits

instance (entry_bits : Nat) (label_id local_id : Int) :
    Decidable (graphid_in_bounds entry_bits label_id local_id) := by
  unfold graphid_in_bounds
  infer_instance

inductive EncodingError where
  | out_of_range
  deriving DecidableEq, Repr

/-- Modelled from the spec: `make_graphid` (utils/graphid.h) is not part of the
translated file.  It packs a label id and a local id into one 64-bit identifier,
the local id in the low `entry_bits` bits, and fails when a field does not fit. -/
def make_graphid (entry_bits : Nat) (label_id local_id : Int) : Except EncodingError graphid :=
  if graphid_in_bounds entry_bits label_id local_id then
    Except.ok (label_id * 2 ^ entry_bits + local_id)
  else Except.error EncodingError.out_of_range

/-- Modelled from the spec: the decomposition of a GraphID into its label id and
its local id (utils/graphid.h is not part of the translated file). -/
def decompose_graphid (entry_bits : Nat) (g : graphid) : Int × Int :=
  (g / 2 ^ entry_bits, g % 2 ^ entry_bits)

/-- A database in which every label sequence hands out 1, 3, 5, ...: another
session draws the values in between. -/
def sample_world_interleaved : World :=
  { graphs := []
    labels := []
    seqs := fun _ _ => { vals := fun k => 2 * (k : Int) + 1, pos := 0 }
    log := [] }

/-- A database in which every label sequence hands out 1, 1 + 2^32,
1 + 2 * 2^32, ...: increasing values, no two of them equal. -/
def sample_world_stride : World :=
  { graphs := []
    labels := []
    seqs := fun _ _ => { vals := fun k => 1 + (k : Int) * 4294967296, pos := 0 }
    log := [] }

/-! ## Lemmas on loops -/

theorem iterate_body_invariant {σ : Type} (P : σ → Prop) (body : Int → σ → σ)
    (h : ∀ i s, P s → P (body i s)) : ∀ (k : Nat) (i : Int) (s : σ),
    P s → P (iterate_body body k i s) := by
  intro k
  induction k with
  | zero => intro i s hs; exact hs
  | succ k ih => intro i s hs; exact ih (i + 1) (body i s) (h i s hs)

theorem iterate_body_preserves {σ β : Type} (f : σ → β) (body : Int → σ → σ)
    (h : ∀ i s, f (body i s) = f s) (k : Nat) (i : Int) (s : σ) :
    f (iterate_body body k i s) = f s :=
  iterate_body_invariant (fun t => f t = f s) body (fun i t ht => (h i t).trans ht) k i s rfl

/-- A loop whose body appends `g i` to a projection of the state appends the
blocks `g lo`, `g (lo + 1)`, ... in order. -/
theorem iterate_body_append_from {σ β : Type} (proj : σ → List β) (body : Int → σ → σ)
    (g : Int → List β) (h : ∀ i s, proj (body i s) = proj s ++ g i) (c : Int) :
    ∀ (k a : Nat) (s : σ),
      proj (iterate_body body k (c + (a : Int)) s)
        = proj s ++ (List.range' a k).flatMap (fun (t : Nat) => g (c + (t : Int))) := by
  intro k
  induction k with
  | zero => intro a s; simp [iterate_body]
  | succ k ih =>
    intro a s
    have e : c + (a : Int) + 1 = c + ((a + 1 : Nat) : Int) := by push_cast; ring
    simp only [iterate_body]
    rw [e, ih (a + 1) (body (c + (a : Int)) s), h, List.range'_succ]
    simp [List.append_assoc]

theorem iterate_body_append {σ β : Type} (proj : σ → List β) (body : Int → σ → σ)
    (g : Int → List β) (h : ∀ i s, proj (body i s) = proj s ++ g i) (k : Nat) (lo : Int)
    (s : σ) :
    proj (iterate_body body k lo s)
      = proj s ++ (List.range k).flatMap (fun (t : Nat) => g (lo + (t : Int))) := by
  have := iterate_body_append_from proj body g h lo k 0 s
  simpa [List.range_eq_range'] using this

/-! ## Lemmas on the collaborators -/

@[simp] theorem nextval_internal_fst (g : Oid) (l : String) (w : World) :
    (nextval_internal g l w).1 = upcoming w g l 0 := by
  simp [nextval_internal, upcoming]

@[simp] theorem nextval_internal_log (g : Oid) (l : String) (w : World) :
    (nextval_internal g l w).2.log = w.log := rfl

@[simp] theorem nextval_internal_graphs (g : Oid) (l : String) (w : World) :
    (nextval_internal g l w).2.graphs = w.graphs := rfl

@[simp] theorem nextval_internal_labels (g : Oid) (l : String) (w : World) :
    (nextval_internal g l w).2.labels = w.labels := rfl

theorem upcoming_nextval_same (g : Oid) (l : String) (w : World) (t : Nat) :
    upcoming (nextval_internal g l w).2 g l t = upcoming w g l (t + 1) := by
  have e : (w.seqs g l).pos + 1 + t = (w.seqs g l).pos + (t + 1) := by omega
  simp [nextval_internal, upcoming, e]

theorem upcoming_nextval_other (g g1 : Oid) (l l1 : String) (w : World) (t : Nat)
    (h : ¬ (g1 = g ∧ l1 = l)) :
    upcoming (nextval_internal g l w).2 g1 l1 t = upcoming w g1 l1 t := by
  simp [nextval_internal, upcoming, h]

@[simp] theorem insert_vertex_simple_log (g : Oid) (l : String) (i : graphid) (p : agtype)
    (w : World) :
    (insert_vertex_simple g l i p w).log = w.log ++ [Insertion.vertex g l i p] := rfl

@[simp] theorem insert_edge_simple_log (g : Oid) (l : String) (i s e : graphid) (p : agtype)
    (w : World) :
    (insert_edge_simple g l i s e p w).log = w.log ++ [Insertion.edge g l i s e p] := rfl

@[simp] theorem upcoming_insert_vertex (g g1 : Oid) (l l1 : String) (i : graphid) (p : agtype)
    (w : World) (t : Nat) :
    upcoming (insert_vertex_simple g l i p w) g1 l1 t = upcoming w g1 l1 t := rfl

@[simp] theorem upcoming_insert_edge (g g1 : Oid) (l l1 : String) (i s e : graphid)
    (p : agtype) (w : World) (t : Nat) :
    upcoming (insert_edge_simple g l i s e p w) g1 l1 t = upcoming w g1 l1 t := rfl

@[simp] theorem vertex_ids_append (l1 l2 : List Insertion) :
    vertex_ids (l1 ++ l2) = vertex_ids l1 ++ vertex_ids l2 := by
  simp [vertex_ids, List.filterMap_append]

theorem vertex_ids_map_vertex (g : Oid) (l : String) (p : agtype) (f : Nat → graphid)
    (xs : List Nat) :
    vertex_ids (xs.map (fun t => Insertion.vertex g l (f t) p)) = xs.map f := by
  induction xs with
  | nil => rfl
  | cons x xs ih => simpa [vertex_ids] using ih

theorem edge_ends_map_vertex (g : Oid) (l : String) (p : agtype) (f : Nat → graphid)
    (xs : List Nat) :
    edge_ends (xs.map (fun t => Insertion.vertex g l (f t) p)) = [] := by
  induction xs with
  | nil => rfl
  | cons x xs ih => simp [edge_ends] at ih ⊢

@[simp] theorem edge_ends_append (l1 l2 : List Insertion) :
    edge_ends (l1 ++ l2) = edge_ends l1 ++ edge_ends l2 := by
  simp [edge_ends, List.filterMap_append]

theorem Reaches.refl (g : Oid) (l : String) (w : World) : Reaches g l w w :=
  ⟨rfl, rfl, List.prefix_refl _, fun _ _ _ _ => rfl⟩

theorem Reaches.trans {g : Oid} {l : String} {w w1 w2 : World} (h1 : Reaches g l w w1)
    (h2 : Reaches g l w1 w2) : Reaches g l w w2 :=
  ⟨h2.graphs_eq.trans h1.graphs_eq, h2.labels_eq.trans h1.labels_eq,
   h1.log_extends.trans h2.log_extends,
   fun g1 l1 hne t => (h2.others g1 l1 hne t).trans (h1.others g1 l1 hne t)⟩

theorem Reaches.insert_vertex_nextval (g : Oid) (l : String) (i : graphid) (p : agtype)
    (w : World) : Reaches g l w (insert_vertex_simple g l i p (nextval_internal g l w).2) :=
  ⟨rfl, rfl, by simp, fun g1 l1 hne t => by
    rw [upcoming_insert_vertex, upcoming_nextval_other g g1 l l1 w t hne]⟩

theorem Reaches.insert_edge_nextval (g : Oid) (l : String) (i s e : graphid) (p : agtype)
    (w : World) : Reaches g l w (insert_edge_simple g l i s e p (nextval_internal g l w).2) :=
  ⟨rfl, rfl, by simp, fun g1 l1 hne t => by
    rw [upcoming_insert_edge, upcoming_nextval_other g g1 l l1 w t hne]⟩

/-! ## The loops of create_complete_graph -/

theorem create_complete_vertex_step_eq (B : Backend) (g : Oid) (vname : String) (vl : Int)
    (props : agtype) (s : Int × World) :
    create_complete_vertex_step B g vname vl props s
      = (upcoming s.2 g vname 0,
         insert_vertex_simple g vname (B.make_graphid vl (upcoming s.2 g vname 0)) props
           (nextval_internal g vname s.2).2) := by
  simp [create_complete_vertex_step]

/-- Effect of `k` iterations of the vertex loop (lines 241-246). -/
theorem create_complete_vertices_iterate (B : Backend) (g : Oid) (vname : String) (vl : Int)
    (props : agtype) :
    ∀ (k : Nat) (i vid : Int) (w : World),
      (iterate_body (fun _ s => create_complete_vertex_step B g vname vl props s)
          k i (vid, w)).2.log
        = w.log ++ (List.range k).map
            (fun t => Insertion.vertex g vname (B.make_graphid vl (upcoming w g vname t)) props)
      ∧ (iterate_body (fun _ s => create_complete_vertex_step B g vname vl props s)
          k i (vid, w)).1
        = (if k = 0 then vid else upcoming w g vname (k - 1))
      ∧ (∀ t, upcoming (iterate_body (fun _ s => create_complete_vertex_step B g vname vl props s)
          k i (vid, w)).2 g vname t = upcoming w g vname (t + k))
      ∧ Reaches g vname w
          (iterate_body (fun _ s => create_complete_vertex_step B g vname vl props s)
            k i (vid, w)).2 := by
  intro k
  induction k with
  | zero => intro i vid w; simp [iterate_body, Reaches.refl]
  | succ k ih =>
    intro i vid w
    simp only [iterate_body]
    rw [create_complete_vertex_step_eq]
    obtain ⟨h1, h2, h3, h4⟩ := ih (i + 1) (upcoming w g vname 0)
      (insert_vertex_simple g vname (B.make_graphid vl (upcoming w g vname 0)) props
        (nextval_internal g vname w).2)
    refine ⟨?_, ?_, ?_, ?_⟩
    · rw [h1, List.range_succ_eq_map]
      simp [List.map_map, Function.comp_def, upcoming_nextval_same]
    · rw [h2]
      cases k with
      | zero => simp
      | succ k => simp [upcoming_nextval_same]
    · intro t
      rw [h3]
      simp only [upcoming_insert_vertex, upcoming_nextval_same]
      congr 1
    · exact (Reaches.insert_vertex_nextval g vname _ props w).trans h4

theorem create_complete_edge_step_log (B : Backend) (g : Oid) (ename : String) (vl el : Int)
    (props : agtype) (n lid start_vid j : Int) (w : World) :
    (create_complete_edge_step B g ename vl el props n lid start_vid j w).log
      = w.log ++ [Insertion.edge g ename (B.make_graphid el (upcoming w g ename 0))
          (B.make_graphid vl start_vid) (B.make_graphid vl (lid - n + j)) props] := by
  simp [create_complete_edge_step]

theorem create_complete_edge_step_reaches (B : Backend) (g : Oid) (ename : String)
    (vl el : Int) (props : agtype) (n lid start_vid j : Int) (w : World) :
    Reaches g ename w (create_complete_edge_step B g ename vl el props n lid start_vid j w) :=
  Reaches.insert_edge_nextval g ename _ _ _ props w

/-- One iteration of the outer edge loop draws from the edge sequence only and
appends rows. -/
theorem create_complete_edges_from_reaches (B : Backend) (g : Oid) (ename : String)
    (vl el : Int) (props : agtype) (n lid i : Int) (w : World) :
    Reaches g ename w (create_complete_edges_from B g ename vl el props n lid i w) := by
  unfold create_complete_edges_from for_le
  exact iterate_body_invariant (fun s => Reaches g ename w s) _
    (fun j s hs => hs.trans (create_complete_edge_step_reaches B g ename vl el props n lid _ j s))
    _ _ w (Reaches.refl g ename w)

/-- One iteration of the outer edge loop adds no vertex row. -/
theorem create_complete_edges_from_vertex_ids (B : Backend) (g : Oid) (ename : String)
    (vl el : Int) (props : agtype) (n lid i : Int) (w : World) :
    vertex_ids (create_complete_edges_from B g ename vl el props n lid i w).log
      = vertex_ids w.log := by
  unfold create_complete_edges_from for_le
  exact iterate_body_preserves (fun s : World => vertex_ids s.log) _
    (fun j s => by simp [create_complete_edge_step_log, vertex_ids]) _ _ w

/-- One iteration of the outer edge loop adds the edges from vertex `i` to the
vertices `i + 1`, ..., `no_vertices`, in this order. -/
theorem create_complete_edges_from_edge_ends (B : Backend) (g : Oid) (ename : String)
    (vl el : Int) (props : agtype) (n lid i : Int) (w : World) :
    edge_ends (create_complete_edges_from B g ename vl el props n lid i w).log
      = edge_ends w.log ++ (List.range (n + 1 - (i + 1)).toNat).map
          (fun (b : Nat) => (B.make_graphid vl (lid - n + i),
                     B.make_graphid vl (lid - n + (i + 1 + (b : Int))))) := by
  unfold create_complete_edges_from for_le
  have h := iterate_body_append (fun s : World => edge_ends s.log)
    (fun j s => create_complete_edge_step B g ename vl el props n lid (lid - n + i) j s)
    (fun j => [(B.make_graphid vl (lid - n + i), B.make_graphid vl (lid - n + j))])
    (fun j s => by simp [create_complete_edge_step_log, edge_ends])
    (n + 1 - (i + 1)).toNat (i + 1) w
  simp only [h]
  congr 1
  induction (List.range (n + 1 - (i + 1)).toNat) with
  | nil => rfl
  | cons x xs ih => simp [List.flatMap_cons, ih]

theorem create_complete_edges_reaches (B : Backend) (g : Oid) (ename : String)
    (vl el : Int) (props : agtype) (n lid : Int) (w : World) :
    Reaches g ename w (create_complete_edges B g ename vl el props n lid w) := by
  unfold create_complete_edges for_le
  exact iterate_body_invariant (fun s => Reaches g ename w s) _
    (fun i s hs => hs.trans (create_complete_edges_from_reaches B g ename vl el props n lid i s))
    _ _ w (Reaches.refl g ename w)

theorem create_complete_edges_vertex_ids (B : Backend) (g : Oid) (ename : String)
    (vl el : Int) (props : agtype) (n lid : Int) (w : World) :
    vertex_ids (create_complete_edges B g ename vl el props n lid w).log = vertex_ids w.log := by
  unfold create_complete_edges for_le
  exact iterate_body_preserves (fun s : World => vertex_ids s.log) _
    (fun i s => create_complete_edges_from_vertex_ids B g ename vl el props n lid i s) _ _ w

/-- The edge loops add, for `i = 1, ..., no_vertices - 1` in turn, the edges
from vertex `i` to the vertices `i + 1, ..., no_vertices`. -/
theorem create_complete_edges_edge_ends (B : Backend) (g : Oid) (ename : String)
    (vl el : Int) (props : agtype) (n lid : Int) (w : World) :
    edge_ends (create_complete_edges B g ename vl el props n lid w).log
      = edge_ends w.log ++ (List.range (n - 1 + 1 - 1).toNat).flatMap (fun (a : Nat) =>
          (List.range (n + 1 - (1 + (a : Int) + 1)).toNat).map
            (fun (b : Nat) => (B.make_graphid vl (lid - n + (1 + (a : Int))),
                       B.make_graphid vl (lid - n + (1 + (a : Int) + 1 + (b : Int)))))) := by
  unfold create_complete_edges for_le
  exact iterate_body_append (fun s : World => edge_ends s.log)
    (fun i s => create_complete_edges_from B g ename vl el props n lid i s)
    (fun i => (List.range (n + 1 - (i + 1)).toNat).map
          (fun (b : Nat) => (B.make_graphid vl (lid - n + i),
                     B.make_graphid vl (lid - n + (i + 1 + (b : Int))))))
    (fun i s => create_complete_edges_from_edge_ends B g ename vl el props n lid i s)
    (n - 1 + 1 - 1).toNat 1 w

/-! ## create_complete_graph as a whole -/

theorem create_complete_graph_catalog_log (B : Backend) (gname vname ename : String)
    (b : Bool) (w : World) :
    (create_complete_graph_catalog B gname vname ename b w).log = w.log := by
  unfold create_complete_graph_catalog
  simp only []
  split_ifs <;> rfl

theorem create_complete_graph_catalog_seqs (B : Backend) (gname vname ename : String)
    (b : Bool) (w : World) :
    (create_complete_graph_catalog B gname vname ename b w).seqs = w.seqs := by
  unfold create_complete_graph_catalog
  simp only []
  split_ifs <;> rfl

theorem create_complete_graph_catalog_upcoming (B : Backend) (gname vname ename : String)
    (b : Bool) (w : World) (g : Oid) (l : String) (t : Nat) :
    upcoming (create_complete_graph_catalog B gname vname ename b w) g l t = upcoming w g l t := by
  simp [upcoming, create_complete_graph_catalog_seqs]

/-- What the generation part of `create_complete_graph` does to the world, for
every sequence state and every `no_vertices`. -/
theorem create_complete_graph_topology_run (B : Backend) (gname vname ename : String)
    (n : Int) (w : World) :
    w.log <+: (create_complete_graph_topology B gname vname ename n w).log
    ∧ vertex_ids (create_complete_graph_topology B gname vname ename n w).log
        = vertex_ids w.log ++ (List.range n.toNat).map (fun t =>
            B.make_graphid (B.get_label_id vname (B.get_graph_oid gname))
              (upcoming w (B.get_graph_oid gname) vname t))
    ∧ edge_ends (create_complete_graph_topology B gname vname ename n w).log
        = edge_ends w.log ++ (List.range (n.toNat - 1)).flatMap (fun (a : Nat) =>
            (List.range (n.toNat - 1 - a)).map (fun (b : Nat) =>
              (B.make_graphid (B.get_label_id vname (B.get_graph_oid gname))
                 (complete_lid w (B.get_graph_oid gname) vname n - n + (1 + (a : Int))),
               B.make_graphid (B.get_label_id vname (B.get_graph_oid gname))
                 (complete_lid w (B.get_graph_oid gname) vname n - n
                   + (1 + (a : Int) + 1 + (b : Int))))))
    ∧ (vname ≠ ename → ∀ t,
        upcoming (create_complete_graph_topology B gname vname ename n w)
            (B.get_graph_oid gname) vname t
          = upcoming w (B.get_graph_oid gname) vname (t + n.toNat))
    ∧ (create_complete_graph_topology B gname vname ename n w).graphs = w.graphs
    ∧ (create_complete_graph_topology B gname vname ename n w).labels = w.labels := by
  obtain ⟨h1, h2, h3, h4⟩ := create_complete_vertices_iterate B (B.get_graph_oid gname) vname
    (B.get_label_id vname (B.get_graph_oid gname)) create_empty_agtype (n + 1 - 1).toNat 1 1 w
  have hN : (n + 1 - 1).toNat = n.toNat := by omega
  rw [hN] at h1 h2 h3 h4
  have hr := create_complete_edges_reaches B (B.get_graph_oid gname) ename
    (B.get_label_id vname (B.get_graph_oid gname)) (B.get_label_id ename (B.get_graph_oid gname))
    create_empty_agtype n
  have hv := create_complete_edges_vertex_ids B (B.get_graph_oid gname) ename
    (B.get_label_id vname (B.get_graph_oid gname)) (B.get_label_id ename (B.get_graph_oid gname))
    create_empty_agtype n
  have he := create_complete_edges_edge_ends B (B.get_graph_oid gname) ename
    (B.get_label_id vname (B.get_graph_oid gname)) (B.get_label_id ename (B.get_graph_oid gname))
    create_empty_agtype n
  unfold create_complete_graph_topology create_complete_vertices for_le
  simp only [hN]
  refine ⟨?_, ?_, ?_, ?_, ?_, ?_⟩
  · exact h4.log_extends.trans (hr _ _).log_extends
  · rw [hv, h1, vertex_ids_append, vertex_ids_map_vertex]
  · rw [he, h1, h2]
    have e1 : (n - 1 + 1 - 1).toNat = n.toNat - 1 := by omega
    have e2 : ∀ a : Nat, (n + 1 - (1 + (a : Int) + 1)).toNat = n.toNat - 1 - a := by
      intro a; omega
    simp only [e1, e2, complete_lid, edge_ends_append, edge_ends_map_vertex,
      List.append_nil]
  · intro hne t
    rw [(hr _ _).others _ _ (by simp [hne]) t, h3]
  · rw [(hr _ _).graphs_eq, h4.graphs_eq]
  · rw [(hr _ _).labels_eq, h4.labels_eq]

/-! ## Lists of ordered pairs -/

theorem mem_ordered_pairs {β : Type} (f : Nat → β) (N : Nat) (p : β × β) :
    p ∈ ordered_pairs f N ↔ ∃ a b, a < b ∧ b < N ∧ p = (f a, f b) := by
  unfold ordered_pairs
  simp only [List.mem_flatMap, List.mem_map, List.mem_range]
  constructor
  · rintro ⟨a, ha, b, hb, rfl⟩
    exact ⟨a, a + 1 + b, by omega, by omega, rfl⟩
  · rintro ⟨a, b, hab, hb, rfl⟩
    refine ⟨a, by omega, b - a - 1, by omega, ?_⟩
    have e : a + 1 + (b - a - 1) = b := by omega
    rw [e]

theorem sum_descending (M : Nat) :
    ((List.range M).map (fun a => M - a)).sum * 2 = M * (M + 1) := by
  induction M with
  | zero => rfl
  | succ M ih =>
    rw [List.range_succ_eq_map, List.map_cons, List.map_map, List.sum_cons]
    have e : ((fun a => M + 1 - a) ∘ Nat.succ) = (fun a => M - a) := by
      funext a
      simp only [Function.comp_apply, Nat.succ_eq_add_one]
      omega
    rw [e, Nat.add_mul, ih, Nat.sub_zero]
    ring

theorem length_ordered_pairs {β : Type} (f : Nat → β) (N : Nat) :
    (ordered_pairs f N).length * 2 = N * (N - 1) := by
  unfold ordered_pairs
  rw [List.length_flatMap]
  have e : (List.length ∘ fun (a : Nat) =>
      (List.range (N - 1 - a)).map (fun (b : Nat) => (f a, f (a + 1 + b))))
      = (fun a => (N - 1) - a) := by
    funext a
    simp
  rw [e, sum_descending]
  cases N with
  | zero => rfl
  | succ N => simp [Nat.mul_comm]

theorem nodup_ordered_pairs {β : Type} (f : Nat → β) (N : Nat)
    (hinj : ∀ a b, a < N → b < N → f a = f b → a = b) : (ordered_pairs f N).Nodup := by
  unfold ordered_pairs
  rw [List.nodup_flatMap]
  constructor
  · intro a ha
    rw [List.mem_range] at ha
    refine List.Nodup.map_on ?_ (List.nodup_range _)
    intro x hx y hy hxy
    rw [List.mem_range] at hx hy
    have := hinj (a + 1 + x) (a + 1 + y) (by omega) (by omega) (Prod.mk.inj hxy).2
    omega
  · refine List.Pairwise.imp_of_mem ?_ (List.pairwise_lt_range (N - 1))
    intro a b ha hb hab
    rw [List.mem_range] at ha hb
    simp only [Function.onFun]
    intro p hpa hpb
    rw [List.mem_map] at hpa hpb
    obtain ⟨x, _, rfl⟩ := hpa
    obtain ⟨y, _, hy⟩ := hpb
    have := hinj b a (by omega) (by omega) (Prod.mk.inj hy).1
    omega

theorem countP_eq_one_of_nodup {β : Type} [DecidableEq β] (E : List β) (x : β)
    (hnd : E.Nodup) (h : x ∈ E) : E.countP (fun e => decide (e = x)) = 1 := by
  induction E with
  | nil => simp at h
  | cons e E ih =>
    rw [List.countP_cons]
    rw [List.nodup_cons] at hnd
    by_cases hx : e = x
    · have : E.countP (fun e => decide (e = x)) = 0 := by
        rw [List.countP_eq_zero]
        intro a ha
        simp only [decide_eq_true_eq]
        intro hax
        exact hnd.1 (by rw [hx, ← hax]; exact ha)
      simp [hx, this]
    · have hm : x ∈ E := by
        rcases List.mem_cons.1 h with h | h
        · exact absurd h.symm hx
        · exact h
      simp [hx, ih hnd.2 hm]

theorem countP_eq_zero_of_not_mem {β : Type} [DecidableEq β] (E : List β) (x : β)
    (h : x ∉ E) : E.countP (fun e => decide (e = x)) = 0 := by
  rw [List.countP_eq_zero]
  intro a ha
  simp only [decide_eq_true_eq]
  intro hax
  exact h (hax ▸ ha)

theorem edges_between_eq_add {β : Type} [DecidableEq β] (E : List (β × β)) (u v : β)
    (huv : u ≠ v) :
    edges_between E u v
      = E.countP (fun e => decide (e = (u, v))) + E.countP (fun e => decide (e = (v, u))) := by
  unfold edges_between
  induction E with
  | nil => rfl
  | cons e E ih =>
    rw [List.countP_cons, List.countP_cons, List.countP_cons, ih]
    by_cases h1 : e = (u, v)
    · have h2 : e ≠ (v, u) := by
        rw [h1]
        intro h
        exact huv (Prod.mk.inj h).1
      simp only [h1, decide_True, Bool.true_or, if_true]
      have : decide ((u, v) = (v, u)) = false := by simpa [h1] using h2
      simp only [this]
      simp
      omega
    · by_cases h2 : e = (v, u)
      · have h3 : ¬ (v = u ∧ u = v) := fun h => huv h.2
        simp only [h1, h2, decide_False, decide_True, Bool.or_true, if_true]
        simp [h3]
        omega
      · simp [h1, h2]

/-- The ordered pairs over `N` distinct values form the complete graph on them:
one edge between any two distinct values, no edge leaving them, no loop. -/
theorem ordered_pairs_complete {β : Type} [DecidableEq β] (f : Nat → β) (N : Nat)
    (hinj : ∀ a b, a < N → b < N → f a = f b → a = b) :
    (∀ u ∈ (List.range N).map f, ∀ v ∈ (List.range N).map f, u ≠ v →
        edges_between (ordered_pairs f N) u v = 1)
    ∧ (∀ e ∈ ordered_pairs f N, e.1 ∈ (List.range N).map f ∧ e.2 ∈ (List.range N).map f)
    ∧ (∀ e ∈ ordered_pairs f N, e.1 ≠ e.2) := by
  have hnd := nodup_ordered_pairs f N hinj
  have key : ∀ a b, a < b → b < N →
      (ordered_pairs f N).countP (fun e => decide (e = (f a, f b))) = 1
      ∧ (ordered_pairs f N).countP (fun e => decide (e = (f b, f a))) = 0 := by
    intro a b hab hb
    constructor
    · exact countP_eq_one_of_nodup _ _ hnd ((mem_ordered_pairs f N _).2 ⟨a, b, hab, hb, rfl⟩)
    · apply countP_eq_zero_of_not_mem
      rw [mem_ordered_pairs]
      rintro ⟨x, y, hxy, hy, h⟩
      have h1 := hinj b x (by omega) (by omega) (Prod.mk.inj h).1
      have h2 := hinj a y (by omega) (by omega) (Prod.mk.inj h).2
      omega
  refine ⟨?_, ?_, ?_⟩
  · intro u hu v hv huv
    rw [List.mem_map] at hu hv
    obtain ⟨a, ha, rfl⟩ := hu
    obtain ⟨b, hb, rfl⟩ := hv
    rw [List.mem_range] at ha hb
    rw [edges_between_eq_add _ _ _ huv]
    have hne : a ≠ b := fun h => huv (by rw [h])
    rcases Nat.lt_or_gt_of_ne hne with h | h
    · rw [(key a b h hb).1, (key a b h hb).2]
    · rw [(key b a h ha).1, (key b a h ha).2]
  · intro e he
    rw [mem_ordered_pairs] at he
    obtain ⟨a, b, hab, hb, rfl⟩ := he
    exact ⟨List.mem_map.2 ⟨a, List.mem_range.2 (by omega), rfl⟩,
           List.mem_map.2 ⟨b, List.mem_range.2 hb, rfl⟩⟩
  · intro e he
    rw [mem_ordered_pairs] at he
    obtain ⟨a, b, hab, hb, rfl⟩ := he
    intro h
    have := hinj a b (by omega) hb h
    omega

theorem length_ordered_pairs_int {β : Type} (f : Nat → β) (n : Int) (hn : 0 ≤ n) :
    ((ordered_pairs f n.toNat).length : Int) = n * (n - 1) / 2 := by
  have hlen := length_ordered_pairs f n.toNat
  symm
  apply Int.ediv_eq_of_eq_mul_left (by norm_num)
  have h2 : (((ordered_pairs f n.toNat).length * 2 : Nat) : Int)
      = ((n.toNat * (n.toNat - 1) : Nat) : Int) := by rw [hlen]
  have e1 : ((n.toNat : Nat) : Int) = n := Int.toNat_of_nonneg hn
  rcases Nat.eq_zero_or_pos n.toNat with h0 | h0
  · have : n = 0 := by omega
    subst this
    simp at h2 ⊢
    exact h2
  · have e2 : ((n.toNat - 1 : Nat) : Int) = n - 1 := by omega
    rw [Nat.cast_mul, Nat.cast_mul, e1, e2] at h2
    rw [← h2]
    norm_num

theorem new_insertions_spec (w w1 : World) (h : w.log <+: w1.log) :
    w1.log = w.log ++ new_insertions w w1 := by
  unfold new_insertions
  exact (List.prefix_iff_eq_append.1 h).symm

theorem vertex_ids_new_insertions (w w1 : World) (X : List graphid) (h : w.log <+: w1.log)
    (hv : vertex_ids w1.log = vertex_ids w.log ++ X) :
    vertex_ids (new_insertions w w1) = X := by
  have e := new_insertions_spec w w1 h
  rw [e, vertex_ids_append] at hv
  exact List.append_cancel_left hv

theorem edge_ends_new_insertions (w w1 : World) (X : List (graphid × graphid))
    (h : w.log <+: w1.log) (hv : edge_ends w1.log = edge_ends w.log ++ X) :
    edge_ends (new_insertions w w1) = X := by
  have e := new_insertions_spec w w1 h
  rw [e, edge_ends_append] at hv
  exact List.append_cancel_left hv

/-- A call whose arguments pass the checks of lines 157-196 runs the catalog
part and then the generation part, and returns. -/
theorem create_complete_graph_accepted (B : Backend) (gname ename : String) (n : Int)
    (vopt : Option String) (w : World) (h3 : vopt ≠ some ename) :
    create_complete_graph B
        { graph_name := some gname, no_vertices := { value := n, isnull := false },
          edge_label_name := some ename, vtx_label_name := vopt } w
      = (Except.ok (),
         create_complete_graph_topology B gname (effective_vertex_label vopt) ename n
           (create_complete_graph_catalog B gname (effective_vertex_label vopt) ename vopt.isSome w)) := by
  cases vopt with
  | none => simp [create_complete_graph, effective_vertex_label, PG_GETARG_INT64]
  | some v =>
    have hv : v ≠ ename := fun h => h3 (by rw [h])
    simp [create_complete_graph, effective_vertex_label, PG_GETARG_INT64, hv]

/-- The vertices and edges of one accepted call of `create_complete_graph`. -/
theorem create_complete_graph_run (B : Backend) (gname ename : String) (n : Int)
    (vopt : Option String) (w : World) (h3 : vopt ≠ some ename) :
    ∃ w1, create_complete_graph B
        { graph_name := some gname, no_vertices := { value := n, isnull := false },
          edge_label_name := some ename, vtx_label_name := vopt } w = (Except.ok (), w1)
      ∧ w.log <+: w1.log
      ∧ vertex_ids (new_insertions w w1)
          = (List.range n.toNat).map (fun t =>
              B.make_graphid (B.get_label_id (effective_vertex_label vopt) (B.get_graph_oid gname))
                (upcoming w (B.get_graph_oid gname) (effective_vertex_label vopt) t))
      ∧ edge_ends (new_insertions w w1)
          = ordered_pairs (fun t =>
              B.make_graphid (B.get_label_id (effective_vertex_label vopt) (B.get_graph_oid gname))
                (complete_lid w (B.get_graph_oid gname) (effective_vertex_label vopt) n - n
                  + (1 + (t : Int)))) n.toNat
      ∧ (effective_vertex_label vopt ≠ ename → ∀ t,
          upcoming w1 (B.get_graph_oid gname) (effective_vertex_label vopt) t
            = upcoming w (B.get_graph_oid gname) (effective_vertex_label vopt) (t + n.toNat)) := by
  refine ⟨_, create_complete_graph_accepted B gname ename n vopt w h3, ?_⟩
  obtain ⟨h1, h2, h4, h5, _, _⟩ := create_complete_graph_topology_run B gname
    (effective_vertex_label vopt) ename n
    (create_complete_graph_catalog B gname (effective_vertex_label vopt) ename vopt.isSome w)
  simp only [create_complete_graph_catalog_log, create_complete_graph_catalog_upcoming,
    complete_lid] at h1 h2 h4 h5
  refine ⟨h1, vertex_ids_new_insertions _ _ _ h1 h2, ?_, h5⟩
  refine edge_ends_new_insertions _ _ _ h1 ?_
  rw [h4]
  unfold ordered_pairs complete_lid
  congr 1
  refine List.flatMap_congr (fun a _ => List.map_congr_left (fun b _ => ?_))
  congr 3
  push_cast
  ring

theorem ordered_pairs_congr {β : Type} (f g : Nat → β) (N : Nat)
    (h : ∀ t, t < N → f t = g t) : ordered_pairs f N = ordered_pairs g N := by
  unfold ordered_pairs
  refine List.flatMap_congr (fun a ha => List.map_congr_left (fun b hb => ?_))
  rw [List.mem_range] at ha hb
  rw [h a (by omega), h (a + 1 + b) (by omega)]

/-- A sequence that hands out consecutive values hands out its first value plus
`t` at its `t`-th next call. -/
theorem upcoming_of_consecutive (w : World) (g : Oid) (l : String) (N : Nat)
    (hcons : ∀ t, t + 1 < N → upcoming w g l (t + 1) = upcoming w g l t + 1) :
    ∀ t, t < N → upcoming w g l t = upcoming w g l 0 + (t : Int) := by
  intro t
  induction t with
  | zero => intro _; simp
  | succ t ih =>
    intro ht
    rw [hcons t ht, ih (by omega)]
    push_cast
    ring

/-- With a consecutive allocator, the arithmetic of lines 253 and 256 addresses
the vertices created by the vertex loop. -/
theorem complete_lid_consecutive (w : World) (g : Oid) (l : String) (n : Int) (hn : 0 ≤ n)
    (hcons : ∀ t, t + 1 < n.toNat → upcoming w g l (t + 1) = upcoming w g l t + 1)
    (t : Nat) (ht : t < n.toNat) :
    complete_lid w g l n - n + (1 + (t : Int)) = upcoming w g l t := by
  have h0 : n.toNat ≠ 0 := by omega
  have e1 := upcoming_of_consecutive w g l n.toNat hcons (n.toNat - 1) (by omega)
  have e2 := upcoming_of_consecutive w g l n.toNat hcons t ht
  rw [complete_lid, if_neg h0, e1, e2]
  have e3 : ((n.toNat - 1 : Nat) : Int) = n - 1 := by omega
  rw [e3]
  ring

/-! ## The complete-graph generator -/

/-- C1: for every vertex count `n >= 0` and every state of the catalog, of the
vertex and edge sequences and of the log, an accepted call of
`create_complete_graph` returns, keeps the rows that were there, and adds exactly
`n` vertex rows and exactly `n * (n - 1) / 2` edge rows; for `n = 0` and `n = 1`
it adds no edge row. -/
theorem create_complete_graph_counts (B : Backend) (gname ename : String) (n : Int)
    (vopt : Option String) (w : World) (hn : 0 ≤ n) (h3 : vopt ≠ some ename) :
    (create_complete_graph B (complete_call gname n ename vopt) w).1 = Except.ok ()
    ∧ (create_complete_graph B (complete_call gname n ename vopt) w).2.log
        = w.log ++ new_insertions w (create_complete_graph B (complete_call gname n ename vopt) w).2
    ∧ ((vertex_ids (new_insertions w
          (create_complete_graph B (complete_call gname n ename vopt) w).2)).length : Int) = n
    ∧ ((edge_ends (new_insertions w
          (create_complete_graph B (complete_call gname n ename vopt) w).2)).length : Int)
        = n * (n - 1) / 2
    ∧ (n ≤ 1 → edge_ends (new_insertions w
          (create_complete_graph B (complete_call gname n ename vopt) w).2) = []) := by
  obtain ⟨w1, hw, hp, hv, he, _⟩ := create_complete_graph_run B gname ename n vopt w h3
  unfold complete_call
  rw [hw]
  refine ⟨rfl, new_insertions_spec w w1 hp, ?_, ?_, ?_⟩
  · simp only [hv, List.length_map, List.length_range]
    omega
  · rw [he]
    exact length_ordered_pairs_int _ n hn
  · intro h1
    simp only [he]
    have hN : n.toNat - 1 = 0 := by omega
    simp [ordered_pairs, hN]

/-- C2: with an allocator that hands out consecutive local ids and a composer
that gives different local ids of the vertex label different GraphIDs, the edges
added by an accepted call of `create_complete_graph` form the complete graph on
the vertices added by that call: the created vertices are pairwise different,
any two of them are joined by exactly one added edge (in one of the two
directions), every added edge has both endpoints among them, and no added edge is
a loop. -/
theorem create_complete_graph_complete (B : Backend) (gname ename : String) (n : Int)
    (vopt : Option String) (w : World) (hn : 0 ≤ n) (h3 : vopt ≠ some ename)
    (hcons : ∀ t, t + 1 < n.toNat →
      upcoming w (B.get_graph_oid gname) (effective_vertex_label vopt) (t + 1)
        = upcoming w (B.get_graph_oid gname) (effective_vertex_label vopt) t + 1)
    (hinj : ∀ x y,
      B.make_graphid (B.get_label_id (effective_vertex_label vopt) (B.get_graph_oid gname)) x
        = B.make_graphid (B.get_label_id (effective_vertex_label vopt) (B.get_graph_oid gname)) y →
      x = y) :
    (vertex_ids (new_insertions w
        (create_complete_graph B (complete_call gname n ename vopt) w).2)).Nodup
    ∧ (∀ u ∈ vertex_ids (new_insertions w
          (create_complete_graph B (complete_call gname n ename vopt) w).2),
        ∀ v ∈ vertex_ids (new_insertions w
          (create_complete_graph B (complete_call gname n ename vopt) w).2),
        u ≠ v →
        edges_between (edge_ends (new_insertions w
          (create_complete_graph B (complete_call gname n ename vopt) w).2)) u v = 1)
    ∧ (∀ e ∈ edge_ends (new_insertions w
          (create_complete_graph B (complete_call gname n ename vopt) w).2),
        e.1 ∈ vertex_ids (new_insertions w
          (create_complete_graph B (complete_call gname n ename vopt) w).2)
        ∧ e.2 ∈ vertex_ids (new_insertions w
          (create_complete_graph B (complete_call gname n ename vopt) w).2))
    ∧ (∀ e ∈ edge_ends (new_insertions w
          (create_complete_graph B (complete_call gname n ename vopt) w).2),
        e.1 ≠ e.2) := by
  obtain ⟨w1, hw, hp, hv, he, _⟩ := create_complete_graph_run B gname ename n vopt w h3
  unfold complete_call
  rw [hw]
  simp only []
  have hfe := ordered_pairs_congr _ _ n.toNat
    (fun t ht => congrArg
      (B.make_graphid (B.get_label_id (effective_vertex_label vopt) (B.get_graph_oid gname)))
      (complete_lid_consecutive w (B.get_graph_oid gname) (effective_vertex_label vopt) n hn hcons
        t ht))
  rw [hfe] at he
  have hup := upcoming_of_consecutive w (B.get_graph_oid gname) (effective_vertex_label vopt)
    n.toNat hcons
  have hfinj : ∀ a b, a < n.toNat → b < n.toNat →
      B.make_graphid (B.get_label_id (effective_vertex_label vopt) (B.get_graph_oid gname))
          (upcoming w (B.get_graph_oid gname) (effective_vertex_label vopt) a)
        = B.make_graphid (B.get_label_id (effective_vertex_label vopt) (B.get_graph_oid gname))
          (upcoming w (B.get_graph_oid gname) (effective_vertex_label vopt) b) → a = b := by
    intro a b ha hb hab
    have := hinj _ _ hab
    rw [hup a ha, hup b hb] at this
    omega
  rw [hv, he]
  refine ⟨?_, ordered_pairs_complete _ n.toNat hfinj⟩
  exact List.Nodup.map_on
    (fun x hx y hy hxy => hfinj x y (List.mem_range.1 hx) (List.mem_range.1 hy) hxy)
    (List.nodup_range _)

/-! ## The loop of create_cycle_graph -/

theorem create_vertex_fst (B : Backend) (graph : graph_components) (w : World) :
    (create_vertex B graph w).1 = cycle_vertex_id B graph w 0 := by
  simp [create_vertex, cycle_vertex_id]

theorem create_vertex_log (B : Backend) (graph : graph_components) (w : World) :
    (create_vertex B graph w).2.log
      = w.log ++ [Insertion.vertex graph.graph_oid graph.vertex_label
          (cycle_vertex_id B graph w 0) create_empty_agtype] := by
  simp [create_vertex, cycle_vertex_id]

theorem create_vertex_reaches (B : Backend) (graph : graph_components) (w : World) :
    Reaches graph.vtx_seq_id.1 graph.vtx_seq_id.2 w (create_vertex B graph w).2 :=
  ⟨rfl, rfl, by simp [create_vertex_log], fun g1 l1 hne t => by
    simp only [create_vertex, upcoming_insert_vertex]
    exact upcoming_nextval_other _ g1 _ l1 w t hne⟩

theorem create_vertex_upcoming (B : Backend) (graph : graph_components) (w : World) (t : Nat) :
    upcoming (create_vertex B graph w).2 graph.vtx_seq_id.1 graph.vtx_seq_id.2 t
      = upcoming w graph.vtx_seq_id.1 graph.vtx_seq_id.2 (t + 1) := by
  simp only [create_vertex, upcoming_insert_vertex]
  exact upcoming_nextval_same _ _ w t

theorem connect_vertexes_by_graphid_log (B : Backend) (graph : graph_components)
    (out_vtx in_vtx : graphid) (w : World) :
    (connect_vertexes_by_graphid B graph out_vtx in_vtx w).2.log
      = w.log ++ [Insertion.edge graph.graph_oid graph.edge_label (cycle_edge_id B graph w 0)
          out_vtx in_vtx create_empty_agtype] := by
  simp [connect_vertexes_by_graphid, cycle_edge_id]

theorem connect_vertexes_by_graphid_reaches (B : Backend) (graph : graph_components)
    (out_vtx in_vtx : graphid) (w : World) :
    Reaches graph.edge_seq_id.1 graph.edge_seq_id.2 w
      (connect_vertexes_by_graphid B graph out_vtx in_vtx w).2 :=
  ⟨rfl, rfl, by simp [connect_vertexes_by_graphid_log], fun g1 l1 hne t => by
    simp only [connect_vertexes_by_graphid, upcoming_insert_edge]
    exact upcoming_nextval_other _ g1 _ l1 w t hne⟩

theorem connect_vertexes_by_graphid_upcoming (B : Backend) (graph : graph_components)
    (out_vtx in_vtx : graphid) (w : World) (t : Nat) :
    upcoming (connect_vertexes_by_graphid B graph out_vtx in_vtx w).2
        graph.edge_seq_id.1 graph.edge_seq_id.2 t
      = upcoming w graph.edge_seq_id.1 graph.edge_seq_id.2 (t + 1) := by
  simp only [connect_vertexes_by_graphid, upcoming_insert_edge]
  exact upcoming_nextval_same _ _ w t

/-- One iteration of the loop of lines 455-460, when the two labels have
different sequences. -/
theorem create_cycle_step_spec (B : Backend) (graph : graph_components)
    (hsep : ¬ (graph.vtx_seq_id.1 = graph.edge_seq_id.1
      ∧ graph.vtx_seq_id.2 = graph.edge_seq_id.2)) (curr : graphid) (w : World) :
    (create_cycle_step B graph (curr, w)).1 = cycle_vertex_id B graph w 0
    ∧ (create_cycle_step B graph (curr, w)).2.log
        = w.log ++ [Insertion.vertex graph.graph_oid graph.vertex_label
            (cycle_vertex_id B graph w 0) create_empty_agtype,
          Insertion.edge graph.graph_oid graph.edge_label (cycle_edge_id B graph w 0)
            curr (cycle_vertex_id B graph w 0) create_empty_agtype]
    ∧ (∀ t, upcoming (create_cycle_step B graph (curr, w)).2
          graph.vtx_seq_id.1 graph.vtx_seq_id.2 t
        = upcoming w graph.vtx_seq_id.1 graph.vtx_seq_id.2 (t + 1))
    ∧ (∀ t, upcoming (create_cycle_step B graph (curr, w)).2
          graph.edge_seq_id.1 graph.edge_seq_id.2 t
        = upcoming w graph.edge_seq_id.1 graph.edge_seq_id.2 (t + 1))
    ∧ (create_cycle_step B graph (curr, w)).2.graphs = w.graphs
    ∧ (create_cycle_step B graph (curr, w)).2.labels = w.labels := by
  have hsep2 : ¬ (graph.edge_seq_id.1 = graph.vtx_seq_id.1
      ∧ graph.edge_seq_id.2 = graph.vtx_seq_id.2) := fun h => hsep ⟨h.1.symm, h.2.symm⟩
  have hv := create_vertex_reaches B graph w
  have he : ∀ t, upcoming (create_vertex B graph w).2 graph.edge_seq_id.1 graph.edge_seq_id.2 t
      = upcoming w graph.edge_seq_id.1 graph.edge_seq_id.2 t :=
    fun t => hv.others _ _ hsep2 t
  have hc := fun o i => connect_vertexes_by_graphid_reaches B graph o i
    (create_vertex B graph w).2
  unfold create_cycle_step
  simp only [create_vertex_fst]
  refine ⟨trivial, ?_, ?_, ?_, ?_, ?_⟩
  · rw [connect_vertexes_by_graphid_log, create_vertex_log]
    simp [cycle_edge_id, he]
  · intro t
    rw [(hc _ _).others _ _ hsep t, create_vertex_upcoming]
  · intro t
    rw [connect_vertexes_by_graphid_upcoming, he]
  · rw [(hc _ _).graphs_eq, hv.graphs_eq]
  · rw [(hc _ _).labels_eq, hv.labels_eq]

/-- Effect of `k` iterations of the loop of lines 455-460. -/
theorem create_cycle_step_iterate (B : Backend) (graph : graph_components)
    (hsep : ¬ (graph.vtx_seq_id.1 = graph.edge_seq_id.1
      ∧ graph.vtx_seq_id.2 = graph.edge_seq_id.2)) :
    ∀ (k : Nat) (i : Int) (curr : graphid) (w : World),
      (iterate_body (fun _ s => create_cycle_step B graph s) k i (curr, w)).1
        = (if k = 0 then curr else cycle_vertex_id B graph w (k - 1))
      ∧ (iterate_body (fun _ s => create_cycle_step B graph s) k i (curr, w)).2.log
        = w.log ++ (List.range k).flatMap (fun (t : Nat) =>
            [Insertion.vertex graph.graph_oid graph.vertex_label (cycle_vertex_id B graph w t)
               create_empty_agtype,
             Insertion.edge graph.graph_oid graph.edge_label (cycle_edge_id B graph w t)
               (if t = 0 then curr else cycle_vertex_id B graph w (t - 1))
               (cycle_vertex_id B graph w t) create_empty_agtype])
      ∧ (∀ t, upcoming (iterate_body (fun _ s => create_cycle_step B graph s) k i (curr, w)).2
            graph.vtx_seq_id.1 graph.vtx_seq_id.2 t
          = upcoming w graph.vtx_seq_id.1 graph.vtx_seq_id.2 (t + k))
      ∧ (∀ t, upcoming (iterate_body (fun _ s => create_cycle_step B graph s) k i (curr, w)).2
            graph.edge_seq_id.1 graph.edge_seq_id.2 t
          = upcoming w graph.edge_seq_id.1 graph.edge_seq_id.2 (t + k))
      ∧ (iterate_body (fun _ s => create_cycle_step B graph s) k i (curr, w)).2.graphs = w.graphs
      ∧ (iterate_body (fun _ s => create_cycle_step B graph s) k i (curr, w)).2.labels
          = w.labels := by
  intro k
  induction k with
  | zero => intro i curr w; simp [iterate_body]
  | succ k ih =>
    intro i curr w
    obtain ⟨s1, s2, s3, s4, s5, s6⟩ := create_cycle_step_spec B graph hsep curr w
    obtain ⟨h1, h2, h3, h4, h5, h6⟩ := ih (i + 1) (create_cycle_step B graph (curr, w)).1
      (create_cycle_step B graph (curr, w)).2
    have hv : ∀ t, cycle_vertex_id B graph (create_cycle_step B graph (curr, w)).2 t
        = cycle_vertex_id B graph w (t + 1) := fun t => by simp [cycle_vertex_id, s3]
    have he : ∀ t, cycle_edge_id B graph (create_cycle_step B graph (curr, w)).2 t
        = cycle_edge_id B graph w (t + 1) := fun t => by simp [cycle_edge_id, s4]
    simp only [iterate_body]
    refine ⟨?_, ?_, ?_, ?_, ?_, ?_⟩
    · rw [h1, s1]
      cases k with
      | zero => simp
      | succ k => simp [hv]
    · rw [h2, s2, s1, List.range_succ_eq_map]
      simp only [List.flatMap_cons, List.flatMap_map, hv, he, List.append_assoc]
      congr 1
      simp only [List.cons_append, List.nil_append, if_true, List.cons.injEq, true_and]
      refine List.flatMap_congr (fun t _ => ?_)
      cases t with
      | zero => simp
      | succ t => simp
    · intro t
      rw [h3, s3]
      congr 1
    · intro t
      rw [h4, s4]
      congr 1
    · rw [h5, s5]
    · rw [h6, s6]

/-! ## create_cycle_graph as a whole -/

theorem cycle_vertex_id_congr (B : Backend) (graph : graph_components) (w w1 : World)
    (h : w1.seqs = w.seqs) (t : Nat) :
    cycle_vertex_id B graph w1 t = cycle_vertex_id B graph w t := by
  simp [cycle_vertex_id, upcoming, h]

theorem cycle_edge_id_congr (B : Backend) (graph : graph_components) (w w1 : World)
    (h : w1.seqs = w.seqs) (t : Nat) :
    cycle_edge_id B graph w1 t = cycle_edge_id B graph w t := by
  simp [cycle_edge_id, upcoming, h]

theorem cycle_rows_congr (B : Backend) (graph : graph_components) (w w1 : World)
    (h : w1.seqs = w.seqs) (K : Nat) : cycle_rows B graph w1 K = cycle_rows B graph w K := by
  simp [cycle_rows, cycle_vertex_id_congr B graph w w1 h, cycle_edge_id_congr B graph w w1 h]

/-- Lines 453-462 return the first vertex and add the rows of a closed chain
over `graph_size` vertices (one vertex when `graph_size` is below 1). -/
theorem create_cycle_topology_run (B : Backend) (graph : graph_components)
    (hsep : ¬ (graph.vtx_seq_id.1 = graph.edge_seq_id.1
      ∧ graph.vtx_seq_id.2 = graph.edge_seq_id.2)) (w : World) :
    (create_cycle_topology B graph w).1 = cycle_vertex_id B graph w 0
    ∧ (create_cycle_topology B graph w).2.log
        = w.log ++ cycle_rows B graph w (graph.graph_size - 1).toNat
    ∧ (create_cycle_topology B graph w).2.graphs = w.graphs
    ∧ (create_cycle_topology B graph w).2.labels = w.labels := by
  have hsep2 : ¬ (graph.edge_seq_id.1 = graph.vtx_seq_id.1
      ∧ graph.edge_seq_id.2 = graph.vtx_seq_id.2) := fun h => hsep ⟨h.1.symm, h.2.symm⟩
  have hv := create_vertex_reaches B graph w
  have hv1 : ∀ t, cycle_vertex_id B graph (create_vertex B graph w).2 t
      = cycle_vertex_id B graph w (t + 1) :=
    fun t => by simp [cycle_vertex_id, create_vertex_upcoming]
  have he1 : ∀ t, cycle_edge_id B graph (create_vertex B graph w).2 t
      = cycle_edge_id B graph w t :=
    fun t => by simp [cycle_edge_id, hv.others _ _ hsep2 t]
  obtain ⟨h1, h2, h3, h4, h5, h6⟩ := create_cycle_step_iterate B graph hsep
    (graph.graph_size - 1).toNat 1 (create_vertex B graph w).1 (create_vertex B graph w).2
  have hc := fun o i => connect_vertexes_by_graphid_reaches B graph o i
    (iterate_body (fun _ s => create_cycle_step B graph s) (graph.graph_size - 1).toNat 1
      ((create_vertex B graph w).1, (create_vertex B graph w).2)).2
  have hlast : (iterate_body (fun _ s => create_cycle_step B graph s)
      (graph.graph_size - 1).toNat 1
      ((create_vertex B graph w).1, (create_vertex B graph w).2)).1
      = cycle_vertex_id B graph w (graph.graph_size - 1).toNat := by
    rw [h1, create_vertex_fst]
    cases (graph.graph_size - 1).toNat with
    | zero => simp
    | succ k => simp [hv1]
  unfold create_cycle_topology for_lt
  simp only []
  refine ⟨create_vertex_fst B graph w, ?_, ?_, ?_⟩
  · rw [connect_vertexes_by_graphid_log, hlast]
    have hid : cycle_edge_id B graph (iterate_body (fun _ s => create_cycle_step B graph s)
        (graph.graph_size - 1).toNat 1
        ((create_vertex B graph w).1, (create_vertex B graph w).2)).2 0
        = cycle_edge_id B graph w (graph.graph_size - 1).toNat := by
      have := h4 0
      simp only [cycle_edge_id, this, Nat.zero_add]
      have := he1 (graph.graph_size - 1).toNat
      simpa [cycle_edge_id] using this
    rw [hid, h2, create_vertex_log, create_vertex_fst]
    unfold cycle_rows
    simp only [List.append_assoc, hv1, he1]
    congr 3
    refine List.flatMap_congr (fun t _ => ?_)
    cases t with
    | zero => simp
    | succ t => simp [hv1]
  · rw [(hc _ _).graphs_eq, h5, hv.graphs_eq]
  · rw [(hc _ _).labels_eq, h6, hv.labels_eq]

theorem vertex_ids_cycle_rows (B : Backend) (graph : graph_components) (w : World) (K : Nat) :
    vertex_ids (cycle_rows B graph w K)
      = (List.range (K + 1)).map (fun t => cycle_vertex_id B graph w t) := by
  have mid : ∀ xs : List Nat, vertex_ids (xs.flatMap (fun (t : Nat) =>
      [Insertion.vertex graph.graph_oid graph.vertex_label (cycle_vertex_id B graph w (t + 1))
         create_empty_agtype,
       Insertion.edge graph.graph_oid graph.edge_label (cycle_edge_id B graph w t)
         (cycle_vertex_id B graph w t) (cycle_vertex_id B graph w (t + 1)) create_empty_agtype]))
      = xs.map (fun t => cycle_vertex_id B graph w (t + 1)) := by
    intro xs
    induction xs with
    | nil => rfl
    | cons x xs ih =>
      rw [List.flatMap_cons, vertex_ids_append, ih]
      simp [vertex_ids]
  unfold cycle_rows
  rw [vertex_ids_append, vertex_ids_append, mid, List.range_succ_eq_map]
  simp [vertex_ids, List.map_map, Function.comp_def]

theorem edge_ends_cycle_rows (B : Backend) (graph : graph_components) (w : World) (K : Nat) :
    edge_ends (cycle_rows B graph w K)
      = (List.range (K + 1)).map (fun t =>
          (cycle_vertex_id B graph w t, cycle_vertex_id B graph w ((t + 1) % (K + 1)))) := by
  have mid : ∀ xs : List Nat, edge_ends (xs.flatMap (fun (t : Nat) =>
      [Insertion.vertex graph.graph_oid graph.vertex_label (cycle_vertex_id B graph w (t + 1))
         create_empty_agtype,
       Insertion.edge graph.graph_oid graph.edge_label (cycle_edge_id B graph w t)
         (cycle_vertex_id B graph w t) (cycle_vertex_id B graph w (t + 1)) create_empty_agtype]))
      = xs.map (fun t => (cycle_vertex_id B graph w t, cycle_vertex_id B graph w (t + 1))) := by
    intro xs
    induction xs with
    | nil => rfl
    | cons x xs ih =>
      rw [List.flatMap_cons, edge_ends_append, ih]
      simp [edge_ends]
  unfold cycle_rows
  rw [edge_ends_append, edge_ends_append, mid, List.range_succ, List.map_append]
  have e : (List.range K).map (fun t =>
      (cycle_vertex_id B graph w t, cycle_vertex_id B graph w (t + 1)))
      = (List.range K).map (fun t =>
          (cycle_vertex_id B graph w t, cycle_vertex_id B graph w ((t + 1) % (K + 1)))) := by
    refine List.map_congr_left (fun t ht => ?_)
    rw [List.mem_range] at ht
    rw [Nat.mod_eq_of_lt (by omega)]
  rw [e]
  simp [edge_ends]

/-- A call whose arguments pass `assert_cycle_graph_args` and
`check_same_vertex_and_edge_label` creates the graph and the labels when absent,
then runs the generation and returns the first vertex. -/
theorem create_cycle_graph_accepted (B : Backend) (gname ename : String) (n : Int)
    (vprops eprops : Option agtype) (vopt : Option String) (w : World)
    (hsize : 3 ≤ int32_of n) (hne : effective_vertex_label vopt ≠ ename) :
    create_cycle_graph B (cycle_call gname n ename vprops vopt eprops) w
      = (Except.ok (create_cycle_topology B (cycle_context B gname n ename vopt)
            (process_labels B gname (effective_vertex_label vopt) ename
              (create_graph_if_not_exists B gname w))).1,
         (create_cycle_topology B (cycle_context B gname n ename vopt)
            (process_labels B gname (effective_vertex_label vopt) ename
              (create_graph_if_not_exists B gname w))).2) := by
  have h1 : assert_cycle_graph_args (cycle_call gname n ename vprops vopt eprops)
      = Except.ok () := by
    have : ¬ int32_of n < 3 := by omega
    simp [assert_cycle_graph_args, cycle_call, PG_GETARG_INT32, this]
  have h2 : process_cycle_graph_arguments (cycle_call gname n ename vprops vopt eprops)
      = Except.ok
        { graph_oid := 0
          graph_name := gname
          graph_size := int32_of n
          vertex_label := effective_vertex_label vopt
          vertex_label_id := 0
          vertex_properties := create_empty_agtype
          vtx_seq_id := (0, effective_vertex_label vopt)
          edge_label := ename
          edge_label_id := 0
          edge_properties := create_empty_agtype
          edge_seq_id := (0, ename) } := by
    cases vopt with
    | none =>
      simp only [effective_vertex_label] at hne
      simp [process_cycle_graph_arguments, cycle_call, NameStr, process_vertex_label,
        check_same_vertex_and_edge_label, effective_vertex_label, PG_GETARG_INT64, hne,
        bind, Except.bind, pure, Except.pure]
    | some v =>
      simp only [effective_vertex_label] at hne
      simp [process_cycle_graph_arguments, cycle_call, NameStr, process_vertex_label,
        check_same_vertex_and_edge_label, effective_vertex_label, PG_GETARG_INT64, hne,
        bind, Except.bind, pure, Except.pure]
  unfold create_cycle_graph
  rw [h1]
  simp only [h2]
  rfl

theorem create_graph_if_not_exists_seqs (B : Backend) (gname : String) (w : World) :
    (create_graph_if_not_exists B gname w).seqs = w.seqs
    ∧ (create_graph_if_not_exists B gname w).log = w.log := by
  unfold create_graph_if_not_exists
  split_ifs <;> exact ⟨rfl, rfl⟩

theorem process_labels_seqs (B : Backend) (gname vname ename : String) (w : World) :
    (process_labels B gname vname ename w).seqs = w.seqs
    ∧ (process_labels B gname vname ename w).log = w.log := by
  unfold process_labels create_edge_label_if_not_exists create_vertex_label_if_not_exists
  simp only []
  split_ifs <;> exact ⟨rfl, rfl⟩

/-- The rows of one accepted call of `create_cycle_graph` and the value it returns. -/
theorem create_cycle_graph_run (B : Backend) (gname ename : String) (n : Int)
    (vprops eprops : Option agtype) (vopt : Option String) (w : World)
    (hsize : 3 ≤ int32_of n) (hne : effective_vertex_label vopt ≠ ename) :
    (create_cycle_graph B (cycle_call gname n ename vprops vopt eprops) w).1
      = Except.ok (cycle_vertex_id B (cycle_context B gname n ename vopt) w 0)
    ∧ (create_cycle_graph B (cycle_call gname n ename vprops vopt eprops) w).2.log
      = w.log ++ cycle_rows B (cycle_context B gname n ename vopt) w (int32_of n - 1).toNat := by
  have hsep : ¬ ((cycle_context B gname n ename vopt).vtx_seq_id.1
        = (cycle_context B gname n ename vopt).edge_seq_id.1
      ∧ (cycle_context B gname n ename vopt).vtx_seq_id.2
        = (cycle_context B gname n ename vopt).edge_seq_id.2) := fun h => hne h.2
  obtain ⟨h1, h2, _, _⟩ := create_cycle_topology_run B (cycle_context B gname n ename vopt) hsep
    (process_labels B gname (effective_vertex_label vopt) ename
      (create_graph_if_not_exists B gname w))
  have hs : (process_labels B gname (effective_vertex_label vopt) ename
      (create_graph_if_not_exists B gname w)).seqs = w.seqs :=
    (process_labels_seqs B gname _ ename _).1.trans (create_graph_if_not_exists_seqs B gname w).1
  have hl : (process_labels B gname (effective_vertex_label vopt) ename
      (create_graph_if_not_exists B gname w)).log = w.log :=
    (process_labels_seqs B gname _ ename _).2.trans (create_graph_if_not_exists_seqs B gname w).2
  rw [create_cycle_graph_accepted B gname ename n vprops eprops vopt w hsize hne]
  simp only []
  rw [h1, h2, hl, cycle_rows_congr B _ w _ hs, cycle_vertex_id_congr B _ w _ hs]
  exact ⟨rfl, rfl⟩

/-! ## Closed chains -/

theorem new_insertions_of_append (w w1 : World) (X : List Insertion)
    (h : w1.log = w.log ++ X) : new_insertions w w1 = X := by
  unfold new_insertions
  rw [h, List.drop_left]

theorem int32_of_eq_self (x : Int) (h1 : -2147483648 ≤ x) (h2 : x ≤ 2147483647) :
    int32_of x = x := by
  unfold int32_of
  omega

/-! ## The cycle-graph generator -/

/-- C3: for every size `n >= 3` (an `int`) and every state of the database,
an accepted call of `create_cycle_graph` returns, keeps the rows that were
there, adds exactly `n` vertex rows and exactly `n` edge rows, and the value it
returns is the GraphID of the first vertex row it added. -/
theorem create_cycle_graph_counts (B : Backend) (gname ename : String) (n : Int)
    (vprops eprops : Option agtype) (vopt : Option String) (w : World)
    (h3 : 3 ≤ n) (hmax : n ≤ 2147483647) (hne : effective_vertex_label vopt ≠ ename) :
    ∃ first_vertex,
      (create_cycle_graph B (cycle_call gname n ename vprops vopt eprops) w).1
        = Except.ok first_vertex
      ∧ (create_cycle_graph B (cycle_call gname n ename vprops vopt eprops) w).2.log
        = w.log ++ new_insertions w
            (create_cycle_graph B (cycle_call gname n ename vprops vopt eprops) w).2
      ∧ ((vertex_ids (new_insertions w
            (create_cycle_graph B (cycle_call gname n ename vprops vopt eprops) w).2)).length
          : Int) = n
      ∧ ((edge_ends (new_insertions w
            (create_cycle_graph B (cycle_call gname n ename vprops vopt eprops) w).2)).length
          : Int) = n
      ∧ (vertex_ids (new_insertions w
            (create_cycle_graph B (cycle_call gname n ename vprops vopt eprops) w).2)).head?
          = some first_vertex := by
  have hsz : int32_of n = n := int32_of_eq_self n (by omega) hmax
  obtain ⟨h1, h2⟩ := create_cycle_graph_run B gname ename n vprops eprops vopt w
    (by omega) hne
  have hnew := new_insertions_of_append _ _ _ h2
  refine ⟨_, h1, ?_, ?_, ?_, ?_⟩
  · rw [hnew, h2]
  · rw [hnew, vertex_ids_cycle_rows, List.length_map, List.length_range, hsz]
    omega
  · rw [hnew, edge_ends_cycle_rows, List.length_map, List.length_range, hsz]
    omega
  · rw [hnew, vertex_ids_cycle_rows, List.range_succ_eq_map]
    rfl

/-- C5: `create_cycle_graph` stops with ERRCODE_INVALID_PARAMETER_VALUE whenever
the graph name is NULL, the size is NULL or (an `int`) smaller than 3, or the
edge label is NULL, and the world at that point is the initial one: no graph, no
label, no sequence value, no vertex and no edge has been created. -/
theorem create_cycle_graph_rejects (B : Backend) (a : cycle_graph_args) (w : World)
    (h : a.graph_name = none ∨ a.graph_size.isnull = true
      ∨ (-2147483648 ≤ a.graph_size.value ∧ a.graph_size.value < 3)
      ∨ a.edge_label = none) :
    ∃ msg, create_cycle_graph B a w
      = (Except.error (Abort.ereport ErrCode.ERRCODE_INVALID_PARAMETER_VALUE msg), w) := by
  have key : ∃ msg, assert_cycle_graph_args a
      = Except.error (Abort.ereport ErrCode.ERRCODE_INVALID_PARAMETER_VALUE msg) := by
    unfold assert_cycle_graph_args
    by_cases h0 : a.graph_name.isNone = true
    · exact ⟨_, by rw [if_pos h0]⟩
    · rw [if_neg h0]
      by_cases h1 : (a.graph_size.isnull || decide (PG_GETARG_INT32 a.graph_size < 3)) = true
      · exact ⟨_, by rw [if_pos h1]⟩
      · rw [if_neg h1]
        by_cases h2 : a.edge_label.isNone = true
        · exact ⟨_, by rw [if_pos h2]⟩
        · exfalso
          rcases h with h | h | h | h
          · exact h0 (by rw [h]; rfl)
          · exact h1 (by rw [h]; rfl)
          · have e := int32_of_eq_self a.graph_size.value h.1 (by omega)
            apply h1
            simp only [PG_GETARG_INT32, e, Bool.or_eq_true, decide_eq_true_eq]
            exact Or.inr h.2
          · exact h2 (by rw [h]; rfl)
  obtain ⟨msg, hmsg⟩ := key
  exact ⟨msg, by unfold create_cycle_graph; rw [hmsg]⟩

/-! ## age_create_barbell_graph as a whole -/

theorem create_complete_graph_some (B : Backend) (gname vname ename : String) (n : Int)
    (w : World) (hne : vname ≠ ename) :
    create_complete_graph B
        { graph_name := some gname, no_vertices := { value := n, isnull := false },
          edge_label_name := some ename, vtx_label_name := some vname } w
      = (Except.ok (), complete_world B gname vname ename n w) := by
  rw [create_complete_graph_accepted B gname ename n (some vname) w
    (fun h => hne (Option.some.inj h))]
  rfl

/-- The vertices and edges of one bell. -/
theorem complete_world_run (B : Backend) (gname vname ename : String) (n : Int)
    (w : World) (hne : vname ≠ ename) :
    w.log <+: (complete_world B gname vname ename n w).log
    ∧ vertex_ids (new_insertions w (complete_world B gname vname ename n w))
        = (List.range n.toNat).map (fun t =>
            B.make_graphid (B.get_label_id vname (B.get_graph_oid gname))
              (upcoming w (B.get_graph_oid gname) vname t))
    ∧ edge_ends (new_insertions w (complete_world B gname vname ename n w))
        = ordered_pairs (fun t =>
            B.make_graphid (B.get_label_id vname (B.get_graph_oid gname))
              (complete_lid w (B.get_graph_oid gname) vname n - n + (1 + (t : Int)))) n.toNat
    ∧ (∀ t, upcoming (complete_world B gname vname ename n w) (B.get_graph_oid gname) vname t
        = upcoming w (B.get_graph_oid gname) vname (t + n.toNat)) := by
  obtain ⟨w1, hw, hp, hv, he, hs⟩ := create_complete_graph_run B gname ename n (some vname) w
    (fun h => hne (Option.some.inj h))
  rw [create_complete_graph_some B gname vname ename n w hne] at hw
  have e : w1 = complete_world B gname vname ename n w := (Prod.mk.inj hw).2.symm
  subst e
  exact ⟨hp, hv, he, hs hne⟩

theorem age_create_barbell_graph_accepted (B : Backend) (gname vname ename : String)
    (m b : Int) (vprops eprops : Option agtype) (w : World)
    (hb : 0 ≤ int32_of b) (hne : vname ≠ ename) :
    age_create_barbell_graph B (barbell_call gname m b vname vprops ename eprops) w
      = (Except.ok (),
         create_barbell_bridge B gname vname ename m
           (complete_world B gname vname ename m (complete_world B gname vname ename m w))) := by
  have hb2 : ¬ int32_of b < 0 := by omega
  simp only [age_create_barbell_graph, barbell_call, PG_GETARG_INT32, hb2, Bool.false_and,
    Bool.false_or, decide_False, create_complete_graph_some B gname vname ename m _ hne]
  rfl

theorem create_barbell_bridge_log (B : Backend) (gname vname ename : String) (m : Int)
    (w : World) :
    (create_barbell_bridge B gname vname ename m w).log
      = w.log ++ [Insertion.edge (B.get_graph_oid gname) ename
          (B.make_graphid (B.get_label_id ename (B.get_graph_oid gname))
            (upcoming w (B.get_graph_oid gname) ename 0))
          (B.make_graphid (B.get_label_id vname (B.get_graph_oid gname)) 1)
          (B.make_graphid (B.get_label_id vname (B.get_graph_oid gname)) (m * 2))
          create_empty_agtype] := by
  simp [create_barbell_bridge, get_nextval_internal]

/-- The vertices and edges of one accepted call of `age_create_barbell_graph`:
those of the first bell, those of the second bell, and the bridging edge from
local id 1 to local id `2 * m`. -/
theorem age_create_barbell_graph_run (B : Backend) (gname vname ename : String)
    (m b : Int) (vprops eprops : Option agtype) (w : World)
    (hb : 0 ≤ int32_of b) (hne : vname ≠ ename) :
    (age_create_barbell_graph B (barbell_call gname m b vname vprops ename eprops) w).1
      = Except.ok ()
    ∧ w.log <+:
      (age_create_barbell_graph B (barbell_call gname m b vname vprops ename eprops) w).2.log
    ∧ vertex_ids (new_insertions w
        (age_create_barbell_graph B (barbell_call gname m b vname vprops ename eprops) w).2)
      = (List.range m.toNat).map (fun t =>
            B.make_graphid (B.get_label_id vname (B.get_graph_oid gname))
              (upcoming w (B.get_graph_oid gname) vname t))
        ++ (List.range m.toNat).map (fun t =>
            B.make_graphid (B.get_label_id vname (B.get_graph_oid gname))
              (upcoming w (B.get_graph_oid gname) vname (t + m.toNat)))
    ∧ edge_ends (new_insertions w
        (age_create_barbell_graph B (barbell_call gname m b vname vprops ename eprops) w).2)
      = ordered_pairs (fun t =>
            B.make_graphid (B.get_label_id vname (B.get_graph_oid gname))
              (complete_lid w (B.get_graph_oid gname) vname m - m + (1 + (t : Int)))) m.toNat
        ++ ordered_pairs (fun t =>
            B.make_graphid (B.get_label_id vname (B.get_graph_oid gname))
              (complete_lid (complete_world B gname vname ename m w) (B.get_graph_oid gname)
                vname m - m + (1 + (t : Int)))) m.toNat
        ++ [(B.make_graphid (B.get_label_id vname (B.get_graph_oid gname)) 1,
             B.make_graphid (B.get_label_id vname (B.get_graph_oid gname)) (m * 2))] := by
  obtain ⟨p1, v1, e1, s1⟩ := complete_world_run B gname vname ename m w hne
  obtain ⟨p2, v2, e2, _⟩ := complete_world_run B gname vname ename m
    (complete_world B gname vname ename m w) hne
  have l1 := new_insertions_spec _ _ p1
  have l2 := new_insertions_spec _ _ p2
  have l3 := create_barbell_bridge_log B gname vname ename m
    (complete_world B gname vname ename m (complete_world B gname vname ename m w))
  rw [l2, l1, List.append_assoc, List.append_assoc] at l3
  rw [age_create_barbell_graph_accepted B gname vname ename m b vprops eprops w hb hne]
  simp only []
  rw [new_insertions_of_append _ _ _ l3]
  refine ⟨trivial, ?_, ?_, ?_⟩
  · rw [l3]
    exact List.prefix_append _ _
  · rw [vertex_ids_append, vertex_ids_append, v1, v2]
    simp [vertex_ids, s1]
  · rw [edge_ends_append, edge_ends_append, e1, e2]
    simp [edge_ends]

/-! ## The barbell generator -/

/-- The bridge of `age_create_barbell_graph` on a vertex label that already
holds vertices (C8).  A second call with bell size 3 creates the vertices with
local ids 7 to 12, and its bridging edge, the last edge it adds, goes from local
id 1 to local id 6: neither endpoint is a vertex created by this call. -/
theorem age_create_barbell_graph_bridge_misplaced :
    vertex_ids (new_insertions sample_world_after_barbell
        (age_create_barbell_graph sample_backend
          (barbell_call "g" 3 0 "vertices" none "edges" none) sample_world_after_barbell).2)
      = [sample_backend.make_graphid 3 7, sample_backend.make_graphid 3 8,
         sample_backend.make_graphid 3 9, sample_backend.make_graphid 3 10,
         sample_backend.make_graphid 3 11, sample_backend.make_graphid 3 12]
    ∧ (edge_ends (new_insertions sample_world_after_barbell
        (age_create_barbell_graph sample_backend
          (barbell_call "g" 3 0 "vertices" none "edges" none)
          sample_world_after_barbell).2)).getLast?
      = some (sample_backend.make_graphid 3 1, sample_backend.make_graphid 3 6)
    ∧ sample_backend.make_graphid 3 1 ∉ vertex_ids (new_insertions sample_world_after_barbell
        (age_create_barbell_graph sample_backend
          (barbell_call "g" 3 0 "vertices" none "edges" none) sample_world_after_barbell).2)
    ∧ sample_backend.make_graphid 3 6 ∉ vertex_ids (new_insertions sample_world_after_barbell
        (age_create_barbell_graph sample_backend
          (barbell_call "g" 3 0 "vertices" none "edges" none)
          sample_world_after_barbell).2) := by
  decide

/-- The size check of `age_create_barbell_graph` (C9).  A call with the
non-null bell size 2 is not rejected: it returns after adding 4 vertices and 3
edges. -/
theorem age_create_barbell_graph_accepts_small_bell :
    (age_create_barbell_graph sample_backend
        (barbell_call "g" 2 0 "vertices" none "edges" none) sample_world).1 = Except.ok ()
    ∧ (vertex_ids (new_insertions sample_world
        (age_create_barbell_graph sample_backend
          (barbell_call "g" 2 0 "vertices" none "edges" none) sample_world).2)).length = 4
    ∧ (edge_ends (new_insertions sample_world
        (age_create_barbell_graph sample_backend
          (barbell_call "g" 2 0 "vertices" none "edges" none) sample_world).2)).length = 3 :=
  ⟨rfl, by decide, by decide⟩

/-- The label check of `create_complete_graph` (C10).  A call without a vertex
label whose edge label is the default vertex label is not rejected: it creates
the graph, adds a vertex and returns. -/
theorem create_complete_graph_accepts_default_label_as_edge_label :
    effective_vertex_label none = AG_DEFAULT_LABEL_VERTEX
    ∧ (create_complete_graph sample_backend
        (complete_call "g" 1 AG_DEFAULT_LABEL_VERTEX none) sample_world).1 = Except.ok ()
    ∧ (create_complete_graph sample_backend
        (complete_call "g" 1 AG_DEFAULT_LABEL_VERTEX none) sample_world).2.graphs = ["g"]
    ∧ vertex_ids (create_complete_graph sample_backend
        (complete_call "g" 1 AG_DEFAULT_LABEL_VERTEX none) sample_world).2.log
      = [sample_backend.make_graphid 1 1] :=
  ⟨rfl, rfl, by decide, by decide⟩

/-- `create_cycle_graph` compares the edge label with the vertex label it works
with, supplied or default, and stops before anything is created when they are
equal. -/
theorem create_cycle_graph_rejects_same_label (B : Backend) (a : cycle_graph_args) (w : World)
    (h : a.edge_label = some (effective_vertex_label a.vertex_label)) :
    ∃ msg, create_cycle_graph B a w
      = (Except.error (Abort.ereport ErrCode.ERRCODE_INVALID_PARAMETER_VALUE msg), w) := by
  unfold create_cycle_graph
  cases h1 : assert_cycle_graph_args a with
  | error e =>
    unfold assert_cycle_graph_args at h1
    split_ifs at h1 <;> exact ⟨_, by rw [← Except.error.inj h1]⟩
  | ok u =>
    have hg : ∃ g, a.graph_name = some g := by
      unfold assert_cycle_graph_args at h1
      split_ifs at h1 with c1
      cases hgn : a.graph_name with
      | none => simp [hgn] at c1
      | some g => exact ⟨g, rfl⟩
    obtain ⟨g, hg⟩ := hg
    have h2 : ∃ msg, process_cycle_graph_arguments a
        = Except.error (Abort.ereport ErrCode.ERRCODE_INVALID_PARAMETER_VALUE msg) := by
      cases hv : a.vertex_label with
      | none =>
        rw [hv] at h
        exact ⟨"Vertex and edge label cannot be the same", by
          simp [process_cycle_graph_arguments, NameStr, process_vertex_label,
            check_same_vertex_and_edge_label, effective_vertex_label, hg, h, hv,
            bind, Except.bind]⟩
      | some v =>
        rw [hv] at h
        exact ⟨"Vertex and edge label cannot be the same", by
          simp [process_cycle_graph_arguments, NameStr, process_vertex_label,
            check_same_vertex_and_edge_label, effective_vertex_label, hg, h, hv,
            bind, Except.bind]⟩
    obtain ⟨msg, h2⟩ := h2
    exact ⟨msg, by simp only [h2]⟩

/-- `create_complete_graph` stops before anything is created when the vertex
label is supplied and equal to the edge label. -/
theorem create_complete_graph_rejects_same_label (B : Backend) (gname ename : String)
    (n : Int) (w : World) :
    ∃ msg, create_complete_graph B (complete_call gname n ename (some ename)) w
      = (Except.error (Abort.ereport ErrCode.ERRCODE_INVALID_PARAMETER_VALUE msg), w) :=
  ⟨"vertex and edge label can not be same",
   by simp [create_complete_graph, complete_call, invalid_parameter]⟩

/-- `age_create_barbell_graph` stops before anything is created when the vertex
label is supplied and equal to the edge label: the first nested call of
`create_complete_graph` rejects it. -/
theorem age_create_barbell_graph_rejects_same_label (B : Backend) (gname ename : String)
    (m b : Int) (vprops eprops : Option agtype) (w : World) (hb : 0 ≤ int32_of b) :
    ∃ msg, age_create_barbell_graph B (barbell_call gname m b ename vprops ename eprops) w
      = (Except.error (Abort.ereport ErrCode.ERRCODE_INVALID_PARAMETER_VALUE msg), w) := by
  have hb2 : ¬ int32_of b < 0 := by omega
  exact ⟨"vertex and edge label can not be same", by
    simp [age_create_barbell_graph, barbell_call, PG_GETARG_INT32, hb2, create_complete_graph,
      invalid_parameter]⟩

/-! ## Concrete instances -/

theorem sample_backend_injective (l x y : Int)
    (h : sample_backend.make_graphid l x = sample_backend.make_graphid l y) : x = y := by
  have h2 : l * 281474976710656 + x = l * 281474976710656 + y := h
  omega

theorem sample_world_upcoming (g : Oid) (l : String) (t : Nat) :
    upcoming sample_world g l t = 1 + (t : Int) := by
  simp [upcoming, sample_world]
  ring

/-- Instance of C1: a complete graph on 4 vertices in the empty database. -/
theorem create_complete_graph_counts_witness :
    (0 : Int) ≤ 4
    ∧ (some "vertices" : Option String) ≠ some "edges"
    ∧ (create_complete_graph sample_backend (complete_call "g" 4 "edges" (some "vertices")) sample_world).1 = Except.ok ()
    ∧ (create_complete_graph sample_backend (complete_call "g" 4 "edges" (some "vertices")) sample_world).2.log
        = sample_world.log ++ new_insertions sample_world
            (create_complete_graph sample_backend (complete_call "g" 4 "edges" (some "vertices")) sample_world).2
    ∧ ((vertex_ids (new_insertions sample_world
        (create_complete_graph sample_backend (complete_call "g" 4 "edges" (some "vertices")) sample_world).2)).length : Int) = 4
    ∧ ((edge_ends (new_insertions sample_world
        (create_complete_graph sample_backend (complete_call "g" 4 "edges" (some "vertices")) sample_world).2)).length : Int) = 4 * (4 - 1) / 2
    ∧ ((4 : Int) ≤ 1 → edge_ends (new_insertions sample_world
        (create_complete_graph sample_backend (complete_call "g" 4 "edges" (some "vertices")) sample_world).2) = []) :=
  ⟨by decide, by decide,
   create_complete_graph_counts sample_backend "g" "edges" 4 (some "vertices") sample_world
     (by decide) (by decide)⟩

/-- Instance of C2: a complete graph on 4 vertices in the empty database. -/
theorem create_complete_graph_complete_witness :
    (0 : Int) ≤ 4
    ∧ (some "vertices" : Option String) ≠ some "edges"
    ∧ (∀ t, t + 1 < (4 : Int).toNat →
        upcoming sample_world (sample_backend.get_graph_oid "g") (effective_vertex_label (some "vertices")) (t + 1)
          = upcoming sample_world (sample_backend.get_graph_oid "g") (effective_vertex_label (some "vertices")) t + 1)
    ∧ (∀ x y,
        sample_backend.make_graphid (sample_backend.get_label_id (effective_vertex_label (some "vertices")) (sample_backend.get_graph_oid "g")) x = sample_backend.make_graphid (sample_backend.get_label_id (effective_vertex_label (some "vertices")) (sample_backend.get_graph_oid "g")) y → x = y)
    ∧ (vertex_ids (new_insertions sample_world
        (create_complete_graph sample_backend (complete_call "g" 4 "edges" (some "vertices")) sample_world).2)).Nodup
    ∧ (∀ u ∈ vertex_ids (new_insertions sample_world
        (create_complete_graph sample_backend (complete_call "g" 4 "edges" (some "vertices")) sample_world).2),
        ∀ v ∈ vertex_ids (new_insertions sample_world
        (create_complete_graph sample_backend (complete_call "g" 4 "edges" (some "vertices")) sample_world).2),
        u ≠ v → edges_between (edge_ends (new_insertions sample_world
        (create_complete_graph sample_backend (complete_call "g" 4 "edges" (some "vertices")) sample_world).2)) u v = 1)
    ∧ (∀ e ∈ edge_ends (new_insertions sample_world
        (create_complete_graph sample_backend (complete_call "g" 4 "edges" (some "vertices")) sample_world).2),
        e.1 ∈ vertex_ids (new_insertions sample_world
        (create_complete_graph sample_backend (complete_call "g" 4 "edges" (some "vertices")) sample_world).2)
        ∧ e.2 ∈ vertex_ids (new_insertions sample_world
        (create_complete_graph sample_backend (complete_call "g" 4 "edges" (some "vertices")) sample_world).2))
    ∧ (∀ e ∈ edge_ends (new_insertions sample_world
        (create_complete_graph sample_backend (complete_call "g" 4 "edges" (some "vertices")) sample_world).2), e.1 ≠ e.2) :=
  ⟨by decide, by decide,
   fun t _ => by rw [sample_world_upcoming, sample_world_upcoming]; push_cast; ring,
   fun x y h => sample_backend_injective _ x y h,
   create_complete_graph_complete sample_backend "g" "edges" 4 (some "vertices") sample_world
     (by decide) (by decide)
     (fun t _ => by rw [sample_world_upcoming, sample_world_upcoming]; push_cast; ring)
     (fun x y h => sample_backend_injective _ x y h)⟩

/-- Instance of C3: a cycle on 4 vertices in the empty database. -/
theorem create_cycle_graph_counts_witness :
    (3 : Int) ≤ 4
    ∧ (4 : Int) ≤ 2147483647
    ∧ effective_vertex_label (some "vertices") ≠ "edges"
    ∧ ∃ first_vertex,
      (create_cycle_graph sample_backend
        (cycle_call "g" 4 "edges" none (some "vertices") none) sample_world).1 = Except.ok first_vertex
      ∧ (create_cycle_graph sample_backend
        (cycle_call "g" 4 "edges" none (some "vertices") none) sample_world).2.log
        = sample_world.log ++ new_insertions sample_world
            (create_cycle_graph sample_backend
        (cycle_call "g" 4 "edges" none (some "vertices") none) sample_world).2
      ∧ ((vertex_ids (new_insertions sample_world
        (create_cycle_graph sample_backend
        (cycle_call "g" 4 "edges" none (some "vertices") none) sample_world).2)).length : Int) = 4
      ∧ ((edge_ends (new_insertions sample_world
        (create_cycle_graph sample_backend
        (cycle_call "g" 4 "edges" none (some "vertices") none) sample_world).2)).length : Int) = 4
      ∧ (vertex_ids (new_insertions sample_world
        (create_cycle_graph sample_backend
        (cycle_call "g" 4 "edges" none (some "vertices") none) sample_world).2)).head? = some first_vertex :=
  ⟨by decide, by decide, by decide,
   create_cycle_graph_counts sample_backend "g" "edges" 4 none none (some "vertices")
     sample_world (by decide) (by decide) (by decide)⟩

/-- Instance of C5: a cycle of size 2 is rejected in the empty database. -/
theorem create_cycle_graph_rejects_witness :
    ((cycle_call "g" 2 "edges" none (some "vertices") none).graph_name = none
      ∨ (cycle_call "g" 2 "edges" none (some "vertices") none).graph_size.isnull = true
      ∨ (-2147483648 ≤ (cycle_call "g" 2 "edges" none (some "vertices") none).graph_size.value
          ∧ (cycle_call "g" 2 "edges" none (some "vertices") none).graph_size.value < 3)
      ∨ (cycle_call "g" 2 "edges" none (some "vertices") none).edge_label = none)
    ∧ ∃ msg, create_cycle_graph sample_backend
        (cycle_call "g" 2 "edges" none (some "vertices") none) sample_world
      = (Except.error (Abort.ereport ErrCode.ERRCODE_INVALID_PARAMETER_VALUE msg),
         sample_world) :=
  ⟨Or.inr (Or.inr (Or.inl ⟨by decide, by decide⟩)),
   create_cycle_graph_rejects sample_backend
     (cycle_call "g" 2 "edges" none (some "vertices") none) sample_world
     (Or.inr (Or.inr (Or.inl ⟨by decide, by decide⟩)))⟩

theorem rows_eq_nil (l : List Insertion) (hv : vertex_ids l = []) (he : edge_ends l = []) :
    l = [] := by
  cases l with
  | nil => rfl
  | cons r rs =>
    cases r with
    | vertex g n i p => simp [vertex_ids] at hv
    | edge g n i a b p => simp [edge_ends] at he

/-! ## The order of the rows of create_cycle_graph -/

/-- C14: for every size `n >= 3` (an `int`), the rows an accepted call of
`create_cycle_graph` adds are exactly, in this order: the vertex `v 1`; then for
`k = 2, ..., n` the vertex `v k` immediately followed by the edge from `v (k - 1)`
to `v k`; and last the edge from `v n` to `v 1`.  The `v k` are the `n` vertices
the call creates, in creation order. -/
theorem create_cycle_graph_rows (B : Backend) (gname ename : String) (n : Int)
    (vprops eprops : Option agtype) (vopt : Option String) (w : World)
    (h3 : 3 ≤ n) (hmax : n ≤ 2147483647) (hne : effective_vertex_label vopt ≠ ename) :
    new_insertions w (create_cycle_graph B (cycle_call gname n ename vprops vopt eprops) w).2
      = [Insertion.vertex (B.get_graph_oid gname) (effective_vertex_label vopt)
          (cycle_vertex_id B (cycle_context B gname n ename vopt) w 0) create_empty_agtype]
        ++ (List.range (n.toNat - 1)).flatMap (fun (t : Nat) =>
          [Insertion.vertex (B.get_graph_oid gname) (effective_vertex_label vopt)
             (cycle_vertex_id B (cycle_context B gname n ename vopt) w (t + 1))
             create_empty_agtype,
           Insertion.edge (B.get_graph_oid gname) ename
             (cycle_edge_id B (cycle_context B gname n ename vopt) w t)
             (cycle_vertex_id B (cycle_context B gname n ename vopt) w t)
             (cycle_vertex_id B (cycle_context B gname n ename vopt) w (t + 1))
             create_empty_agtype])
        ++ [Insertion.edge (B.get_graph_oid gname) ename
             (cycle_edge_id B (cycle_context B gname n ename vopt) w (n.toNat - 1))
             (cycle_vertex_id B (cycle_context B gname n ename vopt) w (n.toNat - 1))
             (cycle_vertex_id B (cycle_context B gname n ename vopt) w 0) create_empty_agtype]
    ∧ vertex_ids (new_insertions w (create_cycle_graph B (cycle_call gname n ename vprops vopt eprops) w).2)
      = (List.range n.toNat).map (fun (t : Nat) =>
          cycle_vertex_id B (cycle_context B gname n ename vopt) w t)
    ∧ (create_cycle_graph B (cycle_call gname n ename vprops vopt eprops) w).2.log = w.log ++ new_insertions w (create_cycle_graph B (cycle_call gname n ename vprops vopt eprops) w).2 := by
  have hsz : int32_of n = n := int32_of_eq_self n (by omega) hmax
  obtain ⟨_, h2⟩ := create_cycle_graph_run B gname ename n vprops eprops vopt w
    (by omega) hne
  have hnew := new_insertions_of_append _ _ _ h2
  have hK : (int32_of n - 1).toNat = n.toNat - 1 := by rw [hsz]; omega
  have hK2 : n.toNat - 1 + 1 = n.toNat := by omega
  rw [hK] at h2 hnew
  refine ⟨?_, ?_, ?_⟩
  · rw [hnew]
    rfl
  · rw [hnew, vertex_ids_cycle_rows, hK2]
  · rw [hnew, h2]

/-! ## Property payloads -/

/-- `create_cycle_graph` never reads the two property payloads: a call with
payloads does what the call without them does. -/
theorem create_cycle_graph_ignores_payloads (B : Backend) (gname ename : String) (n : Int)
    (vprops eprops : Option agtype) (vopt : Option String) (w : World) :
    create_cycle_graph B (cycle_call gname n ename vprops vopt eprops) w
      = create_cycle_graph B (cycle_call gname n ename none vopt none) w := rfl

/-- `age_create_barbell_graph` never reads the two property payloads. -/
theorem age_create_barbell_graph_ignores_payloads (B : Backend) (gname vname ename : String)
    (m b : Int) (vprops eprops : Option agtype) (w : World) :
    age_create_barbell_graph B (barbell_call gname m b vname vprops ename eprops) w
      = age_create_barbell_graph B (barbell_call gname m b vname none ename none) w := rfl

/-- The payloads of `create_cycle_graph` and `age_create_barbell_graph` (C15).
Called with the vertex payload `{k: v}` and the edge payload `{w: 1}`, each
generator returns, and every row it adds, vertex or edge, carries the empty
payload. -/
theorem generators_drop_supplied_payloads :
    (create_cycle_graph sample_backend
        (cycle_call "g" 3 "edges" (some [("k", "v")]) (some "vertices") (some [("w", "1")]))
        sample_world).2.log.length = 6
    ∧ (create_cycle_graph sample_backend
        (cycle_call "g" 3 "edges" (some [("k", "v")]) (some "vertices") (some [("w", "1")]))
        sample_world).2.log.map row_props = List.replicate 6 create_empty_agtype
    ∧ (age_create_barbell_graph sample_backend
        (barbell_call "g" 3 0 "vertices" (some [("k", "v")]) "edges" (some [("w", "1")]))
        sample_world).2.log.length = 13
    ∧ (age_create_barbell_graph sample_backend
        (barbell_call "g" 3 0 "vertices" (some [("k", "v")]) "edges" (some [("w", "1")]))
        sample_world).2.log.map row_props = List.replicate 13 create_empty_agtype := by
  decide

/-! ## The GraphID composer -/

/-- C17: for every label id and local id within the bounds of the encoding,
`make_graphid` succeeds, the identifier fits in 64 bits, its decomposition is
the pair it was built from, and no other pair within the bounds gives the same
identifier. -/
theorem make_graphid_round_trip (entry_bits : Nat) (label_id local_id : Int)
    (hbits : entry_bits ≤ 64) (h : graphid_in_bounds entry_bits label_id local_id) :
    ∃ g, make_graphid entry_bits label_id local_id = Except.ok g
      ∧ 0 ≤ g ∧ g < 2 ^ 64
      ∧ decompose_graphid entry_bits g = (label_id, local_id)
      ∧ ∀ label_id2 local_id2, graphid_in_bounds entry_bits label_id2 local_id2 →
          make_graphid entry_bits label_id2 local_id2 = Except.ok g →
          label_id2 = label_id ∧ local_id2 = local_id := by
  have hP : (0 : Int) < 2 ^ entry_bits := by positivity
  have key : ∀ a b : Int, 0 ≤ b → b < 2 ^ entry_bits →
      (a * 2 ^ entry_bits + b) / 2 ^ entry_bits = a
      ∧ (a * 2 ^ entry_bits + b) % 2 ^ entry_bits = b := by
    intro a b hb0 hb1
    constructor
    · rw [Int.add_comm, Int.add_mul_ediv_right _ _ (ne_of_gt hP),
        Int.ediv_eq_zero_of_lt hb0 hb1, Int.zero_add]
    · rw [Int.add_comm, Int.add_mul_emod_self, Int.emod_eq_of_lt hb0 hb1]
  obtain ⟨h1, h2, h3, h4⟩ := h
  refine ⟨label_id * 2 ^ entry_bits + local_id, ?_, ?_, ?_, ?_, ?_⟩
  · unfold make_graphid
    rw [if_pos ⟨h1, h2, h3, h4⟩]
  · exact add_nonneg (Int.mul_nonneg h1 (le_of_lt hP)) h3
  · have e : (2 : Int) ^ (64 - entry_bits) * 2 ^ entry_bits = 2 ^ 64 := by
      rw [← pow_add]
      congr 1
      omega
    have h5 : label_id + 1 ≤ 2 ^ (64 - entry_bits) := h2
    have h6 : (label_id + 1) * 2 ^ entry_bits ≤ 2 ^ (64 - entry_bits) * 2 ^ entry_bits :=
      Int.mul_le_mul_of_nonneg_right h5 (le_of_lt hP)
    rw [Int.add_mul, Int.one_mul] at h6
    calc label_id * 2 ^ entry_bits + local_id
        < label_id * 2 ^ entry_bits + 2 ^ entry_bits := add_lt_add_left h4 _
      _ ≤ 2 ^ (64 - entry_bits) * 2 ^ entry_bits := h6
      _ = 2 ^ 64 := e
  · unfold decompose_graphid
    rw [(key label_id local_id h3 h4).1, (key label_id local_id h3 h4).2]
  · intro l2 e2 hb2 hg
    unfold make_graphid at hg
    rw [if_pos hb2] at hg
    have hg2 : l2 * 2 ^ entry_bits + e2 = label_id * 2 ^ entry_bits + local_id :=
      Except.ok.inj hg
    have k1 := key l2 e2 hb2.2.2.1 hb2.2.2.2
    have k2 := key label_id local_id h3 h4
    rw [hg2] at k1
    exact ⟨k1.1.symm.trans k2.1, k1.2.symm.trans k2.2⟩

/-- Instance of C17: label id 3 and local id 7 with 48 bits of local id. -/
theorem make_graphid_round_trip_witness :
    48 ≤ 64
    ∧ graphid_in_bounds 48 3 7
    ∧ ∃ g, make_graphid 48 3 7 = Except.ok g
      ∧ 0 ≤ g ∧ g < 2 ^ 64
      ∧ decompose_graphid 48 g = (3, 7)
      ∧ ∀ label_id2 local_id2, graphid_in_bounds 48 label_id2 local_id2 →
          make_graphid 48 label_id2 local_id2 = Except.ok g →
          label_id2 = 3 ∧ local_id2 = 7 :=
  ⟨by decide, by decide, make_graphid_round_trip 48 3 7 (by decide) (by decide)⟩

/-! ## Edge endpoints with gaps in the vertex sequence -/

/-- The edge endpoints of `create_complete_graph` when the vertex sequence hands
out 1, 3, 5 (C18).  The three vertices get the local ids 1, 3 and 5; the edge
for the pair (1, 2) goes from local id 3 to local id 4: its start is not the
first vertex created, and its end is no vertex created by the call. -/
theorem create_complete_graph_interleaved_endpoints :
    vertex_ids (new_insertions sample_world_interleaved
        (create_complete_graph sample_backend
          (complete_call "g" 3 "edges" (some "vertices")) sample_world_interleaved).2)
      = [sample_backend.make_graphid 3 1, sample_backend.make_graphid 3 3,
         sample_backend.make_graphid 3 5]
    ∧ edge_ends (new_insertions sample_world_interleaved
        (create_complete_graph sample_backend
          (complete_call "g" 3 "edges" (some "vertices")) sample_world_interleaved).2)
      = [(sample_backend.make_graphid 3 3, sample_backend.make_graphid 3 4),
         (sample_backend.make_graphid 3 3, sample_backend.make_graphid 3 5),
         (sample_backend.make_graphid 3 4, sample_backend.make_graphid 3 5)]
    ∧ sample_backend.make_graphid 3 3 ≠ sample_backend.make_graphid 3 1
    ∧ sample_backend.make_graphid 3 4 ∉ vertex_ids (new_insertions sample_world_interleaved
        (create_complete_graph sample_backend
          (complete_call "g" 3 "edges" (some "vertices")) sample_world_interleaved).2) := by
  decide

/-! ## The size argument of create_cycle_graph -/

/-- C20 (as amended): for every value `n` of the size argument, the value
`assert_cycle_graph_args` tests and the value `graph_size` holds are both `n`
converted to a 32-bit `int`.  A call with valid names is rejected exactly when
that `int` is smaller than 3, with the world untouched, and otherwise it creates
exactly that many vertices; within the range of `int`, the `int` is `n` itself. -/
theorem create_cycle_graph_size_read (B : Backend) (gname ename : String) (n : Int)
    (vprops eprops : Option agtype) (vopt : Option String) (w : World)
    (hne : effective_vertex_label vopt ≠ ename) :
    PG_GETARG_INT32 (cycle_call gname n ename vprops vopt eprops).graph_size = int32_of n
    ∧ (cycle_context B gname n ename vopt).graph_size = int32_of n
    ∧ ((∃ e, (create_cycle_graph B (cycle_call gname n ename vprops vopt eprops) w).1 = Except.error e) ↔ int32_of n < 3)
    ∧ (int32_of n < 3 →
        create_cycle_graph B (cycle_call gname n ename vprops vopt eprops) w = (Except.error (Abort.ereport ErrCode.ERRCODE_INVALID_PARAMETER_VALUE
          "cycle graph size cannot be NULL or lower than 3"), w))
    ∧ (3 ≤ int32_of n →
        ((vertex_ids (new_insertions w (create_cycle_graph B (cycle_call gname n ename vprops vopt eprops) w).2)).length : Int) = int32_of n)
    ∧ (-2147483648 ≤ n → n ≤ 2147483647 → int32_of n = n) := by
  have hrej : int32_of n < 3 →
      create_cycle_graph B (cycle_call gname n ename vprops vopt eprops) w = (Except.error (Abort.ereport ErrCode.ERRCODE_INVALID_PARAMETER_VALUE
          "cycle graph size cannot be NULL or lower than 3"), w) := by
    intro h
    simp [create_cycle_graph, assert_cycle_graph_args, cycle_call, PG_GETARG_INT32, h]
  refine ⟨rfl, rfl, ?_, hrej, ?_, fun h1 h2 => int32_of_eq_self n h1 h2⟩
  · constructor
    · rintro ⟨e, he⟩
      by_contra hge
      have h3 : 3 ≤ int32_of n := by omega
      have := (create_cycle_graph_run B gname ename n vprops eprops vopt w h3 hne).1
      rw [this] at he
      cases he
    · intro h
      exact ⟨_, by rw [hrej h]⟩
  · intro h3
    obtain ⟨_, h2⟩ := create_cycle_graph_run B gname ename n vprops eprops vopt w h3 hne
    rw [new_insertions_of_append _ _ _ h2, vertex_ids_cycle_rows, List.length_map,
      List.length_range]
    omega

/-- C20, the claim as stated fails: the size 4294967296 is not smaller than 3,
yet the call is rejected; the size 4294967299 is accepted, and the call creates 3
vertices. -/
theorem create_cycle_graph_size_beyond_int :
    ¬ ((4294967296 : Int) < 3)
    ∧ (create_cycle_graph sample_backend
        (cycle_call "g" 4294967296 "edges" none (some "vertices") none) sample_world).1
      = Except.error (Abort.ereport ErrCode.ERRCODE_INVALID_PARAMETER_VALUE
          "cycle graph size cannot be NULL or lower than 3")
    ∧ (vertex_ids (create_cycle_graph sample_backend
        (cycle_call "g" 4294967299 "edges" none (some "vertices") none)
        sample_world).2.log).length = 3 :=
  ⟨by decide, rfl, by decide⟩

/-- Instance of C20 (as amended): the size 4294967299 in the empty database. -/
theorem create_cycle_graph_size_read_witness :
    effective_vertex_label (some "vertices") ≠ "edges"
    ∧ PG_GETARG_INT32 (cycle_call "g" 4294967299 "edges" none (some "vertices") none).graph_size
        = int32_of 4294967299
    ∧ (cycle_context sample_backend "g" 4294967299 "edges" (some "vertices")).graph_size
        = int32_of 4294967299
    ∧ ((∃ e, (create_cycle_graph sample_backend
          (cycle_call "g" 4294967299 "edges" none (some "vertices") none) sample_world).1
          = Except.error e) ↔ int32_of 4294967299 < 3)
    ∧ (int32_of 4294967299 < 3 →
        create_cycle_graph sample_backend
          (cycle_call "g" 4294967299 "edges" none (some "vertices") none) sample_world
        = (Except.error (Abort.ereport ErrCode.ERRCODE_INVALID_PARAMETER_VALUE
          "cycle graph size cannot be NULL or lower than 3"), sample_world))
    ∧ (3 ≤ int32_of 4294967299 →
        ((vertex_ids (new_insertions sample_world (create_cycle_graph sample_backend
          (cycle_call "g" 4294967299 "edges" none (some "vertices") none)
          sample_world).2)).length : Int) = int32_of 4294967299)
    ∧ (-2147483648 ≤ (4294967299 : Int) → (4294967299 : Int) ≤ 2147483647 →
        int32_of 4294967299 = 4294967299) :=
  ⟨by decide,
   create_cycle_graph_size_read sample_backend "g" "edges" 4294967299 none none
     (some "vertices") sample_world (by decide)⟩

/-- Instance of C14: a cycle on 4 vertices in the empty database. -/
theorem create_cycle_graph_rows_witness :
    (3 : Int) ≤ 4
    ∧ (4 : Int) ≤ 2147483647
    ∧ effective_vertex_label (some "vertices") ≠ "edges"
    ∧ new_insertions sample_world (create_cycle_graph sample_backend
        (cycle_call "g" 4 "edges" none (some "vertices") none) sample_world).2
      = [Insertion.vertex (sample_backend.get_graph_oid "g")
          (effective_vertex_label (some "vertices"))
          (cycle_vertex_id sample_backend
            (cycle_context sample_backend "g" 4 "edges" (some "vertices")) sample_world 0)
          create_empty_agtype]
        ++ (List.range ((4 : Int).toNat - 1)).flatMap (fun (t : Nat) =>
          [Insertion.vertex (sample_backend.get_graph_oid "g")
             (effective_vertex_label (some "vertices"))
             (cycle_vertex_id sample_backend
               (cycle_context sample_backend "g" 4 "edges" (some "vertices")) sample_world
               (t + 1))
             create_empty_agtype,
           Insertion.edge (sample_backend.get_graph_oid "g") "edges"
             (cycle_edge_id sample_backend
               (cycle_context sample_backend "g" 4 "edges" (some "vertices")) sample_world t)
             (cycle_vertex_id sample_backend
               (cycle_context sample_backend "g" 4 "edges" (some "vertices")) sample_world t)
             (cycle_vertex_id sample_backend
               (cycle_context sample_backend "g" 4 "edges" (some "vertices")) sample_world
               (t + 1))
             create_empty_agtype])
        ++ [Insertion.edge (sample_backend.get_graph_oid "g") "edges"
             (cycle_edge_id sample_backend
               (cycle_context sample_backend "g" 4 "edges" (some "vertices")) sample_world
               ((4 : Int).toNat - 1))
             (cycle_vertex_id sample_backend
               (cycle_context sample_backend "g" 4 "edges" (some "vertices")) sample_world
               ((4 : Int).toNat - 1))
             (cycle_vertex_id sample_backend
               (cycle_context sample_backend "g" 4 "edges" (some "vertices")) sample_world 0)
             create_empty_agtype]
    ∧ vertex_ids (new_insertions sample_world (create_cycle_graph sample_backend
        (cycle_call "g" 4 "edges" none (some "vertices") none) sample_world).2)
      = (List.range (4 : Int).toNat).map (fun (t : Nat) =>
          cycle_vertex_id sample_backend
            (cycle_context sample_backend "g" 4 "edges" (some "vertices")) sample_world t)
    ∧ (create_cycle_graph sample_backend
        (cycle_call "g" 4 "edges" none (some "vertices") none) sample_world).2.log
      = sample_world.log ++ new_insertions sample_world (create_cycle_graph sample_backend
        (cycle_call "g" 4 "edges" none (some "vertices") none) sample_world).2 :=
  ⟨by decide, by decide, by decide,
   create_cycle_graph_rows sample_backend "g" "edges" 4 none none (some "vertices")
     sample_world (by decide) (by decide) (by decide)⟩

/-! ## Create-if-absent on the catalog -/

theorem label_exists_append (w : World) (extra : List (Oid × String × LabelKind)) (l : String)
    (o : Oid) (h : label_exists w l o = true) :
    label_exists { w with labels := w.labels ++ extra } l o = true := by
  unfold label_exists at h ⊢
  rw [List.any_append, h]
  rfl

@[simp] theorem edge_ids_append (l1 l2 : List Insertion) :
    edge_ids (l1 ++ l2) = edge_ids l1 ++ edge_ids l2 := by
  simp [edge_ids, List.filterMap_append]

theorem edge_ids_map_vertex (g : Oid) (l : String) (p : agtype) (f : Nat → graphid)
    (xs : List Nat) :
    edge_ids (xs.map (fun t => Insertion.vertex g l (f t) p)) = [] := by
  induction xs with
  | nil => rfl
  | cons x xs ih => simp [edge_ids] at ih ⊢

theorem edge_rows_of_vertex_ids_nil (l : List Insertion) (h : vertex_ids l = []) :
    ∀ r ∈ l, is_edge_row r = true ∧ is_vertex_row r = false := by
  intro r hr
  unfold vertex_ids at h
  rw [List.filterMap_eq_nil_iff] at h
  have := h r hr
  cases r with
  | vertex g n i p => simp at this
  | edge g n i a b p => exact ⟨rfl, rfl⟩

/-- The generation part of `create_complete_graph` first adds the vertex rows,
then rows none of which is a vertex row. -/
theorem create_complete_graph_topology_rows (B : Backend) (gname vname ename : String)
    (n : Int) (w : World) :
    ∃ es, (create_complete_graph_topology B gname vname ename n w).log
        = w.log ++ (List.range n.toNat).map (fun t =>
            Insertion.vertex (B.get_graph_oid gname) vname
              (B.make_graphid (B.get_label_id vname (B.get_graph_oid gname))
                (upcoming w (B.get_graph_oid gname) vname t)) create_empty_agtype) ++ es
      ∧ vertex_ids es = [] := by
  obtain ⟨h1, _, _, _⟩ := create_complete_vertices_iterate B (B.get_graph_oid gname) vname
    (B.get_label_id vname (B.get_graph_oid gname)) create_empty_agtype (n + 1 - 1).toNat 1 1 w
  have hN : (n + 1 - 1).toNat = n.toNat := by omega
  rw [hN] at h1
  have hr := create_complete_edges_reaches B (B.get_graph_oid gname) ename
    (B.get_label_id vname (B.get_graph_oid gname)) (B.get_label_id ename (B.get_graph_oid gname))
    create_empty_agtype n
  have hv := create_complete_edges_vertex_ids B (B.get_graph_oid gname) ename
    (B.get_label_id vname (B.get_graph_oid gname)) (B.get_label_id ename (B.get_graph_oid gname))
    create_empty_agtype n
  have key : ∀ (lid : Int) (w4 : World), ∃ es,
      (create_complete_edges B (B.get_graph_oid gname) ename
        (B.get_label_id vname (B.get_graph_oid gname))
        (B.get_label_id ename (B.get_graph_oid gname)) create_empty_agtype n lid w4).log
        = w4.log ++ es ∧ vertex_ids es = [] :=
    fun lid w4 => ⟨new_insertions w4 _, new_insertions_spec _ _ (hr lid w4).log_extends,
      vertex_ids_new_insertions _ _ [] (hr lid w4).log_extends
        (by rw [hv, List.append_nil])⟩
  unfold create_complete_graph_topology create_complete_vertices for_le
  simp only [hN]
  obtain ⟨es, he1, he2⟩ := key
    (iterate_body (fun _ s => create_complete_vertex_step B (B.get_graph_oid gname) vname
      (B.get_label_id vname (B.get_graph_oid gname)) create_empty_agtype s)
      n.toNat 1 (1, w)).1
    (iterate_body (fun _ s => create_complete_vertex_step B (B.get_graph_oid gname) vname
      (B.get_label_id vname (B.get_graph_oid gname)) create_empty_agtype s)
      n.toNat 1 (1, w)).2
  exact ⟨es, by rw [he1, h1], he2⟩

/-- C13: for every vertex count `n` (in particular every `n >= 0`), in the rows
an accepted call of `create_complete_graph` adds, every vertex row precedes every
edge row: no edge row comes before a vertex row, the first `n` added rows are the
vertex rows and all rows after them are edge rows. -/
theorem create_complete_graph_vertices_first (B : Backend) (gname ename : String) (n : Int)
    (vopt : Option String) (w : World) (h3 : vopt ≠ some ename) :
    List.Pairwise (fun a b => ¬ (is_edge_row a = true ∧ is_vertex_row b = true))
        (new_insertions w (create_complete_graph B (complete_call gname n ename vopt) w).2)
    ∧ ((new_insertions w (create_complete_graph B (complete_call gname n ename vopt) w).2).take n.toNat).all is_vertex_row = true
    ∧ ((new_insertions w (create_complete_graph B (complete_call gname n ename vopt) w).2).take n.toNat).length = n.toNat
    ∧ ((new_insertions w (create_complete_graph B (complete_call gname n ename vopt) w).2).drop n.toNat).all is_edge_row = true := by
  unfold complete_call
  rw [create_complete_graph_accepted B gname ename n vopt w h3]
  obtain ⟨es, hlog, hes⟩ := create_complete_graph_topology_rows B gname
    (effective_vertex_label vopt) ename n
    (create_complete_graph_catalog B gname (effective_vertex_label vopt) ename vopt.isSome w)
  simp only [create_complete_graph_catalog_log, create_complete_graph_catalog_upcoming] at hlog
  rw [List.append_assoc] at hlog
  simp only []
  rw [new_insertions_of_append _ _ _ hlog]
  have hedge := edge_rows_of_vertex_ids_nil es hes
  have hvert : ∀ r ∈ (List.range n.toNat).map (fun t =>
      Insertion.vertex (B.get_graph_oid gname) (effective_vertex_label vopt)
        (B.make_graphid (B.get_label_id (effective_vertex_label vopt) (B.get_graph_oid gname))
          (upcoming w (B.get_graph_oid gname) (effective_vertex_label vopt) t))
        create_empty_agtype),
      is_vertex_row r = true ∧ is_edge_row r = false := by
    intro r hr
    rw [List.mem_map] at hr
    obtain ⟨t, _, rfl⟩ := hr
    exact ⟨rfl, rfl⟩
  have hlen : ((List.range n.toNat).map (fun t =>
      Insertion.vertex (B.get_graph_oid gname) (effective_vertex_label vopt)
        (B.make_graphid (B.get_label_id (effective_vertex_label vopt) (B.get_graph_oid gname))
          (upcoming w (B.get_graph_oid gname) (effective_vertex_label vopt) t))
        create_empty_agtype)).length = n.toNat := by
    rw [List.length_map, List.length_range]
  refine ⟨?_, ?_, ?_, ?_⟩
  · rw [List.pairwise_append]
    refine ⟨List.pairwise_of_forall_mem_list ?_, List.pairwise_of_forall_mem_list ?_, ?_⟩
    · intro a ha b _ h
      rw [(hvert a ha).2] at h
      exact absurd h.1 (by decide)
    · intro a _ b hb h
      rw [(hedge b hb).2] at h
      exact absurd h.2 (by decide)
    · intro a ha b _ h
      rw [(hvert a ha).2] at h
      exact absurd h.1 (by decide)
  · rw [List.take_left' hlen, List.all_eq_true]
    exact fun r hr => (hvert r hr).1
  · rw [List.take_left' hlen, hlen]
  · rw [List.drop_left' hlen, List.all_eq_true]
    exact fun r hr => (hedge r hr).1

/-- Instance of C13: a complete graph on 4 vertices in the empty database. -/
theorem create_complete_graph_vertices_first_witness :
    (some "vertices" : Option String) ≠ some "edges"
    ∧ List.Pairwise (fun a b => ¬ (is_edge_row a = true ∧ is_vertex_row b = true))
        (new_insertions sample_world (create_complete_graph sample_backend
          (complete_call "g" 4 "edges" (some "vertices")) sample_world).2)
    ∧ ((new_insertions sample_world (create_complete_graph sample_backend
          (complete_call "g" 4 "edges" (some "vertices")) sample_world).2).take
          (4 : Int).toNat).all is_vertex_row = true
    ∧ ((new_insertions sample_world (create_complete_graph sample_backend
          (complete_call "g" 4 "edges" (some "vertices")) sample_world).2).take
          (4 : Int).toNat).length = (4 : Int).toNat
    ∧ ((new_insertions sample_world (create_complete_graph sample_backend
          (complete_call "g" 4 "edges" (some "vertices")) sample_world).2).drop
          (4 : Int).toNat).all is_edge_row = true :=
  ⟨by decide,
   create_complete_graph_vertices_first sample_backend "g" "edges" 4 (some "vertices")
     sample_world (by decide)⟩

/-! ## The edge sequence -/

theorem DrawsEdges.none_drawn (B : Backend) (g : Oid) (e : String) (el : Int) (w : World) :
    DrawsEdges B g e el w w 0 :=
  ⟨by simp, fun _ => rfl⟩

theorem DrawsEdges.then_draws {B : Backend} {g : Oid} {e : String} {el : Int} {w w1 w2 : World}
    {c1 c2 : Nat} (h1 : DrawsEdges B g e el w w1 c1) (h2 : DrawsEdges B g e el w1 w2 c2) :
    DrawsEdges B g e el w w2 (c1 + c2) := by
  refine ⟨?_, fun t => ?_⟩
  · rw [h2.1, h1.1, List.range_add, List.map_append, List.map_map, List.append_assoc]
    congr 2
    refine List.map_congr_left (fun t _ => ?_)
    simp only [Function.comp_apply]
    rw [h1.2, Nat.add_comm]
  · rw [h2.2, h1.2, Nat.add_assoc, Nat.add_comm c2 c1]

theorem create_complete_edge_step_draws (B : Backend) (g : Oid) (ename : String)
    (vl el : Int) (props : agtype) (n lid start_vid j : Int) (w : World) :
    DrawsEdges B g ename el w
      (create_complete_edge_step B g ename vl el props n lid start_vid j w) 1 := by
  refine ⟨?_, fun t => ?_⟩
  · rw [create_complete_edge_step_log, edge_ids_append]
    rfl
  · simp only [create_complete_edge_step, upcoming_insert_edge]
    exact upcoming_nextval_same g ename w t

/-- The edge loops draw their edge ids from the edge sequence, one after the
other. -/
theorem create_complete_edges_draws (B : Backend) (g : Oid) (ename : String)
    (vl el : Int) (props : agtype) (n lid : Int) (w : World) :
    ∃ c, DrawsEdges B g ename el w (create_complete_edges B g ename vl el props n lid w) c := by
  have inner : ∀ (i : Int) (s : World),
      ∃ c, DrawsEdges B g ename el s
        (create_complete_edges_from B g ename vl el props n lid i s) c := by
    intro i s
    unfold create_complete_edges_from for_le
    exact iterate_body_invariant (fun t => ∃ c, DrawsEdges B g ename el s t c) _
      (fun j t ⟨c, hc⟩ =>
        ⟨c + 1, hc.then_draws (create_complete_edge_step_draws B g ename vl el props n lid _ j t)⟩)
      _ _ s ⟨0, DrawsEdges.none_drawn B g ename el s⟩
  unfold create_complete_edges for_le
  exact iterate_body_invariant (fun t => ∃ c, DrawsEdges B g ename el w t c) _
    (fun i t ⟨c, hc⟩ => by
      obtain ⟨c2, hc2⟩ := inner i t
      exact ⟨c + c2, hc.then_draws hc2⟩)
    _ _ w ⟨0, DrawsEdges.none_drawn B g ename el w⟩

/-- After the generation part of `create_complete_graph`, the vertex sequence has
moved forward by at least `no_vertices` values. -/
theorem create_complete_graph_topology_shift (B : Backend) (gname vname ename : String)
    (n : Int) (w : World) :
    ∃ shift, n.toNat ≤ shift ∧ ∀ t,
      upcoming (create_complete_graph_topology B gname vname ename n w)
          (B.get_graph_oid gname) vname t
        = upcoming w (B.get_graph_oid gname) vname (t + shift) := by
  obtain ⟨_, _, h3, _⟩ := create_complete_vertices_iterate B (B.get_graph_oid gname) vname
    (B.get_label_id vname (B.get_graph_oid gname)) create_empty_agtype (n + 1 - 1).toNat 1 1 w
  have hN : (n + 1 - 1).toNat = n.toNat := by omega
  rw [hN] at h3
  have hr := create_complete_edges_reaches B (B.get_graph_oid gname) ename
    (B.get_label_id vname (B.get_graph_oid gname)) (B.get_label_id ename (B.get_graph_oid gname))
    create_empty_agtype n
  have hd := create_complete_edges_draws B (B.get_graph_oid gname) ename
    (B.get_label_id vname (B.get_graph_oid gname)) (B.get_label_id ename (B.get_graph_oid gname))
    create_empty_agtype n
  unfold create_complete_graph_topology create_complete_vertices for_le
  simp only [hN]
  by_cases hsame : vname = ename
  · subst hsame
    obtain ⟨c, hc⟩ := hd
      (iterate_body (fun _ s => create_complete_vertex_step B (B.get_graph_oid gname) vname
        (B.get_label_id vname (B.get_graph_oid gname)) create_empty_agtype s)
        n.toNat 1 (1, w)).1
      (iterate_body (fun _ s => create_complete_vertex_step B (B.get_graph_oid gname) vname
        (B.get_label_id vname (B.get_graph_oid gname)) create_empty_agtype s)
        n.toNat 1 (1, w)).2
    refine ⟨c + n.toNat, by omega, fun t => ?_⟩
    rw [hc.2 t, h3, Nat.add_assoc]
  · refine ⟨n.toNat, le_refl _, fun t => ?_⟩
    rw [(hr _ _).others _ _ (by simp [hsame]) t, h3]

/-- After an accepted call of `create_complete_graph`, the vertex sequence has
moved forward by at least `no_vertices` values. -/
theorem create_complete_graph_shift (B : Backend) (gname ename : String) (n : Int)
    (vopt : Option String) (w : World) (h3 : vopt ≠ some ename) :
    ∃ shift, n.toNat ≤ shift ∧ ∀ t,
      upcoming (create_complete_graph B (complete_call gname n ename vopt) w).2
          (B.get_graph_oid gname) (effective_vertex_label vopt) t
        = upcoming w (B.get_graph_oid gname) (effective_vertex_label vopt) (t + shift) := by
  unfold complete_call
  rw [create_complete_graph_accepted B gname ename n vopt w h3]
  obtain ⟨shift, h1, h2⟩ := create_complete_graph_topology_shift B gname
    (effective_vertex_label vopt) ename n
    (create_complete_graph_catalog B gname (effective_vertex_label vopt) ename vopt.isSome w)
  simp only [create_complete_graph_catalog_upcoming] at h2
  exact ⟨shift, h1, h2⟩

/-! ## Calling create_complete_graph twice -/

/-- C11: with a consecutive allocator and a composer that gives different local
ids of the vertex label different GraphIDs, two accepted calls of
`create_complete_graph` in succession with the same arguments both return, and
the second is not a no-op: together they add `2 * n` vertex rows and
`n * (n - 1)` edge rows, no vertex of the second call is a vertex of the first,
every edge of the second call has both endpoints among the vertices of the second
call, and every edge of the first call has both endpoints among the vertices of
the first call. -/
theorem create_complete_graph_twice (B : Backend) (gname ename : String) (n : Int)
    (vopt : Option String) (w : World) (hn : 0 ≤ n) (h3 : vopt ≠ some ename)
    (hcons : ∀ t,
      upcoming w (B.get_graph_oid gname) (effective_vertex_label vopt) (t + 1)
        = upcoming w (B.get_graph_oid gname) (effective_vertex_label vopt) t + 1)
    (hinj : ∀ x y,
      B.make_graphid (B.get_label_id (effective_vertex_label vopt) (B.get_graph_oid gname)) x
        = B.make_graphid (B.get_label_id (effective_vertex_label vopt) (B.get_graph_oid gname)) y →
      x = y) :
    (create_complete_graph B (complete_call gname n ename vopt) w).1 = Except.ok ()
    ∧ (create_complete_graph B (complete_call gname n ename vopt)
          (create_complete_graph B (complete_call gname n ename vopt) w).2).1 = Except.ok ()
    ∧ (create_complete_graph B (complete_call gname n ename vopt)
          (create_complete_graph B (complete_call gname n ename vopt) w).2).2.log = w.log ++ (new_insertions w (create_complete_graph B (complete_call gname n ename vopt) w).2) ++ (new_insertions (create_complete_graph B (complete_call gname n ename vopt) w).2
          (create_complete_graph B (complete_call gname n ename vopt)
          (create_complete_graph B (complete_call gname n ename vopt) w).2).2)
    ∧ (((vertex_ids (new_insertions w (create_complete_graph B (complete_call gname n ename vopt) w).2)).length : Int) + ((vertex_ids (new_insertions (create_complete_graph B (complete_call gname n ename vopt) w).2
          (create_complete_graph B (complete_call gname n ename vopt)
          (create_complete_graph B (complete_call gname n ename vopt) w).2).2)).length : Int) = 2 * n)
    ∧ (((edge_ends (new_insertions w (create_complete_graph B (complete_call gname n ename vopt) w).2)).length : Int) + ((edge_ends (new_insertions (create_complete_graph B (complete_call gname n ename vopt) w).2
          (create_complete_graph B (complete_call gname n ename vopt)
          (create_complete_graph B (complete_call gname n ename vopt) w).2).2)).length : Int) = n * (n - 1))
    ∧ List.Disjoint (vertex_ids (new_insertions w (create_complete_graph B (complete_call gname n ename vopt) w).2)) (vertex_ids (new_insertions (create_complete_graph B (complete_call gname n ename vopt) w).2
          (create_complete_graph B (complete_call gname n ename vopt)
          (create_complete_graph B (complete_call gname n ename vopt) w).2).2))
    ∧ (∀ e ∈ edge_ends (new_insertions (create_complete_graph B (complete_call gname n ename vopt) w).2
          (create_complete_graph B (complete_call gname n ename vopt)
          (create_complete_graph B (complete_call gname n ename vopt) w).2).2), e.1 ∈ vertex_ids (new_insertions (create_complete_graph B (complete_call gname n ename vopt) w).2
          (create_complete_graph B (complete_call gname n ename vopt)
          (create_complete_graph B (complete_call gname n ename vopt) w).2).2) ∧ e.2 ∈ vertex_ids (new_insertions (create_complete_graph B (complete_call gname n ename vopt) w).2
          (create_complete_graph B (complete_call gname n ename vopt)
          (create_complete_graph B (complete_call gname n ename vopt) w).2).2))
    ∧ (∀ e ∈ edge_ends (new_insertions w (create_complete_graph B (complete_call gname n ename vopt) w).2), e.1 ∈ vertex_ids (new_insertions w (create_complete_graph B (complete_call gname n ename vopt) w).2) ∧ e.2 ∈ vertex_ids (new_insertions w (create_complete_graph B (complete_call gname n ename vopt) w).2)) := by
  obtain ⟨w1, hw1, hp1, hv1, he1, _⟩ := create_complete_graph_run B gname ename n vopt w h3
  obtain ⟨shift, hs1, hs2⟩ := create_complete_graph_shift B gname ename n vopt w h3
  unfold complete_call at hs2 ⊢
  rw [hw1] at hs2 ⊢
  simp only [] at hs2 ⊢
  obtain ⟨w2, hw2, hp2, hv2, he2, _⟩ := create_complete_graph_run B gname ename n vopt w1 h3
  rw [hw2]
  simp only []
  have hup : ∀ t, upcoming w (B.get_graph_oid gname) (effective_vertex_label vopt) t
      = upcoming w (B.get_graph_oid gname) (effective_vertex_label vopt) 0 + (t : Int) :=
    fun t => upcoming_of_consecutive w _ _ (t + 1) (fun u _ => hcons u) t (by omega)
  have hcons1 : ∀ t, t + 1 < n.toNat →
      upcoming w (B.get_graph_oid gname) (effective_vertex_label vopt) (t + 1)
        = upcoming w (B.get_graph_oid gname) (effective_vertex_label vopt) t + 1 :=
    fun t _ => hcons t
  have hcons2 : ∀ t, t + 1 < n.toNat →
      upcoming w1 (B.get_graph_oid gname) (effective_vertex_label vopt) (t + 1)
        = upcoming w1 (B.get_graph_oid gname) (effective_vertex_label vopt) t + 1 := by
    intro t _
    rw [hs2, hs2, Nat.add_right_comm, hcons]
  have hf1 := ordered_pairs_congr _ _ n.toNat
    (fun t ht => congrArg
      (B.make_graphid (B.get_label_id (effective_vertex_label vopt) (B.get_graph_oid gname)))
      (complete_lid_consecutive w (B.get_graph_oid gname) (effective_vertex_label vopt) n hn
        hcons1 t ht))
  have hf2 := ordered_pairs_congr _ _ n.toNat
    (fun t ht => congrArg
      (B.make_graphid (B.get_label_id (effective_vertex_label vopt) (B.get_graph_oid gname)))
      (complete_lid_consecutive w1 (B.get_graph_oid gname) (effective_vertex_label vopt) n hn
        hcons2 t ht))
  rw [hf1] at he1
  rw [hf2] at he2
  have hmem : ∀ (f : Nat → graphid) (e : graphid × graphid), e ∈ ordered_pairs f n.toNat →
      e.1 ∈ (List.range n.toNat).map f ∧ e.2 ∈ (List.range n.toNat).map f := by
    intro f e he
    rw [mem_ordered_pairs] at he
    obtain ⟨a, b, hab, hb, rfl⟩ := he
    exact ⟨List.mem_map.2 ⟨a, List.mem_range.2 (by omega), rfl⟩,
           List.mem_map.2 ⟨b, List.mem_range.2 hb, rfl⟩⟩
  have hlen1 := length_ordered_pairs (fun t =>
    B.make_graphid (B.get_label_id (effective_vertex_label vopt) (B.get_graph_oid gname))
      (upcoming w (B.get_graph_oid gname) (effective_vertex_label vopt) t)) n.toNat
  have hlen2 := length_ordered_pairs (fun t =>
    B.make_graphid (B.get_label_id (effective_vertex_label vopt) (B.get_graph_oid gname))
      (upcoming w1 (B.get_graph_oid gname) (effective_vertex_label vopt) t)) n.toNat
  refine ⟨trivial, trivial, ?_, ?_, ?_, ?_, ?_, ?_⟩
  · rw [new_insertions_spec w1 w2 hp2, new_insertions_spec w w1 hp1]
  · rw [hv1, hv2]
    simp only [List.length_map, List.length_range]
    omega
  · rw [he1, he2]
    have e1 : ((n.toNat : Nat) : Int) = n := Int.toNat_of_nonneg hn
    rcases Nat.eq_zero_or_pos n.toNat with h0 | h0
    · have hn0 : n = 0 := by omega
      rw [h0] at hlen1 hlen2
      subst hn0
      simp only [Int.toNat_zero]
      omega
    · have e2 : ((n.toNat - 1 : Nat) : Int) = n - 1 := by omega
      have h5 : ((((ordered_pairs (fun t =>
          B.make_graphid (B.get_label_id (effective_vertex_label vopt) (B.get_graph_oid gname))
            (upcoming w (B.get_graph_oid gname) (effective_vertex_label vopt) t))
          n.toNat).length * 2 : Nat)) : Int) = ((n.toNat * (n.toNat - 1) : Nat) : Int) := by
        rw [hlen1]
      have h6 : (ordered_pairs (fun t =>
          B.make_graphid (B.get_label_id (effective_vertex_label vopt) (B.get_graph_oid gname))
            (upcoming w1 (B.get_graph_oid gname) (effective_vertex_label vopt) t))
          n.toNat).length * 2
          = (ordered_pairs (fun t =>
          B.make_graphid (B.get_label_id (effective_vertex_label vopt) (B.get_graph_oid gname))
            (upcoming w (B.get_graph_oid gname) (effective_vertex_label vopt) t))
          n.toNat).length * 2 := by rw [hlen1, hlen2]
      rw [Nat.cast_mul, Nat.cast_mul, e1, e2] at h5
      rw [← h5]
      push_cast
      omega
  · rw [hv1, hv2]
    intro x hx1 hx2
    rw [List.mem_map] at hx1 hx2
    obtain ⟨a, ha, rfl⟩ := hx1
    obtain ⟨b, hb, hb2⟩ := hx2
    rw [List.mem_range] at ha hb
    have := hinj _ _ hb2
    rw [hs2, hup, hup a] at this
    omega
  · rw [he2, hv2]
    exact hmem _
  · rw [he1, hv1]
    exact hmem _

/-- Instance of C11: two complete graphs on 4 vertices in the empty database. -/
theorem create_complete_graph_twice_witness :
    (0 : Int) ≤ 4
    ∧ (some "vertices" : Option String) ≠ some "edges"
    ∧ (∀ t,
        upcoming sample_world (sample_backend.get_graph_oid "g")
            (effective_vertex_label (some "vertices")) (t + 1)
          = upcoming sample_world (sample_backend.get_graph_oid "g")
            (effective_vertex_label (some "vertices")) t + 1)
    ∧ (∀ x y,
        sample_backend.make_graphid (sample_backend.get_label_id
            (effective_vertex_label (some "vertices")) (sample_backend.get_graph_oid "g")) x
          = sample_backend.make_graphid (sample_backend.get_label_id
            (effective_vertex_label (some "vertices")) (sample_backend.get_graph_oid "g")) y →
        x = y)
    ∧ (create_complete_graph sample_backend (complete_call "g" 4 "edges" (some "vertices")) sample_world).1 = Except.ok ()
    ∧ (create_complete_graph sample_backend (complete_call "g" 4 "edges" (some "vertices"))
          (create_complete_graph sample_backend (complete_call "g" 4 "edges" (some "vertices")) sample_world).2).1 = Except.ok ()
    ∧ (create_complete_graph sample_backend (complete_call "g" 4 "edges" (some "vertices"))
          (create_complete_graph sample_backend (complete_call "g" 4 "edges" (some "vertices")) sample_world).2).2.log = sample_world.log ++ (new_insertions sample_world (create_complete_graph sample_backend (complete_call "g" 4 "edges" (some "vertices")) sample_world).2) ++ (new_insertions (create_complete_graph sample_backend (complete_call "g" 4 "edges" (some "vertices")) sample_world).2
          (create_complete_graph sample_backend (complete_call "g" 4 "edges" (some "vertices"))
          (create_complete_graph sample_backend (complete_call "g" 4 "edges" (some "vertices")) sample_world).2).2)
    ∧ (((vertex_ids (new_insertions sample_world (create_complete_graph sample_backend (complete_call "g" 4 "edges" (some "vertices")) sample_world).2)).length : Int) + ((vertex_ids (new_insertions (create_complete_graph sample_backend (complete_call "g" 4 "edges" (some "vertices")) sample_world).2
          (create_complete_graph sample_backend (complete_call "g" 4 "edges" (some "vertices"))
          (create_complete_graph sample_backend (complete_call "g" 4 "edges" (some "vertices")) sample_world).2).2)).length : Int) = 2 * 4)
    ∧ (((edge_ends (new_insertions sample_world (create_complete_graph sample_backend (complete_call "g" 4 "edges" (some "vertices")) sample_world).2)).length : Int) + ((edge_ends (new_insertions (create_complete_graph sample_backend (complete_call "g" 4 "edges" (some "vertices")) sample_world).2
          (create_complete_graph sample_backend (complete_call "g" 4 "edges" (some "vertices"))
          (create_complete_graph sample_backend (complete_call "g" 4 "edges" (some "vertices")) sample_world).2).2)).length : Int) = 4 * (4 - 1))
    ∧ List.Disjoint (vertex_ids (new_insertions sample_world (create_complete_graph sample_backend (complete_call "g" 4 "edges" (some "vertices")) sample_world).2)) (vertex_ids (new_insertions (create_complete_graph sample_backend (complete_call "g" 4 "edges" (some "vertices")) sample_world).2
          (create_complete_graph sample_backend (complete_call "g" 4 "edges" (some "vertices"))
          (create_complete_graph sample_backend (complete_call "g" 4 "edges" (some "vertices")) sample_world).2).2))
    ∧ (∀ e ∈ edge_ends (new_insertions (create_complete_graph sample_backend (complete_call "g" 4 "edges" (some "vertices")) sample_world).2
          (create_complete_graph sample_backend (complete_call "g" 4 "edges" (some "vertices"))
          (create_complete_graph sample_backend (complete_call "g" 4 "edges" (some "vertices")) sample_world).2).2), e.1 ∈ vertex_ids (new_insertions (create_complete_graph sample_backend (complete_call "g" 4 "edges" (some "vertices")) sample_world).2
          (create_complete_graph sample_backend (complete_call "g" 4 "edges" (some "vertices"))
          (create_complete_graph sample_backend (complete_call "g" 4 "edges" (some "vertices")) sample_world).2).2) ∧ e.2 ∈ vertex_ids (new_insertions (create_complete_graph sample_backend (complete_call "g" 4 "edges" (some "vertices")) sample_world).2
          (create_complete_graph sample_backend (complete_call "g" 4 "edges" (some "vertices"))
          (create_complete_graph sample_backend (complete_call "g" 4 "edges" (some "vertices")) sample_world).2).2))
    ∧ (∀ e ∈ edge_ends (new_insertions sample_world (create_complete_graph sample_backend (complete_call "g" 4 "edges" (some "vertices")) sample_world).2), e.1 ∈ vertex_ids (new_insertions sample_world (create_complete_graph sample_backend (complete_call "g" 4 "edges" (some "vertices")) sample_world).2) ∧ e.2 ∈ vertex_ids (new_insertions sample_world (create_complete_graph sample_backend (complete_call "g" 4 "edges" (some "vertices")) sample_world).2)) :=
  ⟨by decide, by decide,
   fun t => by rw [sample_world_upcoming, sample_world_upcoming]; push_cast; ring,
   fun x y h => sample_backend_injective _ x y h,
   create_complete_graph_twice sample_backend "g" "edges" 4 (some "vertices") sample_world
     (by decide) (by decide)
     (fun t => by rw [sample_world_upcoming, sample_world_upcoming]; push_cast; ring)
     (fun x y h => sample_backend_injective _ x y h)⟩

/-! ## Identifier collisions -/

theorem edge_ids_new_insertions (w w1 : World) (X : List graphid) (h : w.log <+: w1.log)
    (hv : edge_ids w1.log = edge_ids w.log ++ X) : edge_ids (new_insertions w w1) = X := by
  have e := new_insertions_spec w w1 h
  rw [e, edge_ids_append] at hv
  exact List.append_cancel_left hv

theorem edge_ids_cycle_rows (B : Backend) (graph : graph_components) (w : World) (K : Nat) :
    edge_ids (cycle_rows B graph w K)
      = (List.range (K + 1)).map (fun t => cycle_edge_id B graph w t) := by
  have mid : ∀ xs : List Nat, edge_ids (xs.flatMap (fun (t : Nat) =>
      [Insertion.vertex graph.graph_oid graph.vertex_label (cycle_vertex_id B graph w (t + 1))
         create_empty_agtype,
       Insertion.edge graph.graph_oid graph.edge_label (cycle_edge_id B graph w t)
         (cycle_vertex_id B graph w t) (cycle_vertex_id B graph w (t + 1)) create_empty_agtype]))
      = xs.map (fun t => cycle_edge_id B graph w t) := by
    intro xs
    induction xs with
    | nil => rfl
    | cons x xs ih =>
      rw [List.flatMap_cons, edge_ids_append, ih]
      simp [edge_ids]
  unfold cycle_rows
  rw [edge_ids_append, edge_ids_append, mid, List.range_succ, List.map_append]
  simp [edge_ids]

/-- Values of distinct positions of a duplicate-free stream, composed with one
label id by an injective composer, are pairwise different. -/
theorem nodup_map_composed (mk : Int → Int → graphid) (l : Int) (f : Nat → Int) (N : Nat)
    (hmk : ∀ x y, mk l x = mk l y → x = y) (hf : ∀ i j, f i = f j → i = j) :
    ((List.range N).map (fun t => mk l (f t))).Nodup :=
  List.Nodup.map_on (fun x _ y _ hxy => hf x y (hmk _ _ hxy)) (List.nodup_range N)

/-- The generation part of `create_complete_graph` draws the ids of its edges
from the edge sequence, when the two labels differ. -/
theorem create_complete_graph_topology_draws (B : Backend) (gname vname ename : String)
    (n : Int) (w : World) (hne : vname ≠ ename) :
    ∃ c, DrawsEdges B (B.get_graph_oid gname) ename
      (B.get_label_id ename (B.get_graph_oid gname)) w
      (create_complete_graph_topology B gname vname ename n w) c := by
  obtain ⟨h1, _, _, h4⟩ := create_complete_vertices_iterate B (B.get_graph_oid gname) vname
    (B.get_label_id vname (B.get_graph_oid gname)) create_empty_agtype (n + 1 - 1).toNat 1 1 w
  have hd := create_complete_edges_draws B (B.get_graph_oid gname) ename
    (B.get_label_id vname (B.get_graph_oid gname)) (B.get_label_id ename (B.get_graph_oid gname))
    create_empty_agtype n
  have h0 : DrawsEdges B (B.get_graph_oid gname) ename
      (B.get_label_id ename (B.get_graph_oid gname)) w
      (iterate_body (fun _ s => create_complete_vertex_step B (B.get_graph_oid gname) vname
        (B.get_label_id vname (B.get_graph_oid gname)) create_empty_agtype s)
        (n + 1 - 1).toNat 1 (1, w)).2 0 := by
    refine ⟨?_, fun t => ?_⟩
    · rw [h1, edge_ids_append, edge_ids_map_vertex]
      rfl
    · exact h4.others _ _ (fun h => hne h.2.symm) t
  unfold create_complete_graph_topology create_complete_vertices for_le
  obtain ⟨c, hc⟩ := hd
    (iterate_body (fun _ s => create_complete_vertex_step B (B.get_graph_oid gname) vname
      (B.get_label_id vname (B.get_graph_oid gname)) create_empty_agtype s)
      (n + 1 - 1).toNat 1 (1, w)).1
    (iterate_body (fun _ s => create_complete_vertex_step B (B.get_graph_oid gname) vname
      (B.get_label_id vname (B.get_graph_oid gname)) create_empty_agtype s)
      (n + 1 - 1).toNat 1 (1, w)).2
  exact ⟨0 + c, h0.then_draws hc⟩

theorem complete_world_draws (B : Backend) (gname vname ename : String) (n : Int)
    (w : World) (hne : vname ≠ ename) :
    ∃ c, DrawsEdges B (B.get_graph_oid gname) ename
      (B.get_label_id ename (B.get_graph_oid gname)) w
      (complete_world B gname vname ename n w) c := by
  obtain ⟨c, h1, h2⟩ := create_complete_graph_topology_draws B gname vname ename n
    (create_complete_graph_catalog B gname vname ename true w) hne
  refine ⟨c, ?_, ?_⟩
  · rw [create_complete_graph_catalog_log] at h1
    simp only [create_complete_graph_catalog_upcoming] at h1
    exact h1
  · intro t
    rw [← create_complete_graph_catalog_upcoming B gname vname ename true w]
    exact h2 t

/-- No collision in `create_complete_graph`: with sequences that never hand out
a value twice, an injective composer and different label ids, the vertices
added by an accepted call have pairwise different GraphIDs, so have the edges,
and no edge has the GraphID of a vertex. -/
theorem create_complete_graph_no_collision (B : Backend) (gname ename : String)
    (n : Int) (vopt : Option String) (w : World)
    (hlab : B.get_label_id (effective_vertex_label vopt) (B.get_graph_oid gname)
      ≠ B.get_label_id ename (B.get_graph_oid gname))
    (hcomp : ∀ l1 e1 l2 e2, B.make_graphid l1 e1 = B.make_graphid l2 e2 → l1 = l2 ∧ e1 = e2)
    (hv : ∀ i j, upcoming w (B.get_graph_oid gname) (effective_vertex_label vopt) i
      = upcoming w (B.get_graph_oid gname) (effective_vertex_label vopt) j → i = j)
    (he : ∀ i j, upcoming w (B.get_graph_oid gname) ename i
      = upcoming w (B.get_graph_oid gname) ename j → i = j) :
    (vertex_ids (new_insertions w
      (create_complete_graph B (complete_call gname n ename vopt) w).2)).Nodup
    ∧ (edge_ids (new_insertions w
      (create_complete_graph B (complete_call gname n ename vopt) w).2)).Nodup
    ∧ ∀ x ∈ vertex_ids (new_insertions w
        (create_complete_graph B (complete_call gname n ename vopt) w).2),
        x ∉ edge_ids (new_insertions w
          (create_complete_graph B (complete_call gname n ename vopt) w).2) := by
  have hne : effective_vertex_label vopt ≠ ename := fun h => hlab (by rw [h])
  have h3 : vopt ≠ some ename := fun h => hne (by rw [h]; rfl)
  obtain ⟨w1, hw, hp, hvs, _, _⟩ := create_complete_graph_run B gname ename n vopt w h3
  obtain ⟨c, hc, _⟩ := create_complete_graph_topology_draws B gname
    (effective_vertex_label vopt) ename n
    (create_complete_graph_catalog B gname (effective_vertex_label vopt) ename vopt.isSome w)
    hne
  rw [create_complete_graph_catalog_log] at hc
  simp only [create_complete_graph_catalog_upcoming] at hc
  have hw2 := create_complete_graph_accepted B gname ename n vopt w h3
  rw [hw] at hw2
  have e : w1 = create_complete_graph_topology B gname (effective_vertex_label vopt) ename n
      (create_complete_graph_catalog B gname (effective_vertex_label vopt) ename
        vopt.isSome w) := (Prod.mk.inj hw2).2
  rw [← e] at hc
  unfold complete_call
  rw [hw]
  simp only []
  have hes := edge_ids_new_insertions _ _ _ hp hc
  rw [hvs, hes]
  refine ⟨nodup_map_composed _ _ _ _ (fun x y h => (hcomp _ _ _ _ h).2) hv,
    nodup_map_composed _ _ _ _ (fun x y h => (hcomp _ _ _ _ h).2) he, ?_⟩
  intro x hx1 hx2
  rw [List.mem_map] at hx1 hx2
  obtain ⟨a, _, rfl⟩ := hx1
  obtain ⟨b, _, hb⟩ := hx2
  exact hlab (hcomp _ _ _ _ hb).1.symm

theorem create_barbell_bridge_draws (B : Backend) (gname vname ename : String) (m : Int)
    (w : World) :
    DrawsEdges B (B.get_graph_oid gname) ename (B.get_label_id ename (B.get_graph_oid gname)) w
      (create_barbell_bridge B gname vname ename m w) 1 := by
  refine ⟨?_, fun t => ?_⟩
  · rw [create_barbell_bridge_log, edge_ids_append]
    rfl
  · simp only [create_barbell_bridge, get_nextval_internal, upcoming_insert_edge]
    exact upcoming_nextval_same _ ename w t

/-- No collision in `age_create_barbell_graph`, under the same conditions. -/
theorem age_create_barbell_graph_no_collision (B : Backend) (gname vname ename : String)
    (m b : Int) (vprops eprops : Option agtype) (w : World) (hb : 0 ≤ int32_of b)
    (hlab : B.get_label_id vname (B.get_graph_oid gname)
      ≠ B.get_label_id ename (B.get_graph_oid gname))
    (hcomp : ∀ l1 e1 l2 e2, B.make_graphid l1 e1 = B.make_graphid l2 e2 → l1 = l2 ∧ e1 = e2)
    (hv : ∀ i j, upcoming w (B.get_graph_oid gname) vname i
      = upcoming w (B.get_graph_oid gname) vname j → i = j)
    (he : ∀ i j, upcoming w (B.get_graph_oid gname) ename i
      = upcoming w (B.get_graph_oid gname) ename j → i = j) :
    (vertex_ids (new_insertions w
      (age_create_barbell_graph B (barbell_call gname m b vname vprops ename eprops) w).2)).Nodup
    ∧ (edge_ids (new_insertions w
      (age_create_barbell_graph B (barbell_call gname m b vname vprops ename eprops) w).2)).Nodup
    ∧ ∀ x ∈ vertex_ids (new_insertions w
        (age_create_barbell_graph B (barbell_call gname m b vname vprops ename eprops) w).2),
        x ∉ edge_ids (new_insertions w
          (age_create_barbell_graph B (barbell_call gname m b vname vprops ename eprops)
            w).2) := by
  have hne : vname ≠ ename := fun h => hlab (by rw [h])
  obtain ⟨_, hp, hvs, _⟩ := age_create_barbell_graph_run B gname vname ename m b vprops
    eprops w hb hne
  obtain ⟨c1, d1⟩ := complete_world_draws B gname vname ename m w hne
  obtain ⟨c2, d2⟩ := complete_world_draws B gname vname ename m
    (complete_world B gname vname ename m w) hne
  have d3 := create_barbell_bridge_draws B gname vname ename m
    (complete_world B gname vname ename m (complete_world B gname vname ename m w))
  have d := (d1.then_draws d2).then_draws d3
  rw [age_create_barbell_graph_accepted B gname vname ename m b vprops eprops w hb hne]
    at hp hvs ⊢
  simp only [] at hp hvs ⊢
  have hes := edge_ids_new_insertions _ _ _ hp d.1
  rw [hvs, hes]
  have hmem : ∀ x, x ∈ (List.range m.toNat).map (fun t =>
        B.make_graphid (B.get_label_id vname (B.get_graph_oid gname))
          (upcoming w (B.get_graph_oid gname) vname t))
      ++ (List.range m.toNat).map (fun t =>
        B.make_graphid (B.get_label_id vname (B.get_graph_oid gname))
          (upcoming w (B.get_graph_oid gname) vname (t + m.toNat))) →
      ∃ e, x = B.make_graphid (B.get_label_id vname (B.get_graph_oid gname)) e := by
    intro x hx
    rw [List.mem_append, List.mem_map, List.mem_map] at hx
    rcases hx with ⟨a, _, rfl⟩ | ⟨a, _, rfl⟩ <;> exact ⟨_, rfl⟩
  refine ⟨?_, nodup_map_composed _ _ _ _ (fun x y h => (hcomp _ _ _ _ h).2) he, ?_⟩
  · refine List.Nodup.append
      (nodup_map_composed _ _ _ _ (fun x y h => (hcomp _ _ _ _ h).2) hv)
      (List.Nodup.map_on (fun x _ y _ hxy => by
        have := hv _ _ ((hcomp _ _ _ _ hxy).2)
        omega) (List.nodup_range _)) ?_
    intro x hx1 hx2
    rw [List.mem_map] at hx1 hx2
    obtain ⟨a, ha, rfl⟩ := hx1
    obtain ⟨b2, _, hb2⟩ := hx2
    rw [List.mem_range] at ha
    have := hv _ _ ((hcomp _ _ _ _ hb2).2)
    omega
  · intro x hx1 hx2
    obtain ⟨e, rfl⟩ := hmem x hx1
    rw [List.mem_map] at hx2
    obtain ⟨b2, _, hb2⟩ := hx2
    exact hlab (hcomp _ _ _ _ hb2).1.symm

/-- No collision in `create_cycle_graph`, when in addition the values handed out
stay different once stored in the `int` locals of `create_vertex` and
`connect_vertexes_by_graphid`. -/
theorem create_cycle_graph_no_collision (B : Backend) (gname ename : String) (n : Int)
    (vprops eprops : Option agtype) (vopt : Option String) (w : World)
    (hsize : 3 ≤ int32_of n)
    (hlab : B.get_label_id (effective_vertex_label vopt) (B.get_graph_oid gname)
      ≠ B.get_label_id ename (B.get_graph_oid gname))
    (hcomp : ∀ l1 e1 l2 e2, B.make_graphid l1 e1 = B.make_graphid l2 e2 → l1 = l2 ∧ e1 = e2)
    (hv : ∀ i j, int32_of (upcoming w (B.get_graph_oid gname) (effective_vertex_label vopt) i)
      = int32_of (upcoming w (B.get_graph_oid gname) (effective_vertex_label vopt) j) → i = j)
    (he : ∀ i j, int32_of (upcoming w (B.get_graph_oid gname) ename i)
      = int32_of (upcoming w (B.get_graph_oid gname) ename j) → i = j) :
    (vertex_ids (new_insertions w
      (create_cycle_graph B (cycle_call gname n ename vprops vopt eprops) w).2)).Nodup
    ∧ (edge_ids (new_insertions w
      (create_cycle_graph B (cycle_call gname n ename vprops vopt eprops) w).2)).Nodup
    ∧ ∀ x ∈ vertex_ids (new_insertions w
        (create_cycle_graph B (cycle_call gname n ename vprops vopt eprops) w).2),
        x ∉ edge_ids (new_insertions w
          (create_cycle_graph B (cycle_call gname n ename vprops vopt eprops) w).2) := by
  have hne : effective_vertex_label vopt ≠ ename := fun h => hlab (by rw [h])
  obtain ⟨_, h2⟩ := create_cycle_graph_run B gname ename n vprops eprops vopt w hsize hne
  rw [new_insertions_of_append _ _ _ h2, vertex_ids_cycle_rows, edge_ids_cycle_rows]
  refine ⟨?_, ?_, ?_⟩
  · exact List.Nodup.map_on (fun x _ y _ hxy => hv x y ((hcomp _ _ _ _ hxy).2))
      (List.nodup_range _)
  · exact List.Nodup.map_on (fun x _ y _ hxy => he x y ((hcomp _ _ _ _ hxy).2))
      (List.nodup_range _)
  · intro x hx1 hx2
    rw [List.mem_map] at hx1 hx2
    obtain ⟨a, _, rfl⟩ := hx1
    obtain ⟨b2, _, hb2⟩ := hx2
    exact hlab (hcomp _ _ _ _ hb2).1.symm

theorem sample_world_stride_upcoming (g : Oid) (l : String) (t : Nat) :
    upcoming sample_world_stride g l t = 1 + (t : Int) * 4294967296 := by
  simp [upcoming, sample_world_stride]

/-- Identifier collision in `create_cycle_graph` (C19).  The sequences hand out
1, 1 + 2^32, 1 + 2 * 2^32, ...: no value is handed out twice.  Whatever the
composer and the label ids, a call with size 3 gives its three vertices one and
the same GraphID, the one of local id 1, and its three edges one and the same
GraphID: `create_vertex` and `connect_vertexes_by_graphid` store the value in an
`int`. -/
theorem create_cycle_graph_collision (B : Backend) :
    (∀ (g : Oid) (l : String) (i j : Nat),
        upcoming sample_world_stride g l i = upcoming sample_world_stride g l j → i = j)
    ∧ vertex_ids (new_insertions sample_world_stride
        (create_cycle_graph B (cycle_call "g" 3 "edges" none (some "vertices") none)
          sample_world_stride).2)
      = [B.make_graphid (B.get_label_id "vertices" (B.get_graph_oid "g")) 1,
         B.make_graphid (B.get_label_id "vertices" (B.get_graph_oid "g")) 1,
         B.make_graphid (B.get_label_id "vertices" (B.get_graph_oid "g")) 1]
    ∧ edge_ids (new_insertions sample_world_stride
        (create_cycle_graph B (cycle_call "g" 3 "edges" none (some "vertices") none)
          sample_world_stride).2)
      = [B.make_graphid (B.get_label_id "edges" (B.get_graph_oid "g")) 1,
         B.make_graphid (B.get_label_id "edges" (B.get_graph_oid "g")) 1,
         B.make_graphid (B.get_label_id "edges" (B.get_graph_oid "g")) 1]
    ∧ ¬ (vertex_ids (new_insertions sample_world_stride
        (create_cycle_graph B (cycle_call "g" 3 "edges" none (some "vertices") none)
          sample_world_stride).2)).Nodup
    ∧ ¬ (edge_ids (new_insertions sample_world_stride
        (create_cycle_graph B (cycle_call "g" 3 "edges" none (some "vertices") none)
          sample_world_stride).2)).Nodup := by
  have hne : effective_vertex_label (some "vertices") ≠ "edges" := by decide
  obtain ⟨_, h2⟩ := create_cycle_graph_run B "g" "edges" 3 none none (some "vertices")
    sample_world_stride (by decide) hne
  have hnew := new_insertions_of_append _ _ _ h2
  have h32 : ∀ t : Nat, int32_of (1 + (t : Int) * 4294967296) = 1 := by
    intro t
    unfold int32_of
    omega
  have hK : (int32_of 3 - 1).toNat + 1 = 3 := by decide
  have hvs : vertex_ids (new_insertions sample_world_stride
      (create_cycle_graph B (cycle_call "g" 3 "edges" none (some "vertices") none)
        sample_world_stride).2)
      = [B.make_graphid (B.get_label_id "vertices" (B.get_graph_oid "g")) 1,
         B.make_graphid (B.get_label_id "vertices" (B.get_graph_oid "g")) 1,
         B.make_graphid (B.get_label_id "vertices" (B.get_graph_oid "g")) 1] := by
    rw [hnew, vertex_ids_cycle_rows, hK]
    simp [cycle_vertex_id, cycle_context, effective_vertex_label, sample_world_stride_upcoming,
      h32, List.range_succ]
  have hes : edge_ids (new_insertions sample_world_stride
      (create_cycle_graph B (cycle_call "g" 3 "edges" none (some "vertices") none)
        sample_world_stride).2)
      = [B.make_graphid (B.get_label_id "edges" (B.get_graph_oid "g")) 1,
         B.make_graphid (B.get_label_id "edges" (B.get_graph_oid "g")) 1,
         B.make_graphid (B.get_label_id "edges" (B.get_graph_oid "g")) 1] := by
    rw [hnew, edge_ids_cycle_rows, hK]
    simp [cycle_edge_id, cycle_context, sample_world_stride_upcoming, h32, List.range_succ]
  refine ⟨?_, hvs, hes, ?_, ?_⟩
  · intro g l i j h
    rw [sample_world_stride_upcoming, sample_world_stride_upcoming] at h
    omega
  · rw [hvs]
    simp
  · rw [hes]
    simp

/-! ## The vertex count of create_complete_graph -/

/-- With a negative vertex count neither loop of `create_complete_graph` runs:
the generation part leaves the world as it is. -/
theorem create_complete_graph_topology_negative (B : Backend) (gname vname ename : String)
    (n : Int) (w : World) (hn : n < 0) :
    create_complete_graph_topology B gname vname ename n w = w := by
  have h1 : (n + 1 - 1).toNat = 0 := by omega
  have h2 : (n - 1 + 1 - 1).toNat = 0 := by omega
  simp only [create_complete_graph_topology, create_complete_vertices, create_complete_edges,
    for_le, h1, h2, iterate_body]

theorem create_complete_graph_catalog_graphs (B : Backend) (gname vname ename : String)
    (b : Bool) (w : World) :
    (create_complete_graph_catalog B gname vname ename b w).graphs
      = if graph_exists w gname = true then w.graphs else w.graphs ++ [gname] := by
  unfold create_complete_graph_catalog
  simp only []
  by_cases h : graph_exists w gname = true
  · rw [if_pos h, if_pos h]
    split_ifs <;> rfl
  · rw [if_neg h, if_neg h]
    split_ifs <;> rfl

theorem graph_exists_create_complete_graph_catalog (B : Backend) (gname vname ename : String)
    (b : Bool) (w : World) :
    graph_exists (create_complete_graph_catalog B gname vname ename b w) gname = true := by
  unfold graph_exists
  rw [create_complete_graph_catalog_graphs]
  by_cases h : graph_exists w gname = true
  · rw [if_pos h]
    exact h
  · rw [if_neg h]
    simp

theorem create_complete_graph_catalog_labels (B : Backend) (gname vname ename : String)
    (b : Bool) (w : World) :
    w.labels <+: (create_complete_graph_catalog B gname vname ename b w).labels := by
  unfold create_complete_graph_catalog
  simp only []
  split_ifs <;>
    first
      | exact List.prefix_refl _
      | (simp only [create_graph, create_vlabel, create_elabel, List.append_assoc]
         exact List.prefix_append _ _)

theorem edge_label_exists_create_complete_graph_catalog (B : Backend)
    (gname vname ename : String) (b : Bool) (w : World) :
    label_exists (create_complete_graph_catalog B gname vname ename b w) ename
      (B.get_graph_oid gname) = true := by
  unfold create_complete_graph_catalog
  simp only []
  split_ifs with h1 h2 h3 h4 h5 h6 <;>
    first
      | assumption
      | simp [label_exists, create_elabel]

theorem vertex_label_exists_create_complete_graph_catalog (B : Backend)
    (gname vname ename : String) (w : World) :
    label_exists (create_complete_graph_catalog B gname vname ename true w) vname
      (B.get_graph_oid gname) = true := by
  have step : ∀ w1 : World,
      label_exists
        (if (true && !label_exists w1 vname (B.get_graph_oid gname)) = true then
          create_vlabel B gname vname w1 else w1) vname (B.get_graph_oid gname) = true := by
    intro w1
    by_cases h : label_exists w1 vname (B.get_graph_oid gname) = true
    · simp [h]
    · have h2 : label_exists w1 vname (B.get_graph_oid gname) = false := by simpa using h
      rw [h2]
      simp [label_exists, create_vlabel]
  have fin : ∀ w2 : World, label_exists w2 vname (B.get_graph_oid gname) = true →
      label_exists
        (if label_exists w2 ename (B.get_graph_oid gname) = true then w2
          else create_elabel B gname ename w2) vname (B.get_graph_oid gname) = true := by
    intro w2 h
    split_ifs
    · exact h
    · exact label_exists_append w2 _ vname _ h
  unfold create_complete_graph_catalog
  exact fin _ (step _)

theorem create_complete_graph_catalog_of_present (B : Backend) (gname vname ename : String)
    (b : Bool) (w : World) (hg : graph_exists w gname = true)
    (hv : b = true → label_exists w vname (B.get_graph_oid gname) = true)
    (he : label_exists w ename (B.get_graph_oid gname) = true) :
    create_complete_graph_catalog B gname vname ename b w = w := by
  unfold create_complete_graph_catalog
  cases b with
  | false => simp [hg, he]
  | true => simp [hg, he, hv rfl]

/-- C12 (as amended): `create_complete_graph` does not check the sign of the
vertex count.  For every negative count, a call that passes the checks of lines
157-196 returns normally and adds no row at all, no vertex and no edge.  Its
whole effect is that of the create-if-absent steps of lines 198-219: afterwards
the graph, the edge label and the supplied vertex label exist; the graph is
added to the catalog only when it was absent and no label is removed; a catalog
that already has them is left exactly as it was; no sequence is advanced. -/
theorem create_complete_graph_negative_count (B : Backend) (gname ename : String) (n : Int)
    (vopt : Option String) (w : World) (hn : n < 0) (h3 : vopt ≠ some ename) :
    (create_complete_graph B (complete_call gname n ename vopt) w).1 = Except.ok ()
    ∧ new_insertions w (create_complete_graph B (complete_call gname n ename vopt) w).2 = []
    ∧ (create_complete_graph B (complete_call gname n ename vopt) w).2.log = w.log
    ∧ (create_complete_graph B (complete_call gname n ename vopt) w).2
        = create_complete_graph_catalog B gname (effective_vertex_label vopt) ename
            vopt.isSome w
    ∧ graph_exists (create_complete_graph B (complete_call gname n ename vopt) w).2 gname
        = true
    ∧ label_exists (create_complete_graph B (complete_call gname n ename vopt) w).2 ename
        (B.get_graph_oid gname) = true
    ∧ (∀ v, vopt = some v →
        label_exists (create_complete_graph B (complete_call gname n ename vopt) w).2 v
          (B.get_graph_oid gname) = true)
    ∧ (create_complete_graph B (complete_call gname n ename vopt) w).2.graphs
        = (if graph_exists w gname = true then w.graphs else w.graphs ++ [gname])
    ∧ w.labels <+: (create_complete_graph B (complete_call gname n ename vopt) w).2.labels
    ∧ (graph_exists w gname = true →
        (∀ v, vopt = some v → label_exists w v (B.get_graph_oid gname) = true) →
        label_exists w ename (B.get_graph_oid gname) = true →
        (create_complete_graph B (complete_call gname n ename vopt) w).2 = w)
    ∧ (create_complete_graph B (complete_call gname n ename vopt) w).2.seqs = w.seqs := by
  have hrun : create_complete_graph B (complete_call gname n ename vopt) w
      = (Except.ok (),
         create_complete_graph_catalog B gname (effective_vertex_label vopt) ename
           vopt.isSome w) := by
    unfold complete_call
    rw [create_complete_graph_accepted B gname ename n vopt w h3,
      create_complete_graph_topology_negative B gname _ ename n _ hn]
  have hlog := create_complete_graph_catalog_log B gname (effective_vertex_label vopt) ename
    vopt.isSome w
  have hnew : new_insertions w (create_complete_graph_catalog B gname
      (effective_vertex_label vopt) ename vopt.isSome w) = [] := by
    unfold new_insertions
    rw [hlog, List.drop_length]
  rw [hrun]
  refine ⟨rfl, hnew, hlog, rfl,
    graph_exists_create_complete_graph_catalog B gname _ ename _ w,
    edge_label_exists_create_complete_graph_catalog B gname _ ename _ w, ?_,
    create_complete_graph_catalog_graphs B gname _ ename _ w,
    create_complete_graph_catalog_labels B gname _ ename _ w, ?_,
    create_complete_graph_catalog_seqs B gname _ ename _ w⟩
  · intro v hv
    subst hv
    exact vertex_label_exists_create_complete_graph_catalog B gname v ename w
  · intro hg hv he
    refine create_complete_graph_catalog_of_present B gname _ ename _ w hg ?_ he
    intro hb
    cases vopt with
    | none => cases hb
    | some v => exact hv v rfl

/-- C12, the claim as stated fails: with the vertex count -1 the call is not
rejected with ERRCODE_INVALID_PARAMETER_VALUE, it returns. -/
theorem create_complete_graph_negative_count_not_rejected :
    (-1 : Int) < 0
    ∧ (create_complete_graph sample_backend
        (complete_call "g" (-1) "edges" (some "vertices")) sample_world).1 = Except.ok ()
    ∧ ¬ ∃ msg, (create_complete_graph sample_backend
        (complete_call "g" (-1) "edges" (some "vertices")) sample_world).1
        = Except.error (Abort.ereport ErrCode.ERRCODE_INVALID_PARAMETER_VALUE msg) := by
  refine ⟨by decide, rfl, ?_⟩
  rintro ⟨msg, h⟩
  have h2 : (Except.ok () : Except Abort Unit)
      = Except.error (Abort.ereport ErrCode.ERRCODE_INVALID_PARAMETER_VALUE msg) := h
  cases h2

/-- Instance of C12 (as amended): the vertex count -5 in the empty database. -/
theorem create_complete_graph_negative_count_witness :
    (-5 : Int) < 0
    ∧ (some "vertices" : Option String) ≠ some "edges"
    ∧ (create_complete_graph sample_backend
        (complete_call "g" (-5) "edges" (some "vertices")) sample_world).1 = Except.ok ()
    ∧ new_insertions sample_world (create_complete_graph sample_backend
        (complete_call "g" (-5) "edges" (some "vertices")) sample_world).2 = []
    ∧ (create_complete_graph sample_backend
        (complete_call "g" (-5) "edges" (some "vertices")) sample_world).2.log
      = sample_world.log
    ∧ (create_complete_graph sample_backend
        (complete_call "g" (-5) "edges" (some "vertices")) sample_world).2
        = create_complete_graph_catalog sample_backend "g"
            (effective_vertex_label (some "vertices")) "edges"
            (some "vertices" : Option String).isSome sample_world
    ∧ graph_exists (create_complete_graph sample_backend
        (complete_call "g" (-5) "edges" (some "vertices")) sample_world).2 "g" = true
    ∧ label_exists (create_complete_graph sample_backend
        (complete_call "g" (-5) "edges" (some "vertices")) sample_world).2 "edges"
        (sample_backend.get_graph_oid "g") = true
    ∧ (∀ v, (some "vertices" : Option String) = some v →
        label_exists (create_complete_graph sample_backend
          (complete_call "g" (-5) "edges" (some "vertices")) sample_world).2 v
          (sample_backend.get_graph_oid "g") = true)
    ∧ (create_complete_graph sample_backend
        (complete_call "g" (-5) "edges" (some "vertices")) sample_world).2.graphs
        = (if graph_exists sample_world "g" = true then sample_world.graphs
           else sample_world.graphs ++ ["g"])
    ∧ sample_world.labels <+: (create_complete_graph sample_backend
        (complete_call "g" (-5) "edges" (some "vertices")) sample_world).2.labels
    ∧ (graph_exists sample_world "g" = true →
        (∀ v, (some "vertices" : Option String) = some v →
          label_exists sample_world v (sample_backend.get_graph_oid "g") = true) →
        label_exists sample_world "edges" (sample_backend.get_graph_oid "g") = true →
        (create_complete_graph sample_backend
          (complete_call "g" (-5) "edges" (some "vertices")) sample_world).2 = sample_world)
    ∧ (create_complete_graph sample_backend
        (complete_call "g" (-5) "edges" (some "vertices")) sample_world).2.seqs
      = sample_world.seqs :=
  ⟨by decide, by decide,
   create_complete_graph_negative_count sample_backend "g" "edges" (-5) (some "vertices")
     sample_world (by decide) (by decide)⟩

end GraphGeneration
